import Mathlib

/-!
# Fruit-order form server (`server.js`): validation, pricing, handler

A shallow embedding of `server.js`: the functions `validateInputs`,
`calculateTotalPurchase`, `generateReceipt` and `generateErrorHtml`, and the
handler of `POST /submit-form`, together with the pieces of the JavaScript
language they rely on (truthiness, `ToNumber` on strings, `parseInt`, binary64
rounding, relational comparison against a number, `toFixed`,
`RegExp.prototype.test`, property lookup on an object literal).

Conventions of the embedding:

* the body parser is `urlencoded` with `extended: true`, so a field of
  `req.body` is absent (`undefined`), a string, an array of such values (a name
  submitted several times, or written `name[]`) or an object of such values (a
  name written `name[key]`); `Field` has these four shapes.  An object has the
  ordinary prototype and the parser delivers any own property name except
  `__proto__`, so an own property `toString` (a string, not a function) can
  shadow the inherited method;
* a conversion to a string or to a number can throw a `TypeError` (an object
  whose own `toString` is not a function has no primitive value): the
  conversions return an `Option`, `none` standing for the throw, and so does
  every function of the program that converts a field;
* a JavaScript number is `NaN`, `+Infinity`, `-Infinity` or a finite value held
  as the exact rational it denotes; every arithmetic result and every numeric
  literal is rounded to binary64 (round to nearest, ties to even, gradual
  underflow, overflow to infinity).  The two zeros are identified: no
  operation of the program tells them apart;
* a string is a sequence of characters; the regular expressions of the program
  only test for ASCII digits, `-`, `@`, `.` and white space, so a character
  outside the basic plane (two UTF-16 code units, none of them white space)
  behaves like one non-space character;
* `salesTaxRates` is an object literal, so a property access on it finds its
  thirteen own properties and, failing that, the properties of
  `Object.prototype`;
* the store is outside the program: a run of the handler is taken against a
  `Store` that says which of `connect`, `insertOne` and `close` resolve, and it
  yields the calls made on the store, in order, and the response sent;
* the handler is an `async` function: an error thrown outside its `try` block
  rejects the promise it returns, and the handler itself sends no response
  (`response = none`); what the framework does with the rejected promise is
  outside the embedding.
-/

namespace FruitOrder

/-! ## JavaScript numbers -/

/-- A JavaScript number: `NaN`, the two infinities, or a finite value. -/
inductive JSNum
  | nan
  | posInf
  | negInf
  | fin (q : ℚ)
  deriving DecidableEq

/-- The rational `2 ^ e` for an integer exponent. -/
def pow2 (e : ℤ) : ℚ :=
  if 0 ≤ e then ((2 ^ e.toNat : ℕ) : ℚ) else 1 / ((2 ^ (-e).toNat : ℕ) : ℚ)

/-- Binary logarithm, rounded down, by repeated halving (`fuel` bounds the number of halvings). -/
def log2Fuel : ℕ → ℕ → ℕ
  | 0, _ => 0
  | fuel + 1, n => if n < 2 then 0 else log2Fuel fuel (n / 2) + 1

/-- Binary logarithm of a natural number, rounded down (`0` at `0`). -/
def natLog2 (n : ℕ) : ℕ := log2Fuel n n

/-- The binary exponent of a non-zero rational: the `e` with `2 ^ e ≤ |q| < 2 ^ (e + 1)`. -/
def floorLog2 (q : ℚ) : ℤ :=
  let e : ℤ := (natLog2 q.num.natAbs : ℤ) - (natLog2 q.den : ℤ)
  if pow2 e ≤ |q| then e else e - 1

/-- Rounding of a rational to the nearest integer, ties to the even one. -/
def roundHalfEven (q : ℚ) : ℤ :=
  let f := ⌊q⌋
  let r := q - f
  if r < 1 / 2 then f
  else if 1 / 2 < r then f + 1
  else if f % 2 = 0 then f else f + 1

/-- The binary64 value of a real result: 53 significant bits, exponents from `-1022` (below
which the spacing stays `2 ^ (-1074)`), results of magnitude `2 ^ 1024` become infinite. -/
def roundBinary64 (q : ℚ) : JSNum :=
  if q = 0 then .fin 0
  else
    let e := max (floorLog2 q) (-1022)
    let ulp := pow2 (e - 52)
    let r := (roundHalfEven (q / ulp) : ℚ) * ulp
    if pow2 1024 ≤ r then .posInf
    else if r ≤ -pow2 1024 then .negInf
    else .fin r

namespace JSNum

/-- The number written as a decimal literal in the source. -/
def lit (q : ℚ) : JSNum := roundBinary64 q

/-- The global `isNaN` on a number. -/
def isNaN : JSNum → Bool
  | nan => true
  | _ => false

/-- The operator `*` on numbers. -/
def mul : JSNum → JSNum → JSNum
  | nan, _ => nan
  | _, nan => nan
  | posInf, posInf => posInf
  | posInf, negInf => negInf
  | negInf, posInf => negInf
  | negInf, negInf => posInf
  | posInf, fin q => if q = 0 then nan else if 0 < q then posInf else negInf
  | negInf, fin q => if q = 0 then nan else if 0 < q then negInf else posInf
  | fin q, posInf => if q = 0 then nan else if 0 < q then posInf else negInf
  | fin q, negInf => if q = 0 then nan else if 0 < q then negInf else posInf
  | fin a, fin b => roundBinary64 (a * b)

/-- The operator `+` on numbers. -/
def add : JSNum → JSNum → JSNum
  | nan, _ => nan
  | _, nan => nan
  | posInf, negInf => nan
  | negInf, posInf => nan
  | posInf, _ => posInf
  | negInf, _ => negInf
  | fin _, posInf => posInf
  | fin _, negInf => negInf
  | fin a, fin b => roundBinary64 (a + b)

/-- The operator `<` on numbers (false as soon as one side is `NaN`). -/
def lt : JSNum → JSNum → Bool
  | nan, _ => false
  | _, nan => false
  | posInf, _ => false
  | _, negInf => false
  | negInf, _ => true
  | fin _, posInf => true
  | fin a, fin b => decide (a < b)

/-- The operator `<=` on numbers (false as soon as one side is `NaN`). -/
def le : JSNum → JSNum → Bool
  | nan, _ => false
  | _, nan => false
  | negInf, _ => true
  | _, posInf => true
  | posInf, _ => false
  | fin _, negInf => false
  | fin a, fin b => decide (a ≤ b)

/-- The operator `>` on numbers. -/
def gt (a b : JSNum) : Bool := lt b a

/-- The operator `>=` on numbers. -/
def ge (a b : JSNum) : Bool := le b a

/-- A number with no fractional part (`Number.isInteger`). -/
def isInteger : JSNum → Bool
  | fin q => decide (q.den = 1)
  | _ => false

end JSNum

/-! ## Strings to numbers -/

/-- The characters matched by `\s`, which are also the ones `ToNumber` trims: white space and
line terminators. -/
def isJSWhiteSpace (c : Char) : Bool :=
  let n := c.toNat
  n = 0x09 || n = 0x0A || n = 0x0B || n = 0x0C || n = 0x0D || n = 0x20 || n = 0xA0 ||
  n = 0x1680 || (0x2000 ≤ n && n ≤ 0x200A) || n = 0x2028 || n = 0x2029 || n = 0x202F ||
  n = 0x205F || n = 0x3000 || n = 0xFEFF

/-- The characters matched by `\d`: the ten ASCII digits. -/
def isDecimalDigit (c : Char) : Bool := 48 ≤ c.toNat && c.toNat ≤ 57

/-- Value of a digit in a base up to 16 (`none` for a character that is not such a digit). -/
def digitValue (base : ℕ) (c : Char) : Option ℕ :=
  let n := c.toNat
  let v : Option ℕ :=
    if 48 ≤ n && n ≤ 57 then some (n - 48)
    else if 97 ≤ n && n ≤ 102 then some (n - 87)
    else if 65 ≤ n && n ≤ 70 then some (n - 55)
    else none
  match v with
  | some d => if d < base then some d else none
  | none => none

/-- Value of a non-empty run of digits in the given base (`none` if empty or if a character is
not a digit of the base). -/
def digitsValue (base : ℕ) (cs : List Char) : Option ℕ :=
  if cs = [] then none
  else cs.foldl (fun acc c =>
    match acc, digitValue base c with
    | some a, some d => some (base * a + d)
    | _, _ => none) (some 0)

/-- String with the white space at both ends removed. -/
def trimJS (cs : List Char) : List Char :=
  ((cs.dropWhile isJSWhiteSpace).reverse.dropWhile isJSWhiteSpace).reverse

/-- Value of `0x…`, `0o…`, `0b…` literals (either case of the letter, no sign). -/
def parseNonDecimal : List Char → Option ℕ
  | '0' :: 'x' :: ds => digitsValue 16 ds
  | '0' :: 'X' :: ds => digitsValue 16 ds
  | '0' :: 'o' :: ds => digitsValue 8 ds
  | '0' :: 'O' :: ds => digitsValue 8 ds
  | '0' :: 'b' :: ds => digitsValue 2 ds
  | '0' :: 'B' :: ds => digitsValue 2 ds
  | _ => none

/-- Value of an exponent part `e±ddd` (`some 0` when there is none, `none` when malformed). -/
def parseExponent : List Char → Option ℤ
  | [] => some 0
  | c :: rest =>
    if c = 'e' ∨ c = 'E' then
      match rest with
      | '+' :: ds => (digitsValue 10 ds).map fun n => (n : ℤ)
      | '-' :: ds => (digitsValue 10 ds).map fun n => -(n : ℤ)
      | ds => (digitsValue 10 ds).map fun n => (n : ℤ)
    else none

/-- The rational `10 ^ e` for an integer exponent. -/
def pow10 (e : ℤ) : ℚ :=
  if 0 ≤ e then ((10 ^ e.toNat : ℕ) : ℚ) else 1 / ((10 ^ (-e).toNat : ℕ) : ℚ)

/-- Value of an unsigned decimal literal: `ddd`, `ddd.`, `ddd.ddd`, `.ddd`, each with an optional
exponent part. -/
def parseUnsignedDecimal (cs : List Char) : Option ℚ :=
  let ip := cs.takeWhile isDecimalDigit
  let r1 := cs.dropWhile isDecimalDigit
  let fp := match r1 with
    | '.' :: t => t.takeWhile isDecimalDigit
    | _ => []
  let r2 := match r1 with
    | '.' :: t => t.dropWhile isDecimalDigit
    | _ => r1
  if ip = [] ∧ fp = [] then none
  else
    match parseExponent r2 with
    | none => none
    | some e =>
      let i : ℚ := ((digitsValue 10 ip).getD 0 : ℕ)
      let f : ℚ := ((digitsValue 10 fp).getD 0 : ℕ) / ((10 ^ fp.length : ℕ) : ℚ)
      some ((i + f) * pow10 e)

/-- The abstract operation `StringToNumber`: the empty or blank string is `0`; a decimal literal
with optional sign, `Infinity` with optional sign, or an unsigned hexadecimal, octal or binary
literal gives its value, rounded; anything else is `NaN`. -/
def stringToNumber (s : String) : JSNum :=
  let t := trimJS s.toList
  if t = [] then .fin 0
  else
    match parseNonDecimal t with
    | some n => roundBinary64 n
    | none =>
      let neg : Bool := match t with
        | '-' :: _ => true
        | _ => false
      let u := match t with
        | '-' :: r => r
        | '+' :: r => r
        | _ => t
      if u = "Infinity".toList then (if neg then .negInf else .posInf)
      else
        match parseUnsignedDecimal u with
        | some q => roundBinary64 (if neg then -q else q)
        | none => .nan

/-! ## Values, truthiness, coercions -/

/-- A field of `req.body` as the url-encoded parser delivers it under `extended: true`: absent,
a string, an array (a name submitted several times, or written `name[]`), or an object (a name
written `name[key]`); arrays and objects hold such values in turn.  The entries of an object are
its own properties. -/
inductive Field
  | undefined
  | str (s : String)
  | arr (items : List Field)
  | obj (entries : List (String × Field))

mutual
/-- Equality of two fields is decidable. -/
def Field.decEq : (a b : Field) → Decidable (a = b)
  | .undefined, .undefined => isTrue rfl
  | .undefined, .str _ => isFalse (fun h => Field.noConfusion h)
  | .undefined, .arr _ => isFalse (fun h => Field.noConfusion h)
  | .undefined, .obj _ => isFalse (fun h => Field.noConfusion h)
  | .str _, .undefined => isFalse (fun h => Field.noConfusion h)
  | .str s, .str t =>
    if h : s = t then isTrue (congrArg Field.str h)
    else isFalse (fun h2 => h (Field.str.inj h2))
  | .str _, .arr _ => isFalse (fun h => Field.noConfusion h)
  | .str _, .obj _ => isFalse (fun h => Field.noConfusion h)
  | .arr _, .undefined => isFalse (fun h => Field.noConfusion h)
  | .arr _, .str _ => isFalse (fun h => Field.noConfusion h)
  | .arr xs, .arr ys =>
    match Field.decEqList xs ys with
    | isTrue h => isTrue (congrArg Field.arr h)
    | isFalse h => isFalse (fun h2 => h (Field.arr.inj h2))
  | .arr _, .obj _ => isFalse (fun h => Field.noConfusion h)
  | .obj _, .undefined => isFalse (fun h => Field.noConfusion h)
  | .obj _, .str _ => isFalse (fun h => Field.noConfusion h)
  | .obj _, .arr _ => isFalse (fun h => Field.noConfusion h)
  | .obj xs, .obj ys =>
    match Field.decEqEntries xs ys with
    | isTrue h => isTrue (congrArg Field.obj h)
    | isFalse h => isFalse (fun h2 => h (Field.obj.inj h2))
/-- Equality of two lists of fields is decidable. -/
def Field.decEqList : (a b : List Field) → Decidable (a = b)
  | [], [] => isTrue rfl
  | [], _ :: _ => isFalse (fun h => List.noConfusion h)
  | _ :: _, [] => isFalse (fun h => List.noConfusion h)
  | x :: xs, y :: ys =>
    match Field.decEq x y, Field.decEqList xs ys with
    | isTrue h1, isTrue h2 => isTrue (by rw [h1, h2])
    | isFalse h1, _ => isFalse (fun h => h1 (List.cons.inj h).1)
    | _, isFalse h2 => isFalse (fun h => h2 (List.cons.inj h).2)
/-- Equality of two lists of named fields is decidable. -/
def Field.decEqEntries : (a b : List (String × Field)) → Decidable (a = b)
  | [], [] => isTrue rfl
  | [], _ :: _ => isFalse (fun h => List.noConfusion h)
  | _ :: _, [] => isFalse (fun h => List.noConfusion h)
  | (k, x) :: xs, (l, y) :: ys =>
    if hk : k = l then
      match Field.decEq x y, Field.decEqEntries xs ys with
      | isTrue h1, isTrue h2 => isTrue (by rw [hk, h1, h2])
      | isFalse h1, _ => isFalse (fun h => h1 (Prod.mk.inj (List.cons.inj h).1).2)
      | _, isFalse h2 => isFalse (fun h => h2 (List.cons.inj h).2)
    else isFalse (fun h => hk (Prod.mk.inj (List.cons.inj h).1).1)
end

instance : DecidableEq Field := Field.decEq

/-- A value met in the program: `undefined`, a string, a number, an object of the language (the
functions and the prototype object that an object literal inherits), or an array or object of
the form data. -/
inductive JSVal
  | undefined
  | str (s : String)
  | num (n : JSNum)
  | object
  | arr (items : List Field)
  | obj (entries : List (String × Field))
  deriving DecidableEq

/-- A form field seen as a value. -/
def Field.toVal : Field → JSVal
  | .undefined => .undefined
  | .str s => .str s
  | .arr items => .arr items
  | .obj entries => .obj entries

/-- The abstract operation `ToBoolean`: `undefined`, the empty string, `0` and `NaN` are falsy;
every array and every object is truthy. -/
def JSVal.truthy : JSVal → Bool
  | .undefined => false
  | .str s => decide (s ≠ "")
  | .num .nan => false
  | .num (.fin q) => decide (q ≠ 0)
  | .num _ => true
  | .object => true
  | .arr _ => true
  | .obj _ => true

mutual
/-- The abstract operation `ToString` on a form field (also the property key it denotes);
`none` when it throws a `TypeError`.  An array gives its elements joined by commas.  An object
of the form data has no callable property of its own, so it gives `[object Object]` through the
inherited `toString`, unless it has an own property `toString`, which hides the inherited one:
then no method yields a primitive and the conversion throws. -/
def Field.toStr? : Field → Option String
  | .undefined => some "undefined"
  | .str s => some s
  | .arr items => Field.join? items
  | .obj entries =>
    if entries.any (fun entry => entry.1 == "toString") then none else some "[object Object]"
/-- The method `join` of an array, with the separator `,`: an `undefined` element counts as the
empty string, any other element is converted by `ToString`. -/
def Field.join? : List Field → Option String
  | [] => some ""
  | [x] =>
    match x with
    | .undefined => some ""
    | y => Field.toStr? y
  | x :: y :: rest =>
    match (match x with
      | .undefined => some ""
      | z => Field.toStr? z), Field.join? (y :: rest) with
    | some first, some others => some (first ++ "," ++ others)
    | _, _ => none
end

/-- The abstract operation `ToNumber`; `none` when it throws a `TypeError`.  `undefined` and
the objects of the language give `NaN`, a string goes through `stringToNumber`, an array or
object of the form data is first made a primitive, which is the string of `ToString`. -/
def JSVal.toNumber? : JSVal → Option JSNum
  | .undefined => some .nan
  | .str s => some (stringToNumber s)
  | .num n => some n
  | .object => some .nan
  | .arr items => (Field.arr items).toStr?.map stringToNumber
  | .obj entries => (Field.obj entries).toStr?.map stringToNumber

/-- The global `isNaN(v)`: coerces to a number first. -/
def isNaN (v : JSVal) : Option Bool := v.toNumber?.map JSNum.isNaN

/-! ## Regular expressions -/

/-- The regular-expression constructs used by the program (plus the empty language and
alternation, which matching by derivatives needs). -/
inductive Re
  | none
  | eps
  | cls (p : Char → Bool)
  | seq (a b : Re)
  | alt (a b : Re)
  | star (a : Re)

namespace Re

/-- The literal character `c`. -/
def chr (c : Char) : Re := cls fun x => x == c

/-- The class `\d`. -/
def digit : Re := cls isDecimalDigit

/-- The class `\S`. -/
def nonSpace : Re := cls fun x => !isJSWhiteSpace x

/-- Any character at all. -/
def any : Re := cls fun _ => true

/-- The quantifier `+`. -/
def plus (a : Re) : Re := seq a (star a)

/-- The quantifier `{n}`. -/
def rep (a : Re) : ℕ → Re
  | 0 => eps
  | n + 1 => seq a (rep a n)

/-- Whether the expression matches the empty string. -/
def nullable : Re → Bool
  | none => false
  | eps => true
  | cls _ => false
  | seq a b => nullable a && nullable b
  | alt a b => nullable a || nullable b
  | star _ => true

/-- The expression matching what is left of a match after the character `c`. -/
def deriv : Re → Char → Re
  | none, _ => none
  | eps, _ => none
  | cls p, c => if p c then eps else none
  | seq a b, c => if nullable a then alt (seq (deriv a c) b) (deriv b c) else seq (deriv a c) b
  | alt a b, c => alt (deriv a c) (deriv b c)
  | star a, c => seq (deriv a c) (star a)

/-- Whether the expression matches the whole of the given characters. -/
def accepts : Re → List Char → Bool
  | r, [] => nullable r
  | r, c :: cs => accepts (deriv r c) cs

/-- The words a regular expression matches in full: the meaning that `accepts` computes. -/
inductive Matches : Re → List Char → Prop
  | eps : Matches eps []
  | cls (p : Char → Bool) (c : Char) : p c = true → Matches (cls p) [c]
  | seq (a b : Re) (u v : List Char) : Matches a u → Matches b v → Matches (seq a b) (u ++ v)
  | altLeft (a b : Re) (u : List Char) : Matches a u → Matches (alt a b) u
  | altRight (a b : Re) (u : List Char) : Matches b u → Matches (alt a b) u
  | starNil (a : Re) : Matches (star a) []
  | starCons (a : Re) (u v : List Char) : Matches a u → Matches (star a) v →
      Matches (star a) (u ++ v)

end Re

/-- A regular-expression literal without flags: a body, anchored or not at each end. -/
structure RegExp where
  /-- the pattern starts with `^` -/
  anchoredStart : Bool
  /-- the pattern between the anchors -/
  body : Re
  /-- the pattern ends with `$` -/
  anchoredEnd : Bool

/-- The method `test` on a string: is there a match of the body starting anywhere (at the start
if anchored) and ending anywhere (at the end if anchored). -/
def RegExp.test (r : RegExp) (s : String) : Bool :=
  let before := if r.anchoredStart then Re.eps else Re.star Re.any
  let after := if r.anchoredEnd then Re.eps else Re.star Re.any
  Re.accepts (Re.seq before (Re.seq r.body after)) s.toList

/-- The literal `/^\d{3}-\d{3}-\d{4}$/`. -/
def phoneRegExp : RegExp :=
  { anchoredStart := true
    body := Re.seq (Re.rep Re.digit 3) (Re.seq (Re.chr '-') (Re.seq (Re.rep Re.digit 3)
      (Re.seq (Re.chr '-') (Re.rep Re.digit 4))))
    anchoredEnd := true }

/-- The literal `/\S+@\S+\.\S+/`. -/
def emailRegExp : RegExp :=
  { anchoredStart := false
    body := Re.seq (Re.plus Re.nonSpace) (Re.seq (Re.chr '@') (Re.seq (Re.plus Re.nonSpace)
      (Re.seq (Re.chr '.') (Re.plus Re.nonSpace))))
    anchoredEnd := false }

/-! ## The functions of `server.js` -/

/-- The method `push` of an array. -/
def push (errors : List String) (msg : String) : List String := errors ++ [msg]

/-- The function `validateInputs`: the list of error messages, in the order the checks run;
`none` when a coercion throws.  `test` converts its argument to a string, `isNaN` and the
comparisons convert theirs to a number; a conversion gives the same outcome each time it is
applied to a value, so each one is written once, where the source first applies it (bananas is
converted on every path: in the condition of the combined check, or in the last check when `&&`
skips it there). -/
def validateInputs (name address city province phoneNumber email apples bananas : Field) :
    Option (List String) := do
  let errors : List String := []
  let errors := if !name.toVal.truthy then push errors "Name is required." else errors
  let errors := if !address.toVal.truthy then push errors "Address is required." else errors
  let errors := if !city.toVal.truthy then push errors "City is required." else errors
  let errors := if !province.toVal.truthy then push errors "Province is required." else errors
  let phoneText ← phoneNumber.toStr?
  let errors :=
    if !phoneRegExp.test phoneText then
      push errors "Phone Number must be in the format 555-555-5555."
    else errors
  let emailText ← email.toStr?
  let errors :=
    if !emailRegExp.test emailText then push errors "Invalid Email Address format." else errors
  let applesNumber ← apples.toVal.toNumber?
  let bananasNumber ← bananas.toVal.toNumber?
  let errors :=
    if (applesNumber.isNaN || applesNumber.le (.fin 0)) &&
        (bananasNumber.isNaN || bananasNumber.le (.fin 0)) then
      push errors "At least one of Apples or Bananas quantity must be greater than 0."
    else
      let errors :=
        if applesNumber.isNaN || applesNumber.lt (.fin 0) then
          push errors "Apples quantity must be a positive number."
        else errors
      let errors :=
        if bananasNumber.isNaN || bananasNumber.lt (.fin 0) then
          push errors "Bananas quantity must be a positive number."
        else errors
      errors
  return errors

/-- The function `calculateTotalPurchase`: `(apples * applePrice) + (bananas * bananaPrice)`. -/
def calculateTotalPurchase (apples bananas : JSVal) : Option JSNum := do
  let applePrice : JSNum := .fin 3
  let bananaPrice : JSNum := .fin 2
  return ((← apples.toNumber?).mul applePrice).add ((← bananas.toNumber?).mul bananaPrice)

/-- The object literal `salesTaxRates`: its thirteen own properties. -/
def salesTaxRates : List (String × JSNum) :=
  [ ("Alberta", .lit 0.05),
    ("British Columbia", .lit 0.12),
    ("Manitoba", .lit 0.13),
    ("New Brunswick", .lit 0.15),
    ("Newfoundland and Labrador", .lit 0.15),
    ("Northwest Territories", .lit 0.05),
    ("Nova Scotia", .lit 0.15),
    ("Nunavut", .lit 0.05),
    ("Ontario", .lit 0.13),
    ("Prince Edward Island", .lit 0.15),
    ("Quebec", .lit 0.14975),
    ("Saskatchewan", .lit 0.11),
    ("Yukon", .lit 0.05) ]

/-- The property names every object literal inherits from `Object.prototype`; each holds a
function, except `__proto__`, which holds the prototype object itself. -/
def objectPrototypeKeys : List String :=
  [ "constructor", "hasOwnProperty", "isPrototypeOf", "propertyIsEnumerable", "toLocaleString",
    "toString", "valueOf", "__proto__", "__defineGetter__", "__defineSetter__",
    "__lookupGetter__", "__lookupSetter__" ]

/-- The property access `salesTaxRates[key]`: an own property, else an inherited one, else
`undefined`. -/
def salesTaxRatesGet (key : String) : JSVal :=
  match salesTaxRates.lookup key with
  | some rate => .num rate
  | none => if key ∈ objectPrototypeKeys then .object else .undefined

/-- The operator `||`: the left operand if it is truthy, else the right one. -/
def JSVal.or (a b : JSVal) : JSVal := if a.truthy then a else b

/-- The pricing values computed at the top of `generateReceipt`. -/
structure Pricing where
  /-- value of `salesTaxRates[formData.province] || 0` -/
  taxRate : JSVal
  /-- value of `totalPurchase * taxRate` -/
  tax : JSNum
  /-- value of `totalPurchase + tax` -/
  totalCost : JSNum
  deriving DecidableEq

/-- The pricing part of `generateReceipt(formData, totalPurchase)`: only the province of the form
data takes part in it, as the property key it converts to. -/
def generateReceiptPricing (province : Field) (totalPurchase : JSNum) : Option Pricing := do
  let taxRate := (salesTaxRatesGet (← province.toStr?)).or (.num (.fin 0))
  let tax := totalPurchase.mul (← taxRate.toNumber?)
  let totalCost := totalPurchase.add tax
  return { taxRate := taxRate, tax := tax, totalCost := totalCost }

/-! ## Numbers to strings, strings to integers -/

/-- The decimal digits of a natural number, most significant first. -/
def decimalDigits (n : ℕ) : List Char := Nat.toDigits 10 n

/-- The shortest significand for `Number::toString` on the integer `N` of `n` digits: the least
number of digits `k`, from the given one on, for which some `s * 10 ^ (n - k)` rounds to `N`; of
the two candidates around `N` the closer one, the even one on a tie. -/
def shortestSignificand (N n : ℕ) : ℕ → ℕ → Option ℕ
  | 0, _ => none
  | fuel + 1, k =>
    let p := 10 ^ (n - k)
    let s1 := N / p
    let s2 := s1 + 1
    let ok1 := decide (roundBinary64 ((s1 * p : ℕ) : ℚ) = .fin N)
    let ok2 := decide (roundBinary64 ((s2 * p : ℕ) : ℚ) = .fin N)
    if ok1 && ok2 then
      if N - s1 * p < s2 * p - N then some s1
      else if s2 * p - N < N - s1 * p then some s2
      else if s1 % 2 = 0 then some s1 else some s2
    else if ok1 then some s1
    else if ok2 then some s2
    else shortestSignificand N n fuel (k + 1)

/-- The operation `Number::toString` on a binary64 value of at least `10 ^ 21` (an integer):
exponential notation with the fewest digits that read back as the same value. -/
def numberToStringLarge (x : ℚ) : List Char :=
  let N := ⌊x⌋.toNat
  let n := (decimalDigits N).length
  let exponent := 'e' :: '+' :: decimalDigits (n - 1)
  if roundBinary64 ((10 ^ n : ℕ) : ℚ) = .fin N then '1' :: 'e' :: '+' :: decimalDigits n
  else
    match shortestSignificand N n 17 1 with
    | none => decimalDigits N
    | some s =>
      match decimalDigits s with
      | [] => exponent
      | [d] => d :: exponent
      | d :: ds => d :: '.' :: (ds ++ exponent)

/-- The method `toFixed(2)` of a number: `NaN` and the infinities by name; otherwise the sign,
then the value rounded to hundredths (halves upwards) with at least one digit before the
point, or the exponential notation from `10 ^ 21` on. -/
def toFixed2 : JSNum → String
  | .nan => "NaN"
  | .posInf => "Infinity"
  | .negInf => "-Infinity"
  | .fin q =>
    let sign := if q < 0 then "-" else ""
    let x := |q|
    if pow10 21 ≤ x then sign ++ String.mk (numberToStringLarge x)
    else
      let n := ⌊x * 100 + 1 / 2⌋.toNat
      let m := decimalDigits n
      let m := if m.length ≤ 2 then List.replicate (3 - m.length) '0' ++ m else m
      sign ++ String.mk (m.take (m.length - 2)) ++ "." ++ String.mk (m.drop (m.length - 2))


/-- The global `parseInt` on a form field, without radix: the field is converted to a string
(`none` when that throws), leading white space is skipped, then an optional sign, then `0x` or
`0X` selects base 16, then the longest run of digits of the base is read; `NaN` when that run
is empty. -/
def parseInt (v : Field) : Option JSNum := do
  let s := (← v.toStr?).toList.dropWhile isJSWhiteSpace
  let neg : Bool := match s with
    | '-' :: _ => true
    | _ => false
  let s := match s with
    | '-' :: r => r
    | '+' :: r => r
    | _ => s
  let radix : ℕ := match s with
    | '0' :: 'x' :: _ => 16
    | '0' :: 'X' :: _ => 16
    | _ => 10
  let s := match s with
    | '0' :: 'x' :: r => r
    | '0' :: 'X' :: r => r
    | _ => s
  match digitsValue radix (s.takeWhile fun c => (digitValue radix c).isSome) with
  | none => return .nan
  | some n => return roundBinary64 (if neg then -(n : ℚ) else (n : ℚ))

/-! ## The pages and the handler of `/submit-form` -/

/-- The object `req.body`: the eight fields the handler reads. -/
structure FormData where
  /-- field `name` -/
  name : Field
  /-- field `address` -/
  address : Field
  /-- field `city` -/
  city : Field
  /-- field `province` -/
  province : Field
  /-- field `phoneNumber` -/
  phoneNumber : Field
  /-- field `email` -/
  email : Field
  /-- field `apples` -/
  apples : Field
  /-- field `bananas` -/
  bananas : Field
  deriving DecidableEq

/-- The apples line of the receipt, `formData.apples > 0 ? ... : ''`. -/
def applesLine (formData : FormData) : Option String := do
  let applePrice : JSNum := .fin 3
  let applesNumber ← formData.apples.toVal.toNumber?
  let applesCost := applesNumber.mul applePrice
  if applesNumber.gt (.fin 0) then
    return "<p>Apples Purchased @ $3: " ++ (← formData.apples.toStr?) ++ " - $" ++
      toFixed2 applesCost ++ "</p>"
  else return ""

/-- The bananas line of the receipt, `formData.bananas > 0 ? ... : ''`. -/
def bananasLine (formData : FormData) : Option String := do
  let bananaPrice : JSNum := .fin 2
  let bananasNumber ← formData.bananas.toVal.toNumber?
  let bananasCost := bananasNumber.mul bananaPrice
  if bananasNumber.gt (.fin 0) then
    return "<p>Bananas Purchased @ $2: " ++ (← formData.bananas.toStr?) ++ " - $" ++
      toFixed2 bananasCost ++ "</p>"
  else return ""

/-- The function `generateReceipt`: the receipt page, a template filled with the form data as
submitted and the amounts with two decimals; `none` when a coercion throws (every one throws
the same kind of error, so which comes first makes no difference). -/
def generateReceipt (formData : FormData) (totalPurchase : JSNum) : Option String := do
  let pricing ← generateReceiptPricing formData.province totalPurchase
  let taxPercentage := (← pricing.taxRate.toNumber?).mul (.fin 100)
  return "<h1>Receipt</h1>\n            <p>Name: " ++ (← formData.name.toStr?) ++
    "</p>\n            <p>Email: " ++ (← formData.email.toStr?) ++
    "</p>\n            <p>Phone Number: " ++ (← formData.phoneNumber.toStr?) ++
    "</p>\n            <p>Address: " ++ (← formData.address.toStr?) ++ ", " ++
    (← formData.city.toStr?) ++ ", " ++ (← formData.province.toStr?) ++
    "</p>\n            " ++ (← applesLine formData) ++
    "\n            " ++ (← bananasLine formData) ++
    "\n            <p>Total Purchase: $" ++ toFixed2 totalPurchase ++
    "</p>\n            <p>Sales Tax (" ++ toFixed2 taxPercentage ++ "%): $" ++
    toFixed2 pricing.tax ++
    "</p>\n            <p>Total Cost: $" ++ toFixed2 pricing.totalCost ++ "</p>"

/-- The function `generateErrorHtml`: the error page, one list item per message. -/
def generateErrorHtml (errors : List String) : String :=
  "<ul>" ++ String.join (errors.map fun error => "<li>" ++ error ++ "</li>") ++
    "</ul><a href=\"/\">Go back</a>"

/-- A call the handler makes on the store client. -/
inductive StoreCall
  | connect
  | insertOne (saleData : List (String × JSVal))
  | close
  deriving DecidableEq

/-- How the store answers one run of the handler: whether `connect`, `insertOne` on a given
record and `close` resolve (`true`) or throw (`false`). -/
structure Store where
  /-- `await client.connect()` resolves -/
  connectOk : Bool
  /-- `await collection.insertOne(saleData)` resolves -/
  insertOk : List (String × JSVal) → Bool
  /-- `await client.close()` resolves -/
  closeOk : Bool

/-- What `res` carries when the handler returns: the status code and the body sent. -/
structure Response where
  /-- status code (`200` unless `res.status` is called) -/
  status : ℕ
  /-- argument of `res.send` -/
  body : String
  deriving DecidableEq

/-- One run of the handler: the calls made on the store, in order, whether `console.error` was
called, and the response sent (`none` when the handler throws outside its `try` block, before
any `res.send`). -/
structure Run where
  /-- calls on the store client, in order -/
  storeCalls : List StoreCall
  /-- whether the `catch` block logged an error -/
  errorLogged : Bool
  /-- the response sent, if any -/
  response : Option Response
  deriving DecidableEq

/-- The object literal `saleData` built in the handler; `none` when `parseInt` throws. -/
def saleData (body : FormData) (totalPurchase : JSNum) : Option (List (String × JSVal)) := do
  return [ ("name", body.name.toVal),
    ("address", body.address.toVal),
    ("city", body.city.toVal),
    ("province", body.province.toVal),
    ("phoneNumber", body.phoneNumber.toVal),
    ("email", body.email.toVal),
    ("apples", .num (← parseInt body.apples)),
    ("bananas", .num (← parseInt body.bananas)),
    ("totalPurchase", .num totalPurchase) ]

/-- The answer of the `catch` block: status `500` with a fixed body. -/
def internalServerError : Response := { status := 500, body := "Internal server error" }

/-- The handler of `POST /submit-form` on the body `body`, against a store that answers as
`store` says.  An error thrown before the `try` block or after it leaves the handler with no
response sent; one thrown inside the `try` block, by the store or by building the record, is
caught there. -/
def submitForm (store : Store) (body : FormData) : Run :=
  match validateInputs body.name body.address body.city body.province body.phoneNumber
    body.email body.apples body.bananas with
  | none => { storeCalls := [], errorLogged := false, response := none }
  | some errors =>
    if errors.length > 0 then
      { storeCalls := [], errorLogged := false,
        response := some { status := 200, body := generateErrorHtml errors } }
    else
      match calculateTotalPurchase body.apples.toVal body.bananas.toVal with
      | none => { storeCalls := [], errorLogged := false, response := none }
      | some totalPurchase =>
        if totalPurchase.lt (.fin 10) then
          { storeCalls := [], errorLogged := false,
            response := some { status := 200, body := "Minimum purchase should be $10." } }
        else if !store.connectOk then
          { storeCalls := [.connect], errorLogged := true, response := some internalServerError }
        else
          match saleData body totalPurchase with
          | none =>
            { storeCalls := [.connect], errorLogged := true,
              response := some internalServerError }
          | some record =>
            if !store.insertOk record then
              { storeCalls := [.connect, .insertOne record], errorLogged := true,
                response := some internalServerError }
            else if !store.closeOk then
              { storeCalls := [.connect, .insertOne record, .close], errorLogged := true,
                response := some internalServerError }
            else
              { storeCalls := [.connect, .insertOne record, .close], errorLogged := false,
                response := (generateReceipt body totalPurchase).map fun receiptHtml =>
                  { status := 200, body := receiptHtml } }

/-! ## Vocabulary of the properties -/

/-- The messages one check contributes: `[msg]` when the check fails, nothing otherwise. -/
def errorIf (failed : Bool) (msg : String) : List String := if failed then [msg] else []

/-- The condition of the first quantity branch, on the number the quantity converts to:
`isNaN(q) || q <= 0`. -/
def notPositive (q : JSNum) : Bool := q.isNaN || q.le (.fin 0)

/-- The condition of the inner quantity checks, on the number the quantity converts to:
`isNaN(q) || q < 0`. -/
def notNumberOrNegative (q : JSNum) : Bool := q.isNaN || q.lt (.fin 0)

/-- A field that is absent or the empty string. -/
def Field.isMissing : Field → Bool
  | .undefined => true
  | .str s => decide (s = "")
  | .arr _ => false
  | .obj _ => false

mutual
/-- The strings submitted under a field: the field itself when it is a string, the strings
inside it when it is an array or an object, none when it is absent. -/
def Field.values : Field → List String
  | .undefined => []
  | .str s => [s]
  | .arr items => Field.valuesOfItems items
  | .obj entries => Field.valuesOfEntries entries
/-- The strings inside the elements of an array. -/
def Field.valuesOfItems : List Field → List String
  | [] => []
  | x :: rest => Field.values x ++ Field.valuesOfItems rest
/-- The strings inside the properties of an object. -/
def Field.valuesOfEntries : List (String × Field) → List String
  | [] => []
  | (_, x) :: rest => Field.values x ++ Field.valuesOfEntries rest
end

/-- The four required-field messages. -/
def requiredMessages : List String :=
  ["Name is required.", "Address is required.", "City is required.", "Province is required."]

/-- The three messages of the quantity checks. -/
def quantityMessages : List String :=
  [ "At least one of Apples or Bananas quantity must be greater than 0.",
    "Apples quantity must be a positive number.",
    "Bananas quantity must be a positive number." ]

/-- A complete form body with valid contact fields, for the given province and quantities. -/
def sampleOrder (province apples bananas : String) : FormData :=
  { name := .str "Ann", address := .str "1 Main St", city := .str "Ottawa",
    province := .str province, phoneNumber := .str "555-555-5555", email := .str "a@b.c",
    apples := .str apples, bananas := .str bananas }

/-- A store on which every call resolves. -/
def reliableStore : Store := { connectOk := true, insertOk := fun _ => true, closeOk := true }

/-- A store that cannot be reached: `connect` throws. -/
def unreachableStore : Store :=
  { connectOk := false, insertOk := fun _ => true, closeOk := true }

/-- A store that connects and whose `insertOne` throws. -/
def rejectingStore : Store := { connectOk := true, insertOk := fun _ => false, closeOk := true }

/-- No non-empty end of `lit` is a start of `m`, and `m` is the start of no end of `lit`: a match
of `m` cannot begin inside `lit`. -/
def headSafe (m lit : List Char) : Bool :=
  lit.tails.all fun t => t.isEmpty || (!t.isPrefixOf m && !m.isPrefixOf t)

/-- The page contains the text. -/
@[reducible] def containsText (page text : String) : Prop := text.data <:+: page.data


/-- The six fields of the form data that the receipt shows as text, in the order of the
template. -/
def FormData.textFields (formData : FormData) : List Field :=
  [ formData.name, formData.email, formData.phoneNumber, formData.address, formData.city,
    formData.province ]

/-- What a text must satisfy for the literal parts of the receipt template not to produce it
around a filled-in part: it has an `@`, it has none of the characters that follow the filled-in
parts, it does not end with a space, and no match of it can begin inside a literal part. -/
def markerOk (m : List Char) : Bool :=
  decide ('@' ∈ m) && decide ('<' ∉ m) && decide (',' ∉ m) && decide ('\n' ∉ m) &&
  decide ('%' ∉ m) && decide ('-' ∉ m) && decide (m.getLast? ≠ some ' ') &&
  headSafe m "<h1>Receipt</h1>\n            <p>Name: ".data &&
  headSafe m "/p>\n            <p>Email: ".data &&
  headSafe m "/p>\n            <p>Phone Number: ".data &&
  headSafe m "/p>\n            <p>Address: ".data &&
  headSafe m " ".data &&
  headSafe m "/p>".data &&
  headSafe m "            ".data &&
  headSafe m "            <p>Total Purchase: $".data &&
  headSafe m "/p>\n            <p>Sales Tax (".data &&
  headSafe m "): $".data &&
  headSafe m "/p>\n            <p>Total Cost: $".data &&
  headSafe m " $".data

/-- Three digits, a hyphen, three digits, a hyphen, four digits, and nothing else. -/
def isPhoneFormat : List Char → Bool
  | [a, b, c, x, d, e, f, y, g, h, i, j] =>
    isDecimalDigit a && isDecimalDigit b && isDecimalDigit c && x == '-' &&
    isDecimalDigit d && isDecimalDigit e && isDecimalDigit f && y == '-' &&
    isDecimalDigit g && isDecimalDigit h && isDecimalDigit i && isDecimalDigit j
  | _ => false

/-! ## Regular expressions: matching by derivatives computes the matched words -/

namespace Re

theorem matches_none (s : List Char) : ¬ Matches none s := by
  intro h; cases h

theorem matches_eps_iff (s : List Char) : Matches eps s ↔ s = [] := by
  constructor
  · intro h; cases h; rfl
  · rintro rfl; exact Matches.eps

theorem matches_cls_iff (p : Char → Bool) (s : List Char) :
    Matches (cls p) s ↔ ∃ c, p c = true ∧ s = [c] := by
  constructor
  · intro h; cases h with
    | cls _ c hc => exact ⟨c, hc, rfl⟩
  · rintro ⟨c, hc, rfl⟩; exact Matches.cls p c hc

theorem matches_seq_iff (a b : Re) (s : List Char) :
    Matches (seq a b) s ↔ ∃ u v, s = u ++ v ∧ Matches a u ∧ Matches b v := by
  constructor
  · intro h; cases h with
    | seq _ _ u v hu hv => exact ⟨u, v, rfl, hu, hv⟩
  · rintro ⟨u, v, rfl, hu, hv⟩; exact Matches.seq a b u v hu hv

theorem matches_alt_iff (a b : Re) (s : List Char) :
    Matches (alt a b) s ↔ Matches a s ∨ Matches b s := by
  constructor
  · intro h; cases h with
    | altLeft _ _ _ h => exact Or.inl h
    | altRight _ _ _ h => exact Or.inr h
  · rintro (h | h)
    · exact Matches.altLeft a b s h
    · exact Matches.altRight a b s h

/-- A non-empty match of a starred expression starts with a non-empty match of its body. -/
theorem matches_star_cons (a : Re) (s : List Char) (h : Matches (star a) s) :
    ∀ c t, s = c :: t → ∃ u v, t = u ++ v ∧ Matches a (c :: u) ∧ Matches (star a) v := by
  generalize hr : star a = r at h
  induction h with
  | eps => intro c t h; cases h
  | cls p c hc => cases hr
  | seq => cases hr
  | altLeft => cases hr
  | altRight => cases hr
  | starNil => intro c t h; cases h
  | starCons a1 u v hu hv _ ih =>
    cases hr
    intro c t hs
    cases u with
    | nil => exact ih rfl c t hs
    | cons d u1 =>
      simp only [List.cons_append, List.cons.injEq] at hs
      obtain ⟨rfl, rfl⟩ := hs
      exact ⟨u1, v, rfl, hu, hv⟩

theorem nullable_iff (r : Re) : nullable r = true ↔ Matches r [] := by
  induction r with
  | none => simp [nullable, matches_none]
  | eps => simp [nullable, matches_eps_iff]
  | cls p => simp [nullable, matches_cls_iff]
  | seq a b iha ihb =>
    simp only [nullable, Bool.and_eq_true, iha, ihb, matches_seq_iff]
    constructor
    · rintro ⟨ha, hb⟩; exact ⟨[], [], rfl, ha, hb⟩
    · rintro ⟨u, v, h, ha, hb⟩
      have h1 : u = [] ∧ v = [] := by simpa using h.symm
      obtain ⟨rfl, rfl⟩ := h1
      exact ⟨ha, hb⟩
  | alt a b iha ihb => simp [nullable, iha, ihb, matches_alt_iff]
  | star a _ => simp [nullable, Matches.starNil]

theorem deriv_iff (r : Re) : ∀ (c : Char) (s : List Char),
    Matches (deriv r c) s ↔ Matches r (c :: s) := by
  induction r with
  | none => intro c s; simp [deriv, matches_none]
  | eps => intro c s; simp [deriv, matches_none, matches_eps_iff]
  | cls p =>
    intro c s
    by_cases hp : p c = true
    · simp only [deriv, hp, if_true, matches_eps_iff, matches_cls_iff, List.cons.injEq]
      constructor
      · intro h; exact ⟨c, hp, rfl, h⟩
      · rintro ⟨_, _, _, h⟩; exact h
    · simp only [deriv, hp, matches_cls_iff]
      simp only [Bool.false_eq_true, if_false, matches_none, false_iff]
      rintro ⟨d, hd, h⟩
      simp only [List.cons.injEq] at h
      exact hp (h.1 ▸ hd)
  | seq a b iha ihb =>
    intro c s
    have key : Matches (seq a b) (c :: s) ↔
        (∃ u v, s = u ++ v ∧ Matches a (c :: u) ∧ Matches b v) ∨
          (Matches a [] ∧ Matches b (c :: s)) := by
      rw [matches_seq_iff]
      constructor
      · rintro ⟨u, v, h, hu, hv⟩
        cases u with
        | nil => right; simp only [List.nil_append] at h; exact ⟨hu, h ▸ hv⟩
        | cons d u1 =>
          left
          simp only [List.cons_append, List.cons.injEq] at h
          obtain ⟨rfl, rfl⟩ := h
          exact ⟨u1, v, rfl, hu, hv⟩
      · rintro (⟨u, v, rfl, hu, hv⟩ | ⟨ha, hb⟩)
        · exact ⟨c :: u, v, rfl, hu, hv⟩
        · exact ⟨[], c :: s, rfl, ha, hb⟩
    rw [key]
    by_cases hn : nullable a = true
    · simp only [deriv, if_pos hn, matches_alt_iff, matches_seq_iff, iha, ihb]
      rw [nullable_iff] at hn
      simp [hn]
    · simp only [deriv, if_neg hn, matches_seq_iff, iha]
      rw [nullable_iff] at hn
      simp [hn]
  | alt a b iha ihb => intro c s; simp [deriv, matches_alt_iff, iha, ihb]
  | star a iha =>
    intro c s
    simp only [deriv, matches_seq_iff, iha]
    constructor
    · rintro ⟨u, v, rfl, hu, hv⟩
      exact Matches.starCons a (c :: u) v hu hv
    · intro h
      exact matches_star_cons a (c :: s) h c s rfl

theorem accepts_iff (s : List Char) : ∀ r : Re, accepts r s = true ↔ Matches r s := by
  induction s with
  | nil => intro r; simp [accepts, nullable_iff]
  | cons c cs ih => intro r; simp [accepts, ih, deriv_iff]

theorem matches_star_any (s : List Char) : Matches (star any) s := by
  induction s with
  | nil => exact Matches.starNil any
  | cons c cs ih => exact Matches.starCons any [c] cs (Matches.cls _ c rfl) ih

theorem matches_chr_iff (c : Char) (s : List Char) : Matches (chr c) s ↔ s = [c] := by
  unfold chr
  rw [matches_cls_iff]
  constructor
  · rintro ⟨d, hd, rfl⟩
    have : d = c := by simpa using hd
    rw [this]
  · rintro rfl
    exact ⟨c, by simp, rfl⟩

end Re

/-! ## The two patterns of `validateInputs` -/

theorem test_anchored (body : Re) (s : String) :
    RegExp.test ⟨true, body, true⟩ s = true ↔ Re.Matches body s.toList := by
  simp only [RegExp.test, if_true, Re.accepts_iff, Re.matches_seq_iff, Re.matches_eps_iff]
  constructor
  · rintro ⟨u, v, h, rfl, w, x, rfl, hw, rfl⟩
    rw [h]
    simpa using hw
  · intro h
    exact ⟨[], s.toList, rfl, rfl, s.toList, [], by simp, h, rfl⟩

theorem test_unanchored (body : Re) (s : String) :
    RegExp.test ⟨false, body, false⟩ s = true ↔
      ∃ u v w, s.toList = u ++ (v ++ w) ∧ Re.Matches body v := by
  simp only [RegExp.test, Bool.false_eq_true, if_false, Re.accepts_iff, Re.matches_seq_iff]
  constructor
  · rintro ⟨u, x, h, _, v, w, rfl, hv, _⟩
    exact ⟨u, v, w, h, hv⟩
  · rintro ⟨u, v, w, h, hv⟩
    exact ⟨u, v ++ w, h, Re.matches_star_any u, v, w, rfl, hv, Re.matches_star_any w⟩

theorem matches_rep_digit_three (s : List Char) :
    Re.Matches (Re.rep Re.digit 3) s ↔
      ∃ a b c, s = [a, b, c] ∧ isDecimalDigit a = true ∧ isDecimalDigit b = true ∧
        isDecimalDigit c = true := by
  simp only [Re.rep, Re.digit, Re.matches_seq_iff, Re.matches_cls_iff, Re.matches_eps_iff]
  constructor
  · rintro ⟨_, _, rfl, ⟨a, ha, rfl⟩, _, _, rfl, ⟨b, hb, rfl⟩, _, _, rfl, ⟨c, hc, rfl⟩, rfl⟩
    exact ⟨a, b, c, rfl, ha, hb, hc⟩
  · rintro ⟨a, b, c, rfl, ha, hb, hc⟩
    exact ⟨[a], [b, c], rfl, ⟨a, ha, rfl⟩, [b], [c], rfl, ⟨b, hb, rfl⟩, [c], [], rfl,
      ⟨c, hc, rfl⟩, rfl⟩

theorem matches_rep_digit_four (s : List Char) :
    Re.Matches (Re.rep Re.digit 4) s ↔
      ∃ a b c d, s = [a, b, c, d] ∧ isDecimalDigit a = true ∧ isDecimalDigit b = true ∧
        isDecimalDigit c = true ∧ isDecimalDigit d = true := by
  have h : Re.rep Re.digit 4 = Re.seq Re.digit (Re.rep Re.digit 3) := rfl
  rw [h]
  simp only [Re.matches_seq_iff, matches_rep_digit_three]
  simp only [Re.digit, Re.matches_cls_iff]
  constructor
  · rintro ⟨_, _, rfl, ⟨a, ha, rfl⟩, b, c, d, rfl, hb, hc, hd⟩
    exact ⟨a, b, c, d, rfl, ha, hb, hc, hd⟩
  · rintro ⟨a, b, c, d, rfl, ha, hb, hc, hd⟩
    exact ⟨[a], [b, c, d], rfl, ⟨a, ha, rfl⟩, b, c, d, rfl, hb, hc, hd⟩

theorem isPhoneFormat_iff (s : List Char) :
    isPhoneFormat s = true ↔
      ∃ a b c d e f g h i j, s = [a, b, c, '-', d, e, f, '-', g, h, i, j] ∧
        (isDecimalDigit a = true ∧ isDecimalDigit b = true ∧ isDecimalDigit c = true) ∧
        (isDecimalDigit d = true ∧ isDecimalDigit e = true ∧ isDecimalDigit f = true) ∧
        (isDecimalDigit g = true ∧ isDecimalDigit h = true ∧ isDecimalDigit i = true ∧
          isDecimalDigit j = true) := by
  constructor
  · intro hs
    unfold isPhoneFormat at hs
    split at hs
    · rename_i a b c x d e f y g h i j
      simp only [Bool.and_eq_true, beq_iff_eq] at hs
      obtain ⟨⟨⟨⟨⟨⟨⟨⟨⟨⟨⟨ha, hb⟩, hc⟩, rfl⟩, hd⟩, he⟩, hf⟩, rfl⟩, hg⟩, hh⟩, hi⟩, hj⟩ := hs
      exact ⟨a, b, c, d, e, f, g, h, i, j, rfl, ⟨ha, hb, hc⟩, ⟨hd, he, hf⟩, hg, hh, hi, hj⟩
    · cases hs
  · rintro ⟨a, b, c, d, e, f, g, h, i, j, rfl, ⟨ha, hb, hc⟩, ⟨hd, he, hf⟩, hg, hh, hi, hj⟩
    simp [isPhoneFormat, ha, hb, hc, hd, he, hf, hg, hh, hi, hj]

/-- The phone pattern accepts exactly the strings `ddd-ddd-dddd`. -/
theorem phoneRegExp_test_iff (s : String) :
    phoneRegExp.test s = true ↔ isPhoneFormat s.toList = true := by
  unfold phoneRegExp
  rw [test_anchored, isPhoneFormat_iff]
  simp only [Re.matches_seq_iff, matches_rep_digit_three, matches_rep_digit_four,
    Re.matches_chr_iff]
  constructor
  · rintro ⟨_, _, h, ⟨a, b, c, rfl, h1⟩, _, _, rfl, rfl, _, _, rfl, ⟨d, e, f, rfl, h2⟩, _, _,
      rfl, rfl, g, h', i, j, rfl, h3⟩
    exact ⟨a, b, c, d, e, f, g, h', i, j, h, h1, h2, h3⟩
  · rintro ⟨a, b, c, d, e, f, g, h, i, j, hs, h1, h2, h3⟩
    exact ⟨[a, b, c], _, hs, ⟨a, b, c, rfl, h1⟩, ['-'], _, rfl, rfl, [d, e, f], _, rfl,
      ⟨d, e, f, rfl, h2⟩, ['-'], _, rfl, rfl, g, h, i, j, rfl, h3⟩

/-- A string the email pattern accepts has an `@` with a `.` somewhere after it. -/
theorem emailRegExp_test_dot_after_at (s : String) (h : emailRegExp.test s = true) :
    ∃ pre post, s.toList = pre ++ '@' :: post ∧ '.' ∈ post := by
  unfold emailRegExp at h
  rw [test_unanchored] at h
  obtain ⟨u, v, w, hs, hv⟩ := h
  simp only [Re.matches_seq_iff, Re.matches_chr_iff] at hv
  obtain ⟨x, _, rfl, _, _, _, rfl, rfl, y, _, rfl, _, _, z, rfl, rfl, _⟩ := hv
  refine ⟨u ++ x, y ++ ('.' :: z) ++ w, ?_, by simp⟩
  rw [hs]
  simp

theorem not_emailRegExp_test_undefined : emailRegExp.test "undefined" = false := by decide

theorem not_phoneRegExp_test_undefined : phoneRegExp.test "undefined" = false := by decide


/-! ## Comparisons with zero -/

theorem notPositive_eq_false_iff (n : JSNum) :
    notPositive n = false ↔ n.gt (.fin 0) = true := by
  cases n <;> simp [notPositive, JSNum.isNaN, JSNum.le, JSNum.gt, JSNum.lt]

theorem notNumberOrNegative_eq_false_iff (n : JSNum) :
    notNumberOrNegative n = false ↔ n.ge (.fin 0) = true := by
  cases n <;> simp [notNumberOrNegative, JSNum.isNaN, JSNum.le, JSNum.ge, JSNum.lt]

/-! ## The shape of the result of `validateInputs` -/

theorem mem_errorIf (failed : Bool) (msg m : String) :
    m ∈ errorIf failed msg ↔ failed = true ∧ m = msg := by
  cases failed <;> simp [errorIf]

theorem not_truthy_eq_isMissing (f : Field) : (!f.toVal.truthy) = f.isMissing := by
  cases f <;> simp [Field.toVal, JSVal.truthy, Field.isMissing]

/-- When the four coercions of `validateInputs` succeed, it returns the concatenation of what
each check contributes. -/
theorem validateInputs_eq_some
    (name address city province phoneNumber email apples bananas : Field)
    (p e : String) (a b : JSNum)
    (hp : phoneNumber.toStr? = some p) (he : email.toStr? = some e)
    (ha : apples.toVal.toNumber? = some a) (hb : bananas.toVal.toNumber? = some b) :
    validateInputs name address city province phoneNumber email apples bananas =
      some (errorIf name.isMissing "Name is required." ++
      (errorIf address.isMissing "Address is required." ++
      (errorIf city.isMissing "City is required." ++
      (errorIf province.isMissing "Province is required." ++
      (errorIf (!phoneRegExp.test p) "Phone Number must be in the format 555-555-5555." ++
      (errorIf (!emailRegExp.test e) "Invalid Email Address format." ++
      (errorIf (notPositive a && notPositive b)
          "At least one of Apples or Bananas quantity must be greater than 0." ++
      (errorIf (!(notPositive a && notPositive b) && notNumberOrNegative a)
          "Apples quantity must be a positive number." ++
       errorIf (!(notPositive a && notPositive b) && notNumberOrNegative b)
          "Bananas quantity must be a positive number.")))))))) := by
  simp only [← not_truthy_eq_isMissing]
  unfold validateInputs notPositive notNumberOrNegative errorIf push
  simp only [hp, he, ha, hb, Option.bind_eq_bind, Option.some_bind, Option.pure_def]
  cases name.toVal.truthy <;> cases address.toVal.truthy <;> cases city.toVal.truthy <;>
    cases province.toVal.truthy <;> cases phoneRegExp.test p <;>
    cases emailRegExp.test e <;>
    cases (a.isNaN || a.le (.fin 0)) <;>
    cases (b.isNaN || b.le (.fin 0)) <;>
    cases (a.isNaN || a.lt (.fin 0)) <;>
    cases (b.isNaN || b.lt (.fin 0)) <;> rfl

/-- The function `validateInputs` throws exactly when one of its four coercions does. -/
theorem validateInputs_eq_none_iff
    (name address city province phoneNumber email apples bananas : Field) :
    validateInputs name address city province phoneNumber email apples bananas = none ↔
      phoneNumber.toStr? = none ∨ email.toStr? = none ∨ apples.toVal.toNumber? = none ∨
        bananas.toVal.toNumber? = none := by
  cases hp : phoneNumber.toStr? with
  | none => simp [validateInputs, hp]
  | some p =>
    cases he : email.toStr? with
    | none => simp [validateInputs, hp, he]
    | some e =>
      cases ha : apples.toVal.toNumber? with
      | none => simp [validateInputs, hp, he, ha]
      | some a =>
        cases hb : bananas.toVal.toNumber? with
        | none => simp [validateInputs, hp, he, ha, hb]
        | some b =>
          rw [validateInputs_eq_some name address city province phoneNumber email apples bananas
            p e a b hp he ha hb]
          simp

/-- What `validateInputs` returns is the concatenation of what each check contributes, on the
string that `phoneNumber` and `email` convert to and the numbers that `apples` and `bananas`
convert to. -/
theorem validateInputs_some
    (name address city province phoneNumber email apples bananas : Field)
    (errors : List String)
    (h : validateInputs name address city province phoneNumber email apples bananas =
      some errors) :
    ∃ (p e : String) (a b : JSNum), phoneNumber.toStr? = some p ∧ email.toStr? = some e ∧
      apples.toVal.toNumber? = some a ∧ bananas.toVal.toNumber? = some b ∧
      errors = errorIf name.isMissing "Name is required." ++
      (errorIf address.isMissing "Address is required." ++
      (errorIf city.isMissing "City is required." ++
      (errorIf province.isMissing "Province is required." ++
      (errorIf (!phoneRegExp.test p) "Phone Number must be in the format 555-555-5555." ++
      (errorIf (!emailRegExp.test e) "Invalid Email Address format." ++
      (errorIf (notPositive a && notPositive b)
          "At least one of Apples or Bananas quantity must be greater than 0." ++
      (errorIf (!(notPositive a && notPositive b) && notNumberOrNegative a)
          "Apples quantity must be a positive number." ++
       errorIf (!(notPositive a && notPositive b) && notNumberOrNegative b)
          "Bananas quantity must be a positive number."))))))) := by
  have hne : validateInputs name address city province phoneNumber email apples bananas ≠
      none := by rw [h]; exact Option.some_ne_none _
  rw [Ne, validateInputs_eq_none_iff] at hne
  push_neg at hne
  obtain ⟨h1, h2, h3, h4⟩ := hne
  obtain ⟨p, hp⟩ := Option.ne_none_iff_exists'.1 h1
  obtain ⟨e, he⟩ := Option.ne_none_iff_exists'.1 h2
  obtain ⟨a, ha⟩ := Option.ne_none_iff_exists'.1 h3
  obtain ⟨b, hb⟩ := Option.ne_none_iff_exists'.1 h4
  refine ⟨p, e, a, b, hp, he, ha, hb, ?_⟩
  rw [validateInputs_eq_some name address city province phoneNumber email apples bananas
    p e a b hp he ha hb] at h
  exact (Option.some.inj h).symm

theorem isMissing_iff (f : Field) : f.isMissing = true ↔ f = .undefined ∨ f = .str "" := by
  cases f <;> simp [Field.isMissing]

theorem isMissing_eq_false_iff (f : Field) :
    f.isMissing = false ↔ f ≠ .undefined ∧ f ≠ .str "" := by
  cases f <;> simp [Field.isMissing]

theorem filter_errorIf (p : String → Bool) (failed : Bool) (msg : String) :
    (errorIf failed msg).filter p = errorIf (failed && p msg) msg := by
  cases failed <;> cases h : p msg <;> simp [errorIf, h]

theorem countP_errorIf (p : String → Bool) (failed : Bool) (msg : String) :
    (errorIf failed msg).countP p = if (failed && p msg) = true then 1 else 0 := by
  cases failed <;> cases h : p msg <;> simp [errorIf, h]

theorem errorIf_eq_nil_iff (failed : Bool) (msg : String) :
    errorIf failed msg = [] ↔ failed = false := by
  cases failed <;> simp [errorIf]

/-- The function `validateInputs` returns the empty list exactly when the coercions succeed and
every check passes. -/
theorem validateInputs_eq_nil_iff
    (name address city province phoneNumber email apples bananas : Field) :
    validateInputs name address city province phoneNumber email apples bananas = some [] ↔
      name.isMissing = false ∧ address.isMissing = false ∧ city.isMissing = false ∧
      province.isMissing = false ∧
      (∃ p, phoneNumber.toStr? = some p ∧ phoneRegExp.test p = true) ∧
      (∃ e, email.toStr? = some e ∧ emailRegExp.test e = true) ∧
      ∃ a b, apples.toVal.toNumber? = some a ∧ bananas.toVal.toNumber? = some b ∧
        (notPositive a = false ∨ notPositive b = false) ∧
        notNumberOrNegative a = false ∧ notNumberOrNegative b = false := by
  constructor
  · intro h
    obtain ⟨p, e, a, b, hp, he, ha, hb, heq⟩ := validateInputs_some _ _ _ _ _ _ _ _ _ h
    have heq2 := heq.symm
    simp only [List.append_eq_nil, errorIf_eq_nil_iff] at heq2
    obtain ⟨h1, h2, h3, h4, h5, h6, h7, h8, h9⟩ := heq2
    refine ⟨h1, h2, h3, h4, ⟨p, hp, by simpa using h5⟩, ⟨e, he, by simpa using h6⟩, a, b, ha, hb,
      ?_, ?_, ?_⟩
    · revert h7; cases notPositive a <;> cases notPositive b <;> simp
    · revert h7 h8; cases notPositive a <;> cases notPositive b <;>
        cases notNumberOrNegative a <;> simp
    · revert h7 h9; cases notPositive a <;> cases notPositive b <;>
        cases notNumberOrNegative b <;> simp
  · rintro ⟨h1, h2, h3, h4, ⟨p, hp, h5⟩, ⟨e, he, h6⟩, a, b, ha, hb, h7, h8, h9⟩
    rw [validateInputs_eq_some name address city province phoneNumber email apples bananas
      p e a b hp he ha hb]
    rcases h7 with h7 | h7 <;> simp [h1, h2, h3, h4, h5, h6, h7, h8, h9, errorIf]

/-- On absent or string fields `validateInputs` returns: such fields convert without error. -/
theorem validateInputs_isSome_of_strings (name address city province : Field)
    (phoneNumber email apples bananas : Field)
    (hp : phoneNumber = .undefined ∨ ∃ s, phoneNumber = .str s)
    (he : email = .undefined ∨ ∃ s, email = .str s)
    (ha : apples = .undefined ∨ ∃ s, apples = .str s)
    (hb : bananas = .undefined ∨ ∃ s, bananas = .str s) :
    (validateInputs name address city province phoneNumber email apples bananas).isSome =
      true := by
  rw [Option.isSome_iff_ne_none, Ne, validateInputs_eq_none_iff]
  rcases hp with rfl | ⟨_, rfl⟩ <;> rcases he with rfl | ⟨_, rfl⟩ <;>
    rcases ha with rfl | ⟨_, rfl⟩ <;> rcases hb with rfl | ⟨_, rfl⟩ <;>
    simp [Field.toStr?, Field.toVal, JSVal.toNumber?]


/-! ## Required fields -/

/-- C1 (counterexample): with the name submitted twice and left empty both times (`name=&name=`,
which the parser delivers as the array `['', '']`), every value submitted for the name is the
empty string, yet `validateInputs` returns the empty list: no `Name is required.`. -/
theorem required_message_absent_for_empty_values :
    (∀ v ∈ (Field.arr [.str "", .str ""]).values, v = "") ∧
    validateInputs (.arr [.str "", .str ""]) (.str "1 Main St") (.str "Ottawa") (.str "Ontario")
      (.str "555-555-5555") (.str "a@b.c") (.str "2") (.str "3") = some [] := by
  refine ⟨by decide, by decide!⟩

/-- C1 (amended): when `phoneNumber` and `email` convert to strings and `apples` and `bananas` to
numbers, `validateInputs` returns a list in which each of the four required-field messages is
present exactly when its field is absent or the empty string, whatever the other fields are
(an array or an object is never reported, whatever it holds); and the number of required-field
messages in the list is the number of fields among name, address, city and province that are
absent or the empty string. -/
theorem validateInputs_required_messages
    (name address city province phoneNumber email apples bananas : Field)
    (p e : String) (a b : JSNum)
    (hp : phoneNumber.toStr? = some p) (he : email.toStr? = some e)
    (ha : apples.toVal.toNumber? = some a) (hb : bananas.toVal.toNumber? = some b) :
    ∃ errors,
      validateInputs name address city province phoneNumber email apples bananas =
        some errors ∧
      ("Name is required." ∈ errors ↔ name = .undefined ∨ name = .str "") ∧
      ("Address is required." ∈ errors ↔ address = .undefined ∨ address = .str "") ∧
      ("City is required." ∈ errors ↔ city = .undefined ∨ city = .str "") ∧
      ("Province is required." ∈ errors ↔ province = .undefined ∨ province = .str "") ∧
      errors.countP (fun m => decide (m ∈ requiredMessages)) =
        [name, address, city, province].countP Field.isMissing := by
  refine ⟨_, validateInputs_eq_some name address city province phoneNumber email apples bananas
    p e a b hp he ha hb, ?_⟩
  simp only [← isMissing_iff]
  refine ⟨?_, ?_, ?_, ?_, ?_⟩
  · simp [mem_errorIf]
  · simp [mem_errorIf]
  · simp [mem_errorIf]
  · simp [mem_errorIf]
  · simp only [List.countP_append, countP_errorIf, requiredMessages, List.countP_cons,
      List.countP_nil]
    cases name.isMissing <;> cases address.isMissing <;> cases city.isMissing <;>
      cases province.isMissing <;> simp

/-- Witness of C1 (amended): the name an array holding one empty string, the address absent, the
city empty, the other fields valid. -/
theorem validateInputs_required_messages_witness :
    ((Field.str "555-555-5555").toStr? = some "555-555-5555" ∧
      (Field.str "a@b.c").toStr? = some "a@b.c" ∧
      (Field.str "2").toVal.toNumber? = some (.fin 2) ∧
      (Field.str "3").toVal.toNumber? = some (.fin 3)) ∧
    ∃ errors,
      validateInputs (.arr [.str ""]) .undefined (.str "") (.str "Ontario")
        (.str "555-555-5555") (.str "a@b.c") (.str "2") (.str "3") = some errors ∧
      "Name is required." ∉ errors ∧ "Address is required." ∈ errors ∧
      "City is required." ∈ errors ∧
      errors.countP (fun m => decide (m ∈ requiredMessages)) = 2 := by
  refine ⟨⟨rfl, rfl, by decide!, by decide!⟩, ?_⟩
  obtain ⟨errors, h, h1, h2, h3, _, h5⟩ := validateInputs_required_messages (.arr [.str ""])
    .undefined (.str "") (.str "Ontario") (.str "555-555-5555") (.str "a@b.c") (.str "2")
    (.str "3") "555-555-5555" "a@b.c" (.fin 2) (.fin 3) rfl rfl (by decide!) (by decide!)
  exact ⟨errors, h, fun hm => absurd (h1.1 hm) (by decide), h2.2 (Or.inl rfl),
    h3.2 (Or.inr rfl), h5.trans (by decide)⟩

/-! ## Quantities -/

/-- C2: when `phoneNumber` and `email` convert to strings and apples and bananas convert to the
numbers `a` and `b`, `validateInputs` returns a list in which the combined message is present
exactly when each of `a` and `b` is non-numeric (`isNaN`) or `<= 0`; it is never there together
with one of the two individual quantity messages; and for apples `"0"`, bananas `"0"` it is the
only quantity message of the result. -/
theorem validateInputs_combined_quantity_message
    (name address city province phoneNumber email apples bananas : Field)
    (p e : String) (a b : JSNum)
    (hp : phoneNumber.toStr? = some p) (he : email.toStr? = some e)
    (ha : apples.toVal.toNumber? = some a) (hb : bananas.toVal.toNumber? = some b) :
    ∃ errors zeros,
      validateInputs name address city province phoneNumber email apples bananas =
        some errors ∧
      ("At least one of Apples or Bananas quantity must be greater than 0." ∈ errors ↔
        (a.isNaN = true ∨ a.le (.fin 0) = true) ∧ (b.isNaN = true ∨ b.le (.fin 0) = true)) ∧
      ¬ ("At least one of Apples or Bananas quantity must be greater than 0." ∈ errors ∧
          "Apples quantity must be a positive number." ∈ errors) ∧
      ¬ ("At least one of Apples or Bananas quantity must be greater than 0." ∈ errors ∧
          "Bananas quantity must be a positive number." ∈ errors) ∧
      validateInputs name address city province phoneNumber email (.str "0") (.str "0") =
        some zeros ∧
      zeros.filter (fun m => decide (m ∈ quantityMessages)) =
        ["At least one of Apples or Bananas quantity must be greater than 0."] := by
  have hz : (Field.str "0").toVal.toNumber? = some (.fin 0) := by decide!
  refine ⟨_, _, validateInputs_eq_some name address city province phoneNumber email apples
    bananas p e a b hp he ha hb, ?_, ?_, ?_, validateInputs_eq_some name address city province
    phoneNumber email (.str "0") (.str "0") p e (.fin 0) (.fin 0) hp he hz hz, ?_⟩
  · simp [mem_errorIf, notPositive]
  · simp +contextual [mem_errorIf]
  · simp +contextual [mem_errorIf]
  · have h0 : notPositive (.fin 0) = true := by decide
    simp only [List.filter_append, filter_errorIf]
    simp [quantityMessages, h0, errorIf]

/-- Witness of C2 at apples `"-1"`, bananas `"abc"`, the other fields absent. -/
theorem validateInputs_combined_quantity_message_witness :
    (Field.undefined.toStr? = some "undefined" ∧
      (Field.str "-1").toVal.toNumber? = some (.fin (-1)) ∧
      (Field.str "abc").toVal.toNumber? = some .nan) ∧
    ∃ errors,
      validateInputs .undefined .undefined .undefined .undefined .undefined .undefined
        (.str "-1") (.str "abc") = some errors ∧
      "At least one of Apples or Bananas quantity must be greater than 0." ∈ errors ∧
      "Apples quantity must be a positive number." ∉ errors := by
  refine ⟨⟨rfl, by decide!, by decide!⟩, ?_⟩
  obtain ⟨errors, _, h, h1, h2, _, _, _⟩ := validateInputs_combined_quantity_message .undefined
    .undefined .undefined .undefined .undefined .undefined (.str "-1") (.str "abc") "undefined"
    "undefined" (.fin (-1)) .nan rfl rfl (by decide!) (by decide!)
  have hc := h1.2 ⟨Or.inr (by decide), Or.inl rfl⟩
  exact ⟨errors, h, hc, fun hm => h2 ⟨hc, hm⟩⟩

/-- C3: when `phoneNumber` and `email` convert to strings, apples and bananas convert to the
numbers `a` and `b`, and at least one of `a` and `b` is numeric and `> 0`, `validateInputs`
returns a list with no combined message, with the Apples message exactly when `a` is non-numeric
or `< 0`, and with the Bananas message exactly when `b` is non-numeric or `< 0`; for apples
`"-1"`, bananas `"5"` the Apples message is the only quantity message. -/
theorem validateInputs_individual_quantity_messages
    (name address city province phoneNumber email apples bananas : Field)
    (p e : String) (a b : JSNum)
    (hp : phoneNumber.toStr? = some p) (he : email.toStr? = some e)
    (ha : apples.toVal.toNumber? = some a) (hb : bananas.toVal.toNumber? = some b)
    (h : (a.isNaN = false ∧ a.gt (.fin 0) = true) ∨ (b.isNaN = false ∧ b.gt (.fin 0) = true)) :
    ∃ errors sample,
      validateInputs name address city province phoneNumber email apples bananas =
        some errors ∧
      "At least one of Apples or Bananas quantity must be greater than 0." ∉ errors ∧
      ("Apples quantity must be a positive number." ∈ errors ↔
        a.isNaN = true ∨ a.lt (.fin 0) = true) ∧
      ("Bananas quantity must be a positive number." ∈ errors ↔
        b.isNaN = true ∨ b.lt (.fin 0) = true) ∧
      validateInputs name address city province phoneNumber email (.str "-1") (.str "5") =
        some sample ∧
      sample.filter (fun m => decide (m ∈ quantityMessages)) =
        ["Apples quantity must be a positive number."] := by
  have hq : (notPositive a && notPositive b) = false := by
    rcases h with h | h
    · simp [(notPositive_eq_false_iff a).2 h.2]
    · simp [(notPositive_eq_false_iff b).2 h.2]
  have hm1 : (Field.str "-1").toVal.toNumber? = some (.fin (-1)) := by decide!
  have h5 : (Field.str "5").toVal.toNumber? = some (.fin 5) := by decide!
  refine ⟨_, _, validateInputs_eq_some name address city province phoneNumber email apples
    bananas p e a b hp he ha hb, ?_, ?_, ?_, validateInputs_eq_some name address city province
    phoneNumber email (.str "-1") (.str "5") p e (.fin (-1)) (.fin 5) hp he hm1 h5, ?_⟩
  · simp [mem_errorIf, hq]
  · simp [mem_errorIf, hq, notNumberOrNegative]
  · simp [mem_errorIf, hq, notNumberOrNegative]
  · have h1 : notPositive (.fin 5) = false := by decide
    have h2 : notNumberOrNegative (.fin (-1)) = true := by decide
    have h3 : notNumberOrNegative (.fin 5) = false := by decide
    simp only [List.filter_append, filter_errorIf]
    simp [quantityMessages, h1, h2, h3, errorIf]

/-- Witness of C3 at apples `"-1"`, bananas `"5"`, the other fields absent. -/
theorem validateInputs_individual_quantity_messages_witness :
    (Field.undefined.toStr? = some "undefined" ∧
      (Field.str "-1").toVal.toNumber? = some (.fin (-1)) ∧
      (Field.str "5").toVal.toNumber? = some (.fin 5) ∧
      ((JSNum.fin (-1)).isNaN = false ∧ (JSNum.fin (-1)).gt (.fin 0) = true ∨
        (JSNum.fin 5).isNaN = false ∧ (JSNum.fin 5).gt (.fin 0) = true)) ∧
    ∃ errors,
      validateInputs .undefined .undefined .undefined .undefined .undefined .undefined
        (.str "-1") (.str "5") = some errors ∧
      "At least one of Apples or Bananas quantity must be greater than 0." ∉ errors ∧
      "Apples quantity must be a positive number." ∈ errors := by
  refine ⟨⟨rfl, by decide!, by decide!, Or.inr (by decide)⟩, ?_⟩
  obtain ⟨errors, _, h, h1, h2, _, _, _⟩ := validateInputs_individual_quantity_messages
    .undefined .undefined .undefined .undefined .undefined .undefined (.str "-1") (.str "5")
    "undefined" "undefined" (.fin (-1)) (.fin 5) rfl rfl (by decide!) (by decide!)
    (Or.inr (by decide))
  exact ⟨errors, h, h1, h2.2 (Or.inr (by decide))⟩

/-! ## Phone number and email -/

/-- C4 (counterexample): a phone number submitted as `phoneNumber[]=555-555-5555` reaches
`validateInputs` as the array `['555-555-5555']`, which is not a string, and an order with it
gets no phone message: the result is the empty list. -/
theorem phone_message_absent_for_array :
    (∀ s, Field.arr [.str "555-555-5555"] ≠ .str s) ∧
    validateInputs (.str "Ann") (.str "1 Main St") (.str "Ottawa") (.str "Ontario")
      (.arr [.str "555-555-5555"]) (.str "a@b.c") (.str "2") (.str "3") = some [] := by
  refine ⟨fun s h => Field.noConfusion h, by decide!⟩

/-- C4 (amended): when `phoneNumber` converts to the string `p` (a string to itself, an absent
field to `undefined`, an array to its elements joined by commas), `email` converts to a string
and `apples` and `bananas` to numbers, `validateInputs` returns a list in which the phone message
is present exactly when `p` is not made of three digits, a hyphen, three digits, a hyphen and
four digits, with nothing before or after; the string `"555-555-5555"` gives no phone
message. -/
theorem validateInputs_phone_message
    (name address city province phoneNumber email apples bananas : Field)
    (p e : String) (a b : JSNum)
    (hp : phoneNumber.toStr? = some p) (he : email.toStr? = some e)
    (ha : apples.toVal.toNumber? = some a) (hb : bananas.toVal.toNumber? = some b) :
    ∃ errors sample,
      validateInputs name address city province phoneNumber email apples bananas =
        some errors ∧
      ("Phone Number must be in the format 555-555-5555." ∈ errors ↔
        isPhoneFormat p.toList = false) ∧
      validateInputs name address city province (.str "555-555-5555") email apples bananas =
        some sample ∧
      "Phone Number must be in the format 555-555-5555." ∉ sample := by
  refine ⟨_, _, validateInputs_eq_some name address city province phoneNumber email apples
    bananas p e a b hp he ha hb, ?_, validateInputs_eq_some name address city province
    (.str "555-555-5555") email apples bananas "555-555-5555" e a b rfl he ha hb, ?_⟩
  · have key : phoneRegExp.test p = false ↔ isPhoneFormat p.toList = false := by
      rw [← Bool.not_eq_true, ← Bool.not_eq_true, phoneRegExp_test_iff]
    rw [← key]
    simp [mem_errorIf]
  · have h : phoneRegExp.test "555-555-5555" = true := by decide
    simp [mem_errorIf, h]

/-- Witness of C4 (amended) at a phone number submitted twice, which converts to the two
numbers joined by a comma and gets the phone message. -/
theorem validateInputs_phone_message_witness :
    ((Field.arr [.str "555-555-5555", .str "555-555-5555"]).toStr? =
        some "555-555-5555,555-555-5555" ∧
      (Field.str "a@b.c").toStr? = some "a@b.c" ∧
      (Field.str "2").toVal.toNumber? = some (.fin 2) ∧
      (Field.str "3").toVal.toNumber? = some (.fin 3)) ∧
    ∃ errors,
      validateInputs (.str "Ann") (.str "1 Main St") (.str "Ottawa") (.str "Ontario")
        (.arr [.str "555-555-5555", .str "555-555-5555"]) (.str "a@b.c") (.str "2")
        (.str "3") = some errors ∧
      "Phone Number must be in the format 555-555-5555." ∈ errors := by
  refine ⟨⟨by decide, rfl, by decide!, by decide!⟩, ?_⟩
  obtain ⟨errors, _, h, h1, _, _⟩ := validateInputs_phone_message (.str "Ann")
    (.str "1 Main St") (.str "Ottawa") (.str "Ontario")
    (.arr [.str "555-555-5555", .str "555-555-5555"]) (.str "a@b.c") (.str "2") (.str "3")
    "555-555-5555,555-555-5555" "a@b.c" (.fin 2) (.fin 3) (by decide) rfl (by decide!)
    (by decide!)
  exact ⟨errors, h, h1.2 (by decide)⟩

/-- C5: an email string with no `@`, or with no `.` after any of its `@`, gets the email
message from `validateInputs` (which returns a list when `phoneNumber` converts to a string and
`apples` and `bananas` to numbers); the email `"a@b.c"` does not. -/
theorem validateInputs_email_message
    (name address city province phoneNumber apples bananas : Field) (s : String)
    (p : String) (a b : JSNum) (hp : phoneNumber.toStr? = some p)
    (ha : apples.toVal.toNumber? = some a) (hb : bananas.toVal.toNumber? = some b)
    (h : '@' ∉ s.toList ∨ ∀ pre post, s.toList = pre ++ '@' :: post → '.' ∉ post) :
    ∃ errors sample,
      validateInputs name address city province phoneNumber (.str s) apples bananas =
        some errors ∧
      "Invalid Email Address format." ∈ errors ∧
      validateInputs name address city province phoneNumber (.str "a@b.c") apples bananas =
        some sample ∧
      "Invalid Email Address format." ∉ sample := by
  refine ⟨_, _, validateInputs_eq_some name address city province phoneNumber (.str s) apples
    bananas p s a b hp rfl ha hb, ?_, validateInputs_eq_some name address city province
    phoneNumber (.str "a@b.c") apples bananas p "a@b.c" a b hp rfl ha hb, ?_⟩
  · have key : emailRegExp.test s = false := by
      cases ht : emailRegExp.test s with
      | false => rfl
      | true =>
        exfalso
        obtain ⟨pre, post, hs, hdot⟩ := emailRegExp_test_dot_after_at s ht
        rcases h with h | h
        · exact h (by rw [hs]; simp)
        · exact h pre post hs hdot
    simp [mem_errorIf, key]
  · have h : emailRegExp.test "a@b.c" = true := by decide
    simp [mem_errorIf, h]

/-- Witness of C5 at the email `"a.b.c"`, which has no `@`. -/
theorem validateInputs_email_message_witness :
    ((Field.str "555-555-5555").toStr? = some "555-555-5555" ∧
      (Field.str "2").toVal.toNumber? = some (.fin 2) ∧
      (Field.str "3").toVal.toNumber? = some (.fin 3) ∧
      ('@' ∉ "a.b.c".toList ∨
        ∀ pre post, "a.b.c".toList = pre ++ '@' :: post → '.' ∉ post)) ∧
    ∃ errors,
      validateInputs (.str "Ann") (.str "1 Main St") (.str "Ottawa") (.str "Ontario")
        (.str "555-555-5555") (.str "a.b.c") (.str "2") (.str "3") = some errors ∧
      "Invalid Email Address format." ∈ errors := by
  refine ⟨⟨rfl, by decide!, by decide!, Or.inl (by decide)⟩, ?_⟩
  obtain ⟨errors, _, h, h1, _, _⟩ := validateInputs_email_message (.str "Ann")
    (.str "1 Main St") (.str "Ottawa") (.str "Ontario") (.str "555-555-5555") (.str "2")
    (.str "3") "a.b.c" "555-555-5555" (.fin 2) (.fin 3) rfl (by decide!) (by decide!)
    (Or.inl (by decide))
  exact ⟨errors, h, h1⟩

/-! ## What a validated order satisfies -/

/-- C6 (counterexample): the order with apples `"1.5"` and bananas `"0"` passes
`validateInputs` although `1.5` is not an integer. -/
theorem validated_quantity_not_integer :
    validateInputs (.str "Ann") (.str "1 Main St") (.str "Ottawa") (.str "Ontario")
        (.str "555-555-5555") (.str "a@b.c") (.str "1.5") (.str "0") = some [] ∧
    (Field.str "1.5").toVal.toNumber? = some (.fin (3 / 2)) ∧
    (JSNum.fin (3 / 2)).isInteger = false := by
  refine ⟨by decide!, by decide!, by decide!⟩

/-- C6 (amended): when `validateInputs` returns the empty list, apples and bananas are numbers
(`isNaN` is false for both); nothing makes them integers. -/
theorem validated_quantities_numeric
    (name address city province phoneNumber email apples bananas : Field)
    (h : validateInputs name address city province phoneNumber email apples bananas =
      some []) :
    isNaN apples.toVal = some false ∧ isNaN bananas.toVal = some false := by
  rw [validateInputs_eq_nil_iff] at h
  obtain ⟨_, _, _, _, _, _, a, b, ha, hb, _, h1, h2⟩ := h
  simp only [notNumberOrNegative, Bool.or_eq_false_iff] at h1 h2
  simp [isNaN, ha, hb, h1.1, h2.1]

/-- Witness of C6 (amended) at the order with apples `"1.5"` and bananas `"0"`. -/
theorem validated_quantities_numeric_witness :
    validateInputs (.str "Ann") (.str "1 Main St") (.str "Ottawa") (.str "Ontario")
        (.str "555-555-5555") (.str "a@b.c") (.str "1.5") (.str "0") = some [] ∧
    isNaN (Field.str "1.5").toVal = some false ∧ isNaN (Field.str "0").toVal = some false :=
  ⟨by decide!,
   validated_quantities_numeric (.str "Ann") (.str "1 Main St") (.str "Ottawa")
     (.str "Ontario") (.str "555-555-5555") (.str "a@b.c") (.str "1.5") (.str "0")
     (by decide!)⟩

/-- C7 (counterexample): the order whose name is submitted as `name[]=` (the array `['']`)
passes `validateInputs`, although the only value submitted for the name is the empty string and
the name converts to the empty string, which is what the receipt shows for it. -/
theorem validated_name_empty :
    validateInputs (.arr [.str ""]) (.str "1 Main St") (.str "Ottawa") (.str "Ontario")
        (.str "555-555-5555") (.str "a@b.c") (.str "2") (.str "3") = some [] ∧
    (Field.arr [.str ""]).values = [""] ∧
    (Field.arr [.str ""]).toStr? = some "" := by
  refine ⟨by decide!, by decide, by decide⟩

/-- C7 (amended): when `validateInputs` returns the empty list, name, address, city and province
are present and are not the empty string (an array or an object passes whatever it holds),
`phoneNumber` converts to a string of the form `ddd-ddd-dddd`, `email` converts to a string
containing an `@` and a `.`, apples and bananas convert to numbers that are both `>= 0`, and at
least one of the two is `> 0`. -/
theorem validated_order_invariants
    (name address city province phoneNumber email apples bananas : Field)
    (h : validateInputs name address city province phoneNumber email apples bananas =
      some []) :
    (name ≠ .undefined ∧ name ≠ .str "") ∧ (address ≠ .undefined ∧ address ≠ .str "") ∧
    (city ≠ .undefined ∧ city ≠ .str "") ∧ (province ≠ .undefined ∧ province ≠ .str "") ∧
    (∃ p, phoneNumber.toStr? = some p ∧ isPhoneFormat p.toList = true) ∧
    (∃ e, email.toStr? = some e ∧ '@' ∈ e.toList ∧ '.' ∈ e.toList) ∧
    ∃ a b, apples.toVal.toNumber? = some a ∧ bananas.toVal.toNumber? = some b ∧
      a.ge (.fin 0) = true ∧ b.ge (.fin 0) = true ∧
      (a.gt (.fin 0) = true ∨ b.gt (.fin 0) = true) := by
  rw [validateInputs_eq_nil_iff] at h
  obtain ⟨h1, h2, h3, h4, ⟨p, hp, hpt⟩, ⟨e, he, het⟩, a, b, ha, hb, hq, hna, hnb⟩ := h
  refine ⟨(isMissing_eq_false_iff _).1 h1, (isMissing_eq_false_iff _).1 h2,
    (isMissing_eq_false_iff _).1 h3, (isMissing_eq_false_iff _).1 h4,
    ⟨p, hp, (phoneRegExp_test_iff p).1 hpt⟩, ?_, a, b, ha, hb,
    (notNumberOrNegative_eq_false_iff _).1 hna, (notNumberOrNegative_eq_false_iff _).1 hnb, ?_⟩
  · obtain ⟨pre, post, hs, hdot⟩ := emailRegExp_test_dot_after_at e het
    refine ⟨e, he, ?_, ?_⟩
    · rw [hs]; simp
    · rw [hs]; simp [hdot]
  · rcases hq with hq | hq
    · exact Or.inl ((notPositive_eq_false_iff _).1 hq)
    · exact Or.inr ((notPositive_eq_false_iff _).1 hq)

/-- Witness of C7 (amended) at an order whose phone number is written `phoneNumber[]=...` and
whose apples are written `apples[]=2`. -/
theorem validated_order_invariants_witness :
    validateInputs (.str "Ann") (.str "1 Main St") (.str "Ottawa") (.str "Ontario")
        (.arr [.str "555-555-5555"]) (.str "a@b.c") (.arr [.str "2"]) (.str "3") = some [] ∧
    (∃ p, (Field.arr [.str "555-555-5555"]).toStr? = some p ∧
      isPhoneFormat p.toList = true) ∧
    ∃ a b, (Field.arr [.str "2"]).toVal.toNumber? = some a ∧
      (Field.str "3").toVal.toNumber? = some b ∧ a.ge (.fin 0) = true ∧
      b.ge (.fin 0) = true ∧ (a.gt (.fin 0) = true ∨ b.gt (.fin 0) = true) :=
  ⟨by decide!,
   (validated_order_invariants (.str "Ann") (.str "1 Main St") (.str "Ottawa")
     (.str "Ontario") (.arr [.str "555-555-5555"]) (.str "a@b.c") (.arr [.str "2"]) (.str "3")
     (by decide!)).2.2.2.2.1,
   (validated_order_invariants (.str "Ann") (.str "1 Main St") (.str "Ottawa")
     (.str "Ontario") (.arr [.str "555-555-5555"]) (.str "a@b.c") (.arr [.str "2"]) (.str "3")
     (by decide!)).2.2.2.2.2.2⟩

/-! ## The order of the messages -/

/-- C16: the list `validateInputs` returns (it returns one when `phoneNumber` and `email`
convert to strings and `apples` and `bananas` to numbers) has no duplicates and keeps the order
of the rules: it is a sublist of the nine messages in rule order. -/
theorem validateInputs_sublist_nodup
    (name address city province phoneNumber email apples bananas : Field)
    (p e : String) (a b : JSNum)
    (hp : phoneNumber.toStr? = some p) (he : email.toStr? = some e)
    (ha : apples.toVal.toNumber? = some a) (hb : bananas.toVal.toNumber? = some b) :
    ∃ errors,
      validateInputs name address city province phoneNumber email apples bananas =
        some errors ∧
      errors.Sublist
        [ "Name is required.", "Address is required.", "City is required.",
          "Province is required.", "Phone Number must be in the format 555-555-5555.",
          "Invalid Email Address format.",
          "At least one of Apples or Bananas quantity must be greater than 0.",
          "Apples quantity must be a positive number.",
          "Bananas quantity must be a positive number." ] ∧
      errors.Nodup := by
  have hsub : ∀ (failed : Bool) (msg : String), (errorIf failed msg).Sublist [msg] := by
    intro failed msg
    cases failed <;> simp [errorIf]
  refine ⟨_, validateInputs_eq_some name address city province phoneNumber email apples bananas
    p e a b hp he ha hb, ?_⟩
  have h : (errorIf name.isMissing "Name is required." ++
      (errorIf address.isMissing "Address is required." ++
      (errorIf city.isMissing "City is required." ++
      (errorIf province.isMissing "Province is required." ++
      (errorIf (!phoneRegExp.test p) "Phone Number must be in the format 555-555-5555." ++
      (errorIf (!emailRegExp.test e) "Invalid Email Address format." ++
      (errorIf (notPositive a && notPositive b)
          "At least one of Apples or Bananas quantity must be greater than 0." ++
      (errorIf (!(notPositive a && notPositive b) && notNumberOrNegative a)
          "Apples quantity must be a positive number." ++
       errorIf (!(notPositive a && notPositive b) && notNumberOrNegative b)
          "Bananas quantity must be a positive number.")))))))).Sublist
      [ "Name is required.", "Address is required.", "City is required.",
        "Province is required.", "Phone Number must be in the format 555-555-5555.",
        "Invalid Email Address format.",
        "At least one of Apples or Bananas quantity must be greater than 0.",
        "Apples quantity must be a positive number.",
        "Bananas quantity must be a positive number." ] :=
    (hsub _ _).append <| (hsub _ _).append <| (hsub _ _).append <| (hsub _ _).append <|
      (hsub _ _).append <| (hsub _ _).append <| (hsub _ _).append <| (hsub _ _).append (hsub _ _)
  exact ⟨h, h.nodup (by decide)⟩

/-- Witness of C16 at the body with every field absent, which gets seven messages. -/
theorem validateInputs_sublist_nodup_witness :
    (Field.undefined.toStr? = some "undefined" ∧
      Field.undefined.toVal.toNumber? = some .nan) ∧
    ∃ errors,
      validateInputs .undefined .undefined .undefined .undefined .undefined .undefined
        .undefined .undefined = some errors ∧ errors.length = 7 ∧ errors.Nodup := by
  refine ⟨⟨rfl, rfl⟩, ?_⟩
  obtain ⟨errors, h, _, h2⟩ := validateInputs_sublist_nodup .undefined .undefined .undefined
    .undefined .undefined .undefined .undefined .undefined "undefined" "undefined" .nan .nan
    rfl rfl rfl rfl
  refine ⟨errors, h, ?_, h2⟩
  have h3 : validateInputs .undefined .undefined .undefined .undefined .undefined .undefined
      .undefined .undefined = some ["Name is required.", "Address is required.",
        "City is required.", "Province is required.",
        "Phone Number must be in the format 555-555-5555.", "Invalid Email Address format.",
        "At least one of Apples or Bananas quantity must be greater than 0."] := by decide
  rw [h3] at h
  rw [← Option.some.inj h]
  rfl


/-! ## Rounding -/

theorem pow2_eq_zpow (e : ℤ) : pow2 e = (2 : ℚ) ^ e := by
  unfold pow2
  split_ifs with h
  · rw [Nat.cast_pow, Nat.cast_ofNat, ← zpow_natCast, Int.toNat_of_nonneg h]
  · have h1 : 0 ≤ -e := by omega
    rw [Nat.cast_pow, Nat.cast_ofNat, ← zpow_natCast, Int.toNat_of_nonneg h1, zpow_neg]
    simp

theorem pow2_pos (e : ℤ) : 0 < pow2 e := by
  rw [pow2_eq_zpow]; positivity

theorem roundHalfEven_intCast (k : ℤ) : roundHalfEven (k : ℚ) = k := by
  simp [roundHalfEven]

theorem two_pow_log2Fuel_le (fuel : ℕ) : ∀ n : ℕ, 0 < n → 2 ^ log2Fuel fuel n ≤ n := by
  induction fuel with
  | zero => intro n hn; simpa [log2Fuel] using hn
  | succ f ih =>
    intro n hn
    unfold log2Fuel
    split_ifs with h
    · simpa using hn
    · have h2 : 0 < n / 2 := by omega
      have := ih (n / 2) h2
      rw [pow_succ]
      omega

theorem floorLog2_natCast_le (n : ℕ) (hn : 0 < n) (b : ℕ) (hb : n < 2 ^ (b + 1)) :
    floorLog2 (n : ℚ) ≤ b := by
  have h1 : 2 ^ natLog2 n ≤ n := two_pow_log2Fuel_le n n hn
  have h2 : natLog2 n ≤ b := by
    by_contra hc
    have : 2 ^ (b + 1) ≤ 2 ^ natLog2 n := Nat.pow_le_pow_right (by norm_num) (by omega)
    omega
  have h3 : natLog2 1 = 0 := by decide
  unfold floorLog2
  simp only [Rat.num_natCast, Int.natAbs_ofNat, Rat.den_natCast, h3]
  split_ifs <;> omega

/-- A value that is a whole number of units in the last place is not changed by rounding. -/
theorem roundBinary64_of_multiple (q : ℚ) (k : ℤ) (hq : q ≠ 0)
    (hk : q = k * pow2 (max (floorLog2 q) (-1022) - 52)) (hlt : |q| < pow2 1024) :
    roundBinary64 q = .fin q := by
  have hu := pow2_pos (max (floorLog2 q) (-1022) - 52)
  have hdiv : q / pow2 (max (floorLog2 q) (-1022) - 52) = (k : ℚ) := by
    rw [div_eq_iff hu.ne']; exact hk
  have hr : (roundHalfEven (q / pow2 (max (floorLog2 q) (-1022) - 52)) : ℚ) *
      pow2 (max (floorLog2 q) (-1022) - 52) = q := by
    rw [hdiv, roundHalfEven_intCast, ← hk]
  have habs := abs_lt.1 hlt
  unfold roundBinary64
  simp only [hq, if_false, hr]
  rw [if_neg (by linarith [habs.2]), if_neg (by linarith [habs.1])]

/-- A natural number below `2 ^ 53` is a binary64 value. -/
theorem roundBinary64_natCast (n : ℕ) (hn : n < 2 ^ 53) : roundBinary64 (n : ℚ) = .fin n := by
  rcases Nat.eq_zero_or_pos n with rfl | hpos
  · simp [roundBinary64]
  · have hq : (n : ℚ) ≠ 0 := by exact_mod_cast hpos.ne'
    have he : floorLog2 (n : ℚ) ≤ 52 := floorLog2_natCast_le n hpos 52 hn
    have he2 : max (floorLog2 (n : ℚ)) (-1022) ≤ 52 := max_le he (by norm_num)
    obtain ⟨d, hd⟩ : ∃ d : ℕ, (d : ℤ) = 52 - max (floorLog2 (n : ℚ)) (-1022) :=
      ⟨(52 - max (floorLog2 (n : ℚ)) (-1022)).toNat, Int.toNat_of_nonneg (by omega)⟩
    have hexp : max (floorLog2 (n : ℚ)) (-1022) - 52 = -(d : ℤ) := by omega
    refine roundBinary64_of_multiple (n : ℚ) ((n : ℤ) * 2 ^ d) hq ?_ ?_
    · rw [hexp, pow2_eq_zpow, zpow_neg, zpow_natCast]
      push_cast
      field_simp
    · rw [pow2_eq_zpow, abs_of_nonneg (by positivity)]
      have h1 : (n : ℚ) < 2 ^ 53 := by exact_mod_cast hn
      have h2 : (2 : ℚ) ^ 53 < (2 : ℚ) ^ (1024 : ℤ) := by norm_num
      linarith


/-! ## Signs and order under rounding -/

theorem le_roundHalfEven_of_intCast_le (k : ℤ) (q : ℚ) (h : (k : ℚ) ≤ q) :
    k ≤ roundHalfEven q := by
  have hf : k ≤ ⌊q⌋ := Int.le_floor.2 h
  unfold roundHalfEven
  simp only
  split_ifs <;> omega

theorem roundBinary64_ge_of_le_rounded (q s : ℚ) (hq : q ≠ 0) (hs : 0 ≤ s)
    (h : s ≤ (roundHalfEven (q / pow2 (max (floorLog2 q) (-1022) - 52)) : ℚ) *
      pow2 (max (floorLog2 q) (-1022) - 52)) :
    (roundBinary64 q).ge (.fin s) = true := by
  unfold roundBinary64
  simp only [hq, if_false]
  split_ifs with h1 h2
  · rfl
  · exfalso
    have := pow2_pos 1024
    linarith
  · simpa [JSNum.ge, JSNum.le] using h

/-- Rounding keeps a value that is not negative not negative. -/
theorem roundBinary64_nonneg (q : ℚ) (hq : 0 ≤ q) : (roundBinary64 q).ge (.fin 0) = true := by
  by_cases h0 : q = 0
  · subst h0
    simp [roundBinary64, JSNum.ge, JSNum.le]
  · refine roundBinary64_ge_of_le_rounded q 0 h0 le_rfl ?_
    have hu := pow2_pos (max (floorLog2 q) (-1022) - 52)
    have hk : (0 : ℤ) ≤ roundHalfEven (q / pow2 (max (floorLog2 q) (-1022) - 52)) :=
      le_roundHalfEven_of_intCast_le 0 _ (by simpa using div_nonneg hq hu.le)
    have : (0 : ℚ) ≤ (roundHalfEven (q / pow2 (max (floorLog2 q) (-1022) - 52)) : ℚ) := by
      exact_mod_cast hk
    positivity

theorem JSNum.mul_fin_ge_zero (n : JSNum) (c : ℚ) (hc : 0 < c) (hn : n.ge (.fin 0) = true) :
    (n.mul (.fin c)).ge (.fin 0) = true := by
  cases n with
  | nan => simp [JSNum.ge, JSNum.le] at hn
  | posInf => simp [JSNum.mul, hc.ne', hc, JSNum.ge, JSNum.le]
  | negInf => simp [JSNum.ge, JSNum.le] at hn
  | fin q =>
    have hq : 0 ≤ q := by simpa [JSNum.ge, JSNum.le] using hn
    exact roundBinary64_nonneg _ (mul_nonneg hq hc.le)

theorem JSNum.add_ge_zero (a b : JSNum) (ha : a.ge (.fin 0) = true) (hb : b.ge (.fin 0) = true) :
    (a.add b).ge (.fin 0) = true := by
  cases a with
  | nan => simp [JSNum.ge, JSNum.le] at ha
  | negInf => simp [JSNum.ge, JSNum.le] at ha
  | posInf =>
    cases b with
    | nan => simp [JSNum.ge, JSNum.le] at hb
    | negInf => simp [JSNum.ge, JSNum.le] at hb
    | posInf => rfl
    | fin q => rfl
  | fin p =>
    cases b with
    | nan => simp [JSNum.ge, JSNum.le] at hb
    | negInf => simp [JSNum.ge, JSNum.le] at hb
    | posInf => rfl
    | fin q =>
      have hp : 0 ≤ p := by simpa [JSNum.ge, JSNum.le] using ha
      have hq : 0 ≤ q := by simpa [JSNum.ge, JSNum.le] using hb
      exact roundBinary64_nonneg _ (add_nonneg hp hq)


theorem lt_two_pow_log2Fuel (fuel : ℕ) : ∀ n : ℕ, n ≤ fuel → n < 2 ^ (log2Fuel fuel n + 1) := by
  induction fuel with
  | zero => intro n hn; simp [log2Fuel]; omega
  | succ f ih =>
    intro n hn
    unfold log2Fuel
    split_ifs with h
    · simpa using h
    · have := ih (n / 2) (by omega)
      rw [pow_succ]
      omega

theorem pow2_le_pow2 {a b : ℤ} (h : a ≤ b) : pow2 a ≤ pow2 b := by
  rw [pow2_eq_zpow, pow2_eq_zpow]
  exact zpow_le_zpow_right₀ (by norm_num) h

theorem pow2_add_one (e : ℤ) : pow2 (e + 1) = 2 * pow2 e := by
  rw [pow2_eq_zpow, pow2_eq_zpow, zpow_add_one₀ (by norm_num)]
  ring

/-- The exponent found by `floorLog2` brackets a positive value. -/
theorem floorLog2_spec (q : ℚ) (hq : 0 < q) :
    pow2 (floorLog2 q) ≤ q ∧ q < pow2 (floorLog2 q + 1) := by
  have hnum : 0 < q.num := Rat.num_pos.2 hq
  have hn : 0 < q.num.natAbs := Int.natAbs_pos.2 hnum.ne'
  have hd : 0 < q.den := q.den_pos
  have hcast : ((q.num.natAbs : ℕ) : ℚ) = (q.num : ℚ) := by
    rw [← Int.cast_natCast, Int.natAbs_of_nonneg hnum.le]
  have hqv : q = (q.num.natAbs : ℚ) / (q.den : ℚ) := by
    rw [hcast]; exact (Rat.num_div_den q).symm
  have ha1 : ((2 ^ natLog2 q.num.natAbs : ℕ) : ℚ) ≤ (q.num.natAbs : ℚ) := by
    exact_mod_cast two_pow_log2Fuel_le _ _ hn
  have ha2 : (q.num.natAbs : ℚ) < ((2 ^ (natLog2 q.num.natAbs + 1) : ℕ) : ℚ) := by
    exact_mod_cast lt_two_pow_log2Fuel _ _ le_rfl
  have hb1 : ((2 ^ natLog2 q.den : ℕ) : ℚ) ≤ (q.den : ℚ) := by
    exact_mod_cast two_pow_log2Fuel_le _ _ hd
  have hb2 : (q.den : ℚ) < ((2 ^ (natLog2 q.den + 1) : ℕ) : ℚ) := by
    exact_mod_cast lt_two_pow_log2Fuel _ _ le_rfl
  have hdq : (0 : ℚ) < (q.den : ℚ) := by exact_mod_cast hd
  have habs : |q| = q := abs_of_pos hq
  have hpow : ∀ e : ℤ, pow2 e = (2 : ℚ) ^ e := pow2_eq_zpow
  have hfl : floorLog2 q =
      if pow2 ((natLog2 q.num.natAbs : ℤ) - (natLog2 q.den : ℤ)) ≤ q then
        (natLog2 q.num.natAbs : ℤ) - (natLog2 q.den : ℤ)
      else (natLog2 q.num.natAbs : ℤ) - (natLog2 q.den : ℤ) - 1 := by
    unfold floorLog2
    simp only [habs]
  rw [hfl]
  generalize natLog2 q.num.natAbs = a at ha1 ha2
  generalize natLog2 q.den = b at hb1 hb2
  push_cast at ha1 ha2 hb1 hb2
  have hA : (0 : ℚ) < 2 ^ a := by positivity
  have hB : (0 : ℚ) < 2 ^ b := by positivity
  have e0 : pow2 ((a : ℤ) - b) = (2 : ℚ) ^ a / 2 ^ b := by
    rw [hpow, zpow_sub₀ (by norm_num), zpow_natCast, zpow_natCast]
  split_ifs with hc
  · refine ⟨hc, ?_⟩
    rw [pow2_add_one, e0, hqv, div_lt_iff₀ hdq]
    have h1 : (q.num.natAbs : ℚ) * 2 ^ b < 2 * 2 ^ a * (q.den : ℚ) := by
      have := pow_succ (2 : ℚ) a
      nlinarith
    calc (q.num.natAbs : ℚ) = (q.num.natAbs : ℚ) * 2 ^ b / 2 ^ b := by field_simp
      _ < 2 * 2 ^ a * (q.den : ℚ) / 2 ^ b := by
        exact div_lt_div_of_pos_right h1 hB
      _ = 2 * (2 ^ a / 2 ^ b) * (q.den : ℚ) := by ring
  · have e1 : pow2 ((a : ℤ) - b - 1 + 1) = pow2 ((a : ℤ) - b) := by
      congr 1; ring
    refine ⟨?_, by rw [e1]; exact lt_of_not_le hc⟩
    have e2 : pow2 ((a : ℤ) - b) = 2 * pow2 ((a : ℤ) - b - 1) := by
      rw [← pow2_add_one, e1]
    have e3 : pow2 ((a : ℤ) - b - 1) = 2 ^ a / 2 ^ b / 2 := by
      rw [← e0, e2]; ring
    rw [e3, hqv, le_div_iff₀ hdq]
    have h1 : (2 : ℚ) ^ a * (q.den : ℚ) ≤ (q.num.natAbs : ℚ) * (2 * 2 ^ b) := by
      have := pow_succ (2 : ℚ) b
      nlinarith
    calc (2 : ℚ) ^ a / 2 ^ b / 2 * (q.den : ℚ) = 2 ^ a * (q.den : ℚ) / (2 * 2 ^ b) := by
          field_simp
          ring
      _ ≤ (q.num.natAbs : ℚ) * (2 * 2 ^ b) / (2 * 2 ^ b) := by
        exact div_le_div_of_nonneg_right h1 (by positivity)
      _ = (q.num.natAbs : ℚ) := by field_simp

theorem floorLog2_mono (s y : ℚ) (hs : 0 < s) (h : s ≤ y) : floorLog2 s ≤ floorLog2 y := by
  by_contra hc
  have hlt : floorLog2 y + 1 ≤ floorLog2 s := by omega
  have h1 := (floorLog2_spec y (lt_of_lt_of_le hs h)).2
  have h2 := (floorLog2_spec s hs).1
  have h3 := pow2_le_pow2 hlt
  linarith

/-- A positive binary64 value is a whole number of its units in the last place. -/
theorem multiple_of_roundBinary64_eq (s : ℚ) (hs : 0 < s) (h : roundBinary64 s = .fin s) :
    ∃ k : ℤ, s = (k : ℚ) * pow2 (max (floorLog2 s) (-1022) - 52) := by
  unfold roundBinary64 at h
  simp only [hs.ne', if_false] at h
  split_ifs at h
  exact ⟨_, (JSNum.fin.inj h).symm⟩

/-- What rounding makes of a value above a binary64 value is not below that value. -/
theorem le_rounded_of_le (s y : ℚ) (hs : 0 < s) (hrep : roundBinary64 s = .fin s)
    (h : s ≤ y) :
    s ≤ (roundHalfEven (y / pow2 (max (floorLog2 y) (-1022) - 52)) : ℚ) *
      pow2 (max (floorLog2 y) (-1022) - 52) := by
  obtain ⟨k, hk⟩ := multiple_of_roundBinary64_eq s hs hrep
  have hy : 0 < y := lt_of_lt_of_le hs h
  have hmono := floorLog2_mono s y hs h
  have hus := pow2_pos (max (floorLog2 s) (-1022) - 52)
  have huy := pow2_pos (max (floorLog2 y) (-1022) - 52)
  rcases (max_le_max hmono (le_refl (-1022 : ℤ))).eq_or_lt with heq | hlt
  · rw [← heq]
    have hk2 : (k : ℚ) ≤ y / pow2 (max (floorLog2 s) (-1022) - 52) := by
      rw [le_div_iff₀ hus, ← hk]; exact h
    have := le_roundHalfEven_of_intCast_le k _ hk2
    have hc : (k : ℚ) ≤ (roundHalfEven (y / pow2 (max (floorLog2 s) (-1022) - 52)) : ℚ) := by
      exact_mod_cast this
    calc s = (k : ℚ) * pow2 (max (floorLog2 s) (-1022) - 52) := hk
      _ ≤ _ := mul_le_mul_of_nonneg_right hc hus.le
  · have hey : max (floorLog2 y) (-1022) = floorLog2 y := by
      apply max_eq_left
      have : (-1022 : ℤ) ≤ max (floorLog2 s) (-1022) := le_max_right _ _
      omega
    rw [hey] at hlt ⊢
    have hs1 : s < pow2 (floorLog2 y) := by
      have h1 := (floorLog2_spec s hs).2
      have h2 : floorLog2 s + 1 ≤ floorLog2 y := by
        have : floorLog2 s ≤ max (floorLog2 s) (-1022) := le_max_left _ _
        omega
      exact lt_of_lt_of_le h1 (pow2_le_pow2 h2)
    have hy1 := (floorLog2_spec y hy).1
    have hu := pow2_pos (floorLog2 y - 52)
    have hsplit : pow2 (floorLog2 y) = ((2 ^ 52 : ℤ) : ℚ) * pow2 (floorLog2 y - 52) := by
      rw [pow2_eq_zpow, pow2_eq_zpow, zpow_sub₀ (by norm_num)]
      push_cast
      field_simp
      ring
    have hk2 : ((2 ^ 52 : ℤ) : ℚ) ≤ y / pow2 (floorLog2 y - 52) := by
      rw [le_div_iff₀ hu, ← hsplit]; exact hy1
    have := le_roundHalfEven_of_intCast_le _ _ hk2
    have hc : ((2 ^ 52 : ℤ) : ℚ) ≤ (roundHalfEven (y / pow2 (floorLog2 y - 52)) : ℚ) := by
      exact_mod_cast this
    calc s ≤ pow2 (floorLog2 y) := hs1.le
      _ = ((2 ^ 52 : ℤ) : ℚ) * pow2 (floorLog2 y - 52) := hsplit
      _ ≤ _ := mul_le_mul_of_nonneg_right hc hu.le

/-- Adding something not negative to a binary64 value that is not negative gives, after
rounding, a value `>=` the first. -/
theorem roundBinary64_add_ge (s t : ℚ) (hs : 0 ≤ s) (hrep : roundBinary64 s = .fin s)
    (ht : 0 ≤ t) : (roundBinary64 (s + t)).ge (.fin s) = true := by
  rcases hs.eq_or_lt with h0 | hpos
  · rw [← h0]
    exact roundBinary64_nonneg _ (by linarith)
  · have hy : s + t ≠ 0 := by linarith
    exact roundBinary64_ge_of_le_rounded (s + t) s hy hs
      (le_rounded_of_le s (s + t) hpos hrep (by linarith))

theorem JSNum.eq_fin_of_ge_zero (n : JSNum) (h : n.ge (.fin 0) = true) :
    n = .posInf ∨ ∃ r : ℚ, 0 ≤ r ∧ n = .fin r := by
  cases n with
  | nan => simp [JSNum.ge, JSNum.le] at h
  | posInf => exact Or.inl rfl
  | negInf => simp [JSNum.ge, JSNum.le] at h
  | fin q => exact Or.inr ⟨q, by simpa [JSNum.ge, JSNum.le] using h, rfl⟩

theorem roundHalfEven_le_floor_add_one (q : ℚ) : roundHalfEven q ≤ ⌊q⌋ + 1 := by
  unfold roundHalfEven
  simp only
  split_ifs <;> omega

theorem pow2_add (a b : ℤ) : pow2 (a + b) = pow2 a * pow2 b := by
  rw [pow2_eq_zpow, pow2_eq_zpow, pow2_eq_zpow, zpow_add₀ (by norm_num)]

/-- The finite result of rounding a positive value is a binary64 value: rounding it again
changes nothing. -/
theorem roundBinary64_idem (q r : ℚ) (hq : 0 < q) (h : roundBinary64 q = .fin r) :
    roundBinary64 r = .fin r := by
  unfold roundBinary64 at h
  simp only [hq.ne', if_false] at h
  split_ifs at h with h1 h2
  have hr := JSNum.fin.inj h
  set e := max (floorLog2 q) (-1022) with he
  have hu := pow2_pos (e - 52)
  have hx : 0 ≤ q / pow2 (e - 52) := div_nonneg hq.le hu.le
  have hm0 : (0 : ℤ) ≤ roundHalfEven (q / pow2 (e - 52)) :=
    le_roundHalfEven_of_intCast_le 0 _ (by simpa using hx)
  have hqlt : q < pow2 (e + 1) := by
    have h3 := (floorLog2_spec q hq).2
    exact lt_of_lt_of_le h3 (pow2_le_pow2 (by have := le_max_left (floorLog2 q) (-1022); omega))
  have h53 : pow2 53 = ((2 ^ 53 : ℤ) : ℚ) := by
    rw [pow2_eq_zpow]; norm_num
  have hsplit : pow2 (e + 1) = ((2 ^ 53 : ℤ) : ℚ) * pow2 (e - 52) := by
    have : e + 1 = 53 + (e - 52) := by ring
    rw [this, pow2_add, h53]
  have hxlt : q / pow2 (e - 52) < ((2 ^ 53 : ℤ) : ℚ) := by
    rw [div_lt_iff₀ hu, ← hsplit]; exact hqlt
  have hm1 : roundHalfEven (q / pow2 (e - 52)) ≤ 2 ^ 53 := by
    have hfl : ⌊q / pow2 (e - 52)⌋ < 2 ^ 53 := Int.floor_lt.2 hxlt
    have := roundHalfEven_le_floor_add_one (q / pow2 (e - 52))
    omega
  generalize roundHalfEven (q / pow2 (e - 52)) = m at hr hm0 hm1 h1 h2
  rcases hm0.eq_or_lt with hz | hpos
  · rw [← hr, ← hz]
    simp [roundBinary64]
  · have hmq : (0 : ℚ) < (m : ℚ) := by exact_mod_cast hpos
    have hrpos : 0 < r := by rw [← hr]; positivity
    have hrle : r ≤ pow2 (e + 1) := by
      rw [← hr, hsplit]
      have : (m : ℚ) ≤ ((2 ^ 53 : ℤ) : ℚ) := by exact_mod_cast hm1
      exact mul_le_mul_of_nonneg_right this hu.le
    have hfr : floorLog2 r ≤ e + 1 := by
      by_contra hc
      have h3 := (floorLog2_spec r hrpos).1
      have h4 : pow2 (e + 1 + 1) ≤ pow2 (floorLog2 r) := pow2_le_pow2 (by omega)
      have h5 : pow2 (e + 1) < pow2 (e + 1 + 1) := by
        rw [pow2_add_one (e + 1)]
        have := pow2_pos (e + 1)
        linarith
      linarith
    have hlt : |r| < pow2 1024 := by
      rw [abs_of_pos hrpos, ← hr]
      exact lt_of_not_le h1
    have hemin : (-1022 : ℤ) ≤ e := le_max_right _ _
    rcases le_or_lt (max (floorLog2 r) (-1022)) e with hle | hgt
    · obtain ⟨d, hd⟩ : ∃ d : ℕ, (d : ℤ) = e - max (floorLog2 r) (-1022) :=
        ⟨(e - max (floorLog2 r) (-1022)).toNat, Int.toNat_of_nonneg (by omega)⟩
      refine roundBinary64_of_multiple r (m * 2 ^ d) hrpos.ne' ?_ hlt
      have hexp : e - 52 = (d : ℤ) + (max (floorLog2 r) (-1022) - 52) := by omega
      generalize max (floorLog2 r) (-1022) - 52 = e2 at hexp ⊢
      calc r = (m : ℚ) * pow2 (e - 52) := hr.symm
        _ = (m : ℚ) * (pow2 (d : ℤ) * pow2 e2) := by rw [hexp, pow2_add]
        _ = ((m * 2 ^ d : ℤ) : ℚ) * pow2 e2 := by
          rw [pow2_eq_zpow (d : ℤ), zpow_natCast]
          push_cast
          ring
    · have hfe : max (floorLog2 r) (-1022) = e + 1 := by
        have : max (floorLog2 r) (-1022) ≤ e + 1 := max_le hfr (by omega)
        omega
      have hfl : floorLog2 r = e + 1 := by
        rcases max_choice (floorLog2 r) (-1022) with h | h <;> omega
      have hge : pow2 (e + 1) ≤ r := by
        have := (floorLog2_spec r hrpos).1
        rwa [hfl] at this
      have hreq : r = pow2 (e + 1) := le_antisymm hrle hge
      refine roundBinary64_of_multiple r (2 ^ 52) hrpos.ne' ?_ hlt
      have h52 : pow2 52 = ((2 ^ 52 : ℤ) : ℚ) := by
        rw [pow2_eq_zpow]; norm_num
      have hexp : e + 1 = 52 + (e + 1 - 52) := by ring
      rw [hfe]
      calc r = pow2 (e + 1) := hreq
        _ = pow2 (52 + (e + 1 - 52)) := by rw [← hexp]
        _ = ((2 ^ 52 : ℤ) : ℚ) * pow2 (e + 1 - 52) := by rw [pow2_add, h52]


/-! ## The size of a rounding error -/

theorem abs_roundHalfEven_sub_le (x : ℚ) : |(roundHalfEven x : ℚ) - x| ≤ 1 / 2 := by
  have h1 : (⌊x⌋ : ℚ) ≤ x := Int.floor_le x
  have h2 : x < (⌊x⌋ : ℚ) + 1 := Int.lt_floor_add_one x
  unfold roundHalfEven
  simp only
  rw [abs_le]
  split_ifs with ha hb hc
  · constructor <;> linarith
  · push_cast
    constructor <;> linarith
  · constructor <;> linarith
  · push_cast
    constructor <;> linarith

theorem floorLog2_neg (q : ℚ) : floorLog2 (-q) = floorLog2 q := by
  simp [floorLog2]

theorem floorLog2_abs (q : ℚ) : floorLog2 |q| = floorLog2 q := by
  rcases abs_choice q with h | h
  · rw [h]
  · rw [h, floorLog2_neg]

/-- A finite result of rounding is off by at most half a unit in the last place: a relative
`2 ^ -53`, or `2 ^ -1075` near zero. -/
theorem roundBinary64_error (q r : ℚ) (h : roundBinary64 q = .fin r) :
    |r - q| ≤ |q| / 2 ^ 53 + pow2 (-1075) := by
  have hη := pow2_pos (-1075)
  by_cases hq : q = 0
  · subst hq
    have : r = 0 := by
      simp only [roundBinary64, if_true] at h
      exact (JSNum.fin.inj h).symm
    subst this
    simp
    exact hη.le
  · unfold roundBinary64 at h
    simp only [hq, if_false] at h
    split_ifs at h
    have hr := JSNum.fin.inj h
    have hu := pow2_pos (max (floorLog2 q) (-1022) - 52)
    have habs : |r - q| ≤ pow2 (max (floorLog2 q) (-1022) - 52) / 2 := by
      have h1 := abs_roundHalfEven_sub_le (q / pow2 (max (floorLog2 q) (-1022) - 52))
      have h2 : r - q = ((roundHalfEven (q / pow2 (max (floorLog2 q) (-1022) - 52)) : ℚ) -
          q / pow2 (max (floorLog2 q) (-1022) - 52)) *
            pow2 (max (floorLog2 q) (-1022) - 52) := by
        rw [← hr]
        field_simp
      rw [h2, abs_mul, abs_of_pos hu]
      calc _ ≤ 1 / 2 * pow2 (max (floorLog2 q) (-1022) - 52) :=
            mul_le_mul_of_nonneg_right h1 hu.le
        _ = _ := by ring
    have hqpos : 0 < |q| := abs_pos.2 hq
    have hq0 : 0 ≤ |q| / 2 ^ 53 := by positivity
    rcases le_total (floorLog2 q) (-1022) with hle | hge
    · rw [max_eq_right hle] at habs
      have e : pow2 (-1022 - 52) / 2 = pow2 (-1075) := by
        have := pow2_add_one (-1075)
        have e2 : (-1075 : ℤ) + 1 = -1022 - 52 := by norm_num
        rw [e2] at this
        rw [this]; ring
      rw [e] at habs
      linarith
    · rw [max_eq_left hge] at habs
      have hs := (floorLog2_spec |q| hqpos).1
      rw [floorLog2_abs] at hs
      have e : pow2 (floorLog2 q - 52) / 2 = pow2 (floorLog2 q) / 2 ^ 53 := by
        have h53 : pow2 (-53) = 1 / 2 ^ 53 := by
          rw [pow2_eq_zpow]; norm_num
        have := pow2_add (floorLog2 q) (-53)
        have e2 : floorLog2 q + -53 + 1 = floorLog2 q - 52 := by ring
        have e3 := pow2_add_one (floorLog2 q + -53)
        rw [e2] at e3
        rw [e3, this, h53]
        ring
      rw [e] at habs
      have : pow2 (floorLog2 q) / 2 ^ 53 ≤ |q| / 2 ^ 53 :=
        div_le_div_of_nonneg_right hs (by positivity)
      linarith

theorem JSNum.add_eq_fin (x y : JSNum) (r : ℚ) (h : x.add y = .fin r) :
    ∃ p q, x = .fin p ∧ y = .fin q ∧ roundBinary64 (p + q) = .fin r := by
  cases x <;> cases y <;> simp [JSNum.add] at h
  exact ⟨_, _, rfl, rfl, h⟩

/-- The error of `x * 3 + y * 2` computed in binary64, when the result is finite. -/
theorem mul_add_mul_error (a b r : ℚ)
    (h : ((JSNum.fin a).mul (.fin 3)).add ((JSNum.fin b).mul (.fin 2)) = .fin r) :
    |r - (a * 3 + b * 2)| ≤ (|a| * 3 + |b| * 2) / 2 ^ 51 + 1 / 2 ^ 1073 := by
  obtain ⟨x, y, hx, hy, hr⟩ := JSNum.add_eq_fin _ _ _ h
  simp only [JSNum.mul] at hx hy
  have e1 := roundBinary64_error _ _ hx
  have e2 := roundBinary64_error _ _ hy
  have e3 := roundBinary64_error _ _ hr
  have hA : |a * 3| = |a| * 3 := by rw [abs_mul]; norm_num
  have hB : |b * 2| = |b| * 2 := by rw [abs_mul]; norm_num
  rw [hA] at e1
  rw [hB] at e2
  have hη : pow2 (-1073) = 4 * pow2 (-1075) := by
    have h1 := pow2_add_one (-1075)
    have h2 := pow2_add_one (-1074)
    have e : (-1075 : ℤ) + 1 = -1074 := by norm_num
    have e' : (-1074 : ℤ) + 1 = -1073 := by norm_num
    rw [e] at h1
    rw [e'] at h2
    rw [h2, h1]; ring
  have hη2 : pow2 (-1073) = 1 / 2 ^ 1073 := by
    rw [pow2_eq_zpow, zpow_neg]
    norm_num
  have hpos := pow2_pos (-1075)
  have ha0 := abs_nonneg a
  have hb0 := abs_nonneg b
  have t1 : |x + y| ≤ |a| * 3 + |b| * 2 + |x - a * 3| + |y - b * 2| := by
    have : x + y = (a * 3) + (b * 2) + (x - a * 3) + (y - b * 2) := by ring
    rw [this]
    calc _ ≤ |a * 3 + b * 2 + (x - a * 3)| + |y - b * 2| := abs_add _ _
      _ ≤ |a * 3 + b * 2| + |x - a * 3| + |y - b * 2| := by
        have := abs_add (a * 3 + b * 2) (x - a * 3); linarith
      _ ≤ |a * 3| + |b * 2| + |x - a * 3| + |y - b * 2| := by
        have := abs_add (a * 3) (b * 2); linarith
      _ = _ := by rw [hA, hB]
  have t2 : |r - (a * 3 + b * 2)| ≤ |r - (x + y)| + |x - a * 3| + |y - b * 2| := by
    have : r - (a * 3 + b * 2) = (r - (x + y)) + (x - a * 3) + (y - b * 2) := by ring
    rw [this]
    calc _ ≤ |r - (x + y) + (x - a * 3)| + |y - b * 2| := abs_add _ _
      _ ≤ _ := by have := abs_add (r - (x + y)) (x - a * 3); linarith
  have hd1 := abs_nonneg (x - a * 3)
  have hd2 := abs_nonneg (y - b * 2)
  rw [← hη2, hη]
  generalize |x - a * 3| = d1 at *
  generalize |y - b * 2| = d2 at *
  generalize |r - (x + y)| = d3 at *
  generalize |x + y| = s at *
  generalize |a| = A at *
  generalize |b| = B at *
  generalize pow2 (-1075) = η at *
  have k1 : s / 2 ^ 53 ≤ (A * 3 + B * 2 + d1 + d2) / 2 ^ 53 :=
    div_le_div_of_nonneg_right t1 (by positivity)
  have k2 : d1 / 2 ^ 53 ≤ (A * 3 / 2 ^ 53 + η) / 2 ^ 53 :=
    div_le_div_of_nonneg_right e1 (by positivity)
  have k3 : d2 / 2 ^ 53 ≤ (B * 2 / 2 ^ 53 + η) / 2 ^ 53 :=
    div_le_div_of_nonneg_right e2 (by positivity)
  have k4 : A * 3 / 2 ^ 53 / 2 ^ 53 ≤ A * 3 / 2 ^ 53 := by
    apply div_le_self (by positivity); norm_num
  have k5 : B * 2 / 2 ^ 53 / 2 ^ 53 ≤ B * 2 / 2 ^ 53 := by
    apply div_le_self (by positivity); norm_num
  have k6 : η / 2 ^ 53 ≤ η / 2 := by
    apply div_le_div_of_nonneg_left hpos.le (by norm_num) (by norm_num)
  have k7 : (A * 3 + B * 2) / 2 ^ 51 = 4 * ((A * 3 + B * 2) / 2 ^ 53) := by
    field_simp
    ring
  rw [k7]
  have k8 : (A * 3 + B * 2 + d1 + d2) / 2 ^ 53 =
      (A * 3 + B * 2) / 2 ^ 53 + d1 / 2 ^ 53 + d2 / 2 ^ 53 := by ring
  have k9 : (A * 3 / 2 ^ 53 + η) / 2 ^ 53 = A * 3 / 2 ^ 53 / 2 ^ 53 + η / 2 ^ 53 := by ring
  have k10 : (B * 2 / 2 ^ 53 + η) / 2 ^ 53 = B * 2 / 2 ^ 53 / 2 ^ 53 + η / 2 ^ 53 := by ring
  have k11 : (A * 3 + B * 2) / 2 ^ 53 = A * 3 / 2 ^ 53 + B * 2 / 2 ^ 53 := by ring
  linarith


/-! ## Pricing -/

/-- C8 (counterexample): the quantities `0.1` and `0.2` pass `validateInputs`, and for them
`calculateTotalPurchase` gives the binary64 number `0.7000000000000001`: not the number `0.7`,
and not the exact value of `apples × 3 + bananas × 2` either, whether the quantities are read as
the decimals `0.1` and `0.2` or as the binary64 numbers nearest to them. -/
theorem calculateTotalPurchase_not_exact :
    validateInputs (.str "Ann") (.str "1 Main St") (.str "Ottawa") (.str "Ontario")
      (.str "555-555-5555") (.str "a@b.c") (.str "0.1") (.str "0.2") = some [] ∧
    calculateTotalPurchase (.str "0.1") (.str "0.2") = some (.lit 0.7000000000000001) ∧
    calculateTotalPurchase (.num (.lit 0.1)) (.num (.lit 0.2)) =
      some (.lit 0.7000000000000001) ∧
    JSNum.lit 0.7000000000000001 ≠ JSNum.lit 0.7 ∧
    JSNum.lit 0.7000000000000001 ≠ .fin (0.1 * 3 + 0.2 * 2) ∧
    JSNum.lit 0.1 = .fin (3602879701896397 / 36028797018963968) ∧
    JSNum.lit 0.2 = .fin (3602879701896397 / 18014398509481984) ∧
    JSNum.lit 0.7000000000000001 ≠
      .fin (3602879701896397 / 36028797018963968 * 3 +
        3602879701896397 / 18014398509481984 * 2) := by
  refine ⟨by decide!, by decide!, by decide!, by decide!, by decide!, by decide!, by decide!,
    by decide!⟩

theorem salesTaxRates_truthy (key : String) (rate : JSNum)
    (h : salesTaxRates.lookup key = some rate) : (JSVal.num rate).truthy = true := by
  have hall : ∀ p ∈ salesTaxRates, (JSVal.num p.2).truthy = true := by decide!
  have hmem : ∀ (l : List (String × JSNum)), l.lookup key = some rate → (key, rate) ∈ l := by
    intro l
    induction l with
    | nil => intro h; cases h
    | cons p l ih =>
      obtain ⟨k, v⟩ := p
      intro h
      rw [List.lookup_cons] at h
      by_cases hk : key == k
      · simp only [hk] at h
        have hk2 : key = k := by simpa using hk
        cases h
        simp [hk2]
      · simp only [hk] at h
        exact List.mem_cons_of_mem _ (ih h)
  exact hall _ (hmem _ h)

/-- The pricing of `generateReceipt` for a province that converts to a key which is not a
property inherited from `Object.prototype`: the rate of the table, or `0` when the table has
none. -/
theorem generateReceiptPricing_of_not_inherited (province : Field) (key : String)
    (totalPurchase : JSNum) (hk : province.toStr? = some key)
    (h : key ∉ objectPrototypeKeys) :
    generateReceiptPricing province totalPurchase =
      some { taxRate := .num ((salesTaxRates.lookup key).getD (.fin 0))
             tax := totalPurchase.mul ((salesTaxRates.lookup key).getD (.fin 0))
             totalCost := totalPurchase.add
               (totalPurchase.mul ((salesTaxRates.lookup key).getD (.fin 0))) } := by
  unfold generateReceiptPricing salesTaxRatesGet
  simp only [hk, Option.bind_eq_bind, Option.some_bind, Option.pure_def]
  cases hl : salesTaxRates.lookup key with
  | none => simp [h, JSVal.or, JSVal.truthy, JSVal.toNumber?]
  | some rate => simp [JSVal.or, salesTaxRates_truthy _ _ hl, JSVal.toNumber?]

/-- The pricing of `generateReceipt` for a province that is neither in the table nor inherited,
on a finite subtotal: rate `0`, tax `0`, total cost equal to the subtotal. -/
theorem generateReceiptPricing_unknown (province : Field) (key : String) (q : ℚ)
    (hk : province.toStr? = some key)
    (hq : roundBinary64 q = .fin q) (h1 : salesTaxRates.lookup key = none)
    (h2 : key ∉ objectPrototypeKeys) :
    generateReceiptPricing province (.fin q) =
      some { taxRate := .num (.fin 0), tax := .fin 0, totalCost := .fin q } := by
  have h0 : roundBinary64 0 = .fin 0 := by simp [roundBinary64]
  rw [generateReceiptPricing_of_not_inherited province key (.fin q) hk h2, h1]
  simp only [Option.getD_none, JSNum.mul, mul_zero, h0, JSNum.add, add_zero, hq]

/-- C9 (failing input): `"toString"` is not a key of the tax table, yet for this province and
the subtotal `12` the tax rate of `generateReceipt` is the inherited function, not `0`, and the
tax and the total cost are `NaN`; for `"Ontario"` and `12` the rate is `0.13`, the tax `1.56`
and the total cost `13.56`. -/
theorem generateReceiptPricing_toString :
    salesTaxRates.lookup "toString" = none ∧
    generateReceiptPricing (.str "toString") (.fin 12) =
      some { taxRate := .object, tax := .nan, totalCost := .nan } ∧
    generateReceiptPricing (.str "Ontario") (.fin 12) =
      some { taxRate := .num (.lit 0.13), tax := .lit 1.56, totalCost := .lit 13.56 } := by
  refine ⟨by decide, by decide!, by decide!⟩

/-- C10 (failing input): `"constructor"` is a non-empty province that is not a key of the tax
table and gets no province message from `validateInputs` (the order passes with no message at
all), yet for the subtotal `10` the tax rate of `generateReceipt` is the inherited function, not
`0`, and the tax and the total cost are `NaN`. -/
theorem generateReceiptPricing_constructor :
    salesTaxRates.lookup "constructor" = none ∧
    validateInputs (.str "Ann") (.str "1 Main St") (.str "Ottawa") (.str "constructor")
      (.str "555-555-5555") (.str "a@b.c") (.str "2") (.str "2") = some [] ∧
    generateReceiptPricing (.str "constructor") (.fin 10) =
      some { taxRate := .object, tax := .nan, totalCost := .nan } := by
  refine ⟨by decide, by decide!, by decide!⟩


/-- The subtotal in terms of the numbers the two quantities convert to. -/
theorem calculateTotalPurchase_eq_some (apples bananas : JSVal) (a b : JSNum)
    (ha : apples.toNumber? = some a) (hb : bananas.toNumber? = some b) :
    calculateTotalPurchase apples bananas = some ((a.mul (.fin 3)).add (b.mul (.fin 2))) := by
  simp [calculateTotalPurchase, ha, hb]

/-- C8 (amended): for quantities that convert to the finite numbers `a` and `b`,
`calculateTotalPurchase` returns a number computed in binary64 arithmetic.  When `a` and `b` are
whole numbers `n` and `m` with `3 * n + 2 * m < 2 ^ 53` it is exactly `n * 3 + m * 2`, and
`calculateTotalPurchase(2, 3)` is `12`.  Otherwise the two products and the sum are rounded:
when the result is finite it differs from `a * 3 + b * 2` by at most
`(|a| * 3 + |b| * 2) / 2 ^ 51 + 1 / 2 ^ 1073`. -/
theorem calculateTotalPurchase_formula (apples bananas : JSVal) (a b : ℚ)
    (ha : apples.toNumber? = some (.fin a)) (hb : bananas.toNumber? = some (.fin b)) :
    ∃ totalPurchase, calculateTotalPurchase apples bananas = some totalPurchase ∧
      (∀ n m : ℕ, a = n → b = m → 3 * n + 2 * m < 2 ^ 53 →
        totalPurchase = .fin ((n : ℚ) * 3 + (m : ℚ) * 2)) ∧
      (∀ r : ℚ, totalPurchase = .fin r →
        |r - (a * 3 + b * 2)| ≤ (|a| * 3 + |b| * 2) / 2 ^ 51 + 1 / 2 ^ 1073) ∧
      calculateTotalPurchase (.num (.fin 2)) (.num (.fin 3)) = some (.fin 12) := by
  refine ⟨_, calculateTotalPurchase_eq_some apples bananas _ _ ha hb, ?_, ?_, by decide!⟩
  · rintro n m rfl rfl h
    have h1 : roundBinary64 ((n : ℚ) * 3) = .fin ((n : ℚ) * 3) := by
      have := roundBinary64_natCast (n * 3) (by omega)
      simpa using this
    have h2 : roundBinary64 ((m : ℚ) * 2) = .fin ((m : ℚ) * 2) := by
      have := roundBinary64_natCast (m * 2) (by omega)
      simpa using this
    have h3 : roundBinary64 ((n : ℚ) * 3 + (m : ℚ) * 2) = .fin ((n : ℚ) * 3 + (m : ℚ) * 2) := by
      have := roundBinary64_natCast (n * 3 + m * 2) (by omega)
      simpa using this
    simp only [JSNum.mul, h1, h2, JSNum.add, h3]
  · intro r hr
    exact mul_add_mul_error a b r hr

/-- Witness of C8 (amended) at the quantities `"7"` and `"4"`: the subtotal is exactly `29`. -/
theorem calculateTotalPurchase_formula_witness :
    ((JSVal.str "7").toNumber? = some (.fin 7) ∧ (JSVal.str "4").toNumber? = some (.fin 4)) ∧
    calculateTotalPurchase (.str "7") (.str "4") = some (.fin 29) := by
  refine ⟨⟨by decide!, by decide!⟩, ?_⟩
  obtain ⟨t, ht, h1, _, _⟩ := calculateTotalPurchase_formula (.str "7") (.str "4") 7 4
    (by decide!) (by decide!)
  rw [ht, h1 7 4 (by norm_num) (by norm_num) (by norm_num)]
  norm_num


/-! ## The handler -/

theorem length_pos_iff_ne_nil (errors : List String) : errors.length > 0 ↔ errors ≠ [] := by
  cases errors <;> simp

/-- What `generateReceipt` returns, cut into its literal and filled-in parts. -/
theorem generateReceipt_some (formData : FormData) (totalPurchase : JSNum) (html : String)
    (h : generateReceipt formData totalPurchase = some html) :
    ∃ (pricing : Pricing) (rate : JSNum)
      (name email phoneNumber address city province apples bananas : String),
      generateReceiptPricing formData.province totalPurchase = some pricing ∧
      pricing.taxRate.toNumber? = some rate ∧
      formData.name.toStr? = some name ∧ formData.email.toStr? = some email ∧
      formData.phoneNumber.toStr? = some phoneNumber ∧
      formData.address.toStr? = some address ∧ formData.city.toStr? = some city ∧
      formData.province.toStr? = some province ∧
      applesLine formData = some apples ∧ bananasLine formData = some bananas ∧
      html = "<h1>Receipt</h1>\n            <p>Name: " ++ name ++
        "</p>\n            <p>Email: " ++ email ++
        "</p>\n            <p>Phone Number: " ++ phoneNumber ++
        "</p>\n            <p>Address: " ++ address ++ ", " ++ city ++ ", " ++ province ++
        "</p>\n            " ++ apples ++
        "\n            " ++ bananas ++
        "\n            <p>Total Purchase: $" ++ toFixed2 totalPurchase ++
        "</p>\n            <p>Sales Tax (" ++ toFixed2 (rate.mul (.fin 100)) ++ "%): $" ++
        toFixed2 pricing.tax ++
        "</p>\n            <p>Total Cost: $" ++ toFixed2 pricing.totalCost ++ "</p>" := by
  simp only [generateReceipt, Option.bind_eq_bind, Option.bind_eq_some, Option.pure_def,
    Option.some.injEq] at h
  obtain ⟨pricing, h1, rate, h2, name, h3, email, h4, phoneNumber, h5, address, h6, city, h7,
    province, h8, apples, h9, bananas, h10, h11⟩ := h
  exact ⟨pricing, rate, name, email, phoneNumber, address, city, province, apples, bananas,
    h1, h2, h3, h4, h5, h6, h7, h8, h9, h10, h11.symm⟩

/-- The receipt page starts with `<`. -/
theorem generateReceipt_head (formData : FormData) (totalPurchase : JSNum) (html : String)
    (h : generateReceipt formData totalPurchase = some html) :
    ∃ rest, html.data = '<' :: rest := by
  obtain ⟨_, _, _, _, _, _, _, _, _, _, _, _, _, _, _, _, _, _, _, _, rfl⟩ :=
    generateReceipt_some formData totalPurchase html h
  simp only [String.data_append, List.append_assoc]
  exact ⟨_, List.cons_append _ _ _⟩

theorem generateReceipt_ne_minimum (formData : FormData) (totalPurchase : JSNum) :
    generateReceipt formData totalPurchase ≠ some "Minimum purchase should be $10." := by
  intro h
  obtain ⟨rest, hr⟩ := generateReceipt_head formData totalPurchase _ h
  cases hr

theorem generateReceipt_ne_internalServerError (formData : FormData) (totalPurchase : JSNum) :
    generateReceipt formData totalPurchase ≠ some "Internal server error" := by
  intro h
  obtain ⟨rest, hr⟩ := generateReceipt_head formData totalPurchase _ h
  cases hr

/-- A field that converts to a number converts to a string. -/
theorem toStr?_of_toNumber? (f : Field) (n : JSNum) (h : f.toVal.toNumber? = some n) :
    ∃ s, f.toStr? = some s := by
  cases f with
  | undefined => exact ⟨_, rfl⟩
  | str s => exact ⟨_, rfl⟩
  | arr items =>
    simp only [Field.toVal, JSVal.toNumber?, Option.map_eq_some'] at h
    obtain ⟨s, hs, _⟩ := h
    exact ⟨s, hs⟩
  | obj entries =>
    simp only [Field.toVal, JSVal.toNumber?, Option.map_eq_some'] at h
    obtain ⟨s, hs, _⟩ := h
    exact ⟨s, hs⟩

/-- On a field that converts to a string, `parseInt` returns a number. -/
theorem parseInt_of_toStr? (f : Field) (s : String) (h : f.toStr? = some s) :
    ∃ n, parseInt f = some n := by
  unfold parseInt
  simp only [h, Option.bind_eq_bind, Option.some_bind, Option.pure_def]
  split
  · exact ⟨_, rfl⟩
  · exact ⟨_, rfl⟩

/-- The record `saleData` in terms of what `parseInt` reads. -/
theorem saleData_eq_some (body : FormData) (totalPurchase : JSNum) (n m : JSNum)
    (hn : parseInt body.apples = some n) (hm : parseInt body.bananas = some m) :
    saleData body totalPurchase =
      some [ ("name", body.name.toVal), ("address", body.address.toVal),
        ("city", body.city.toVal), ("province", body.province.toVal),
        ("phoneNumber", body.phoneNumber.toVal), ("email", body.email.toVal),
        ("apples", .num n), ("bananas", .num m), ("totalPurchase", .num totalPurchase) ] := by
  simp [saleData, hn, hm]

/-- For a body that passes validation, the subtotal is computed and the record is built: no
coercion throws. -/
theorem subtotal_and_record_of_valid (body : FormData)
    (h : validateInputs body.name body.address body.city body.province body.phoneNumber
      body.email body.apples body.bananas = some []) :
    (∃ a b, body.apples.toVal.toNumber? = some a ∧ body.bananas.toVal.toNumber? = some b ∧
      calculateTotalPurchase body.apples.toVal body.bananas.toVal =
        some ((a.mul (.fin 3)).add (b.mul (.fin 2)))) ∧
    ∃ n m, parseInt body.apples = some n ∧ parseInt body.bananas = some m := by
  obtain ⟨_, _, a, b, _, _, ha, hb, _⟩ := validateInputs_some _ _ _ _ _ _ _ _ _ h
  obtain ⟨sa, hsa⟩ := toStr?_of_toNumber? _ _ ha
  obtain ⟨sb, hsb⟩ := toStr?_of_toNumber? _ _ hb
  obtain ⟨n, hn⟩ := parseInt_of_toStr? _ _ hsa
  obtain ⟨m, hm⟩ := parseInt_of_toStr? _ _ hsb
  refine ⟨⟨a, b, ha, hb, ?_⟩, n, m, hn, hm⟩
  simp [calculateTotalPurchase, ha, hb]

/-- The run of the handler on a body on which `validateInputs` throws. -/
theorem submitForm_of_throw (store : Store) (body : FormData)
    (h : validateInputs body.name body.address body.city body.province body.phoneNumber
      body.email body.apples body.bananas = none) :
    submitForm store body = { storeCalls := [], errorLogged := false, response := none } := by
  unfold submitForm
  simp only [h]

/-- The run of the handler on a body that fails validation. -/
theorem submitForm_of_errors (store : Store) (body : FormData) (errors : List String)
    (h : validateInputs body.name body.address body.city body.province body.phoneNumber
      body.email body.apples body.bananas = some errors) (hne : errors ≠ []) :
    submitForm store body =
      { storeCalls := [], errorLogged := false,
        response := some { status := 200, body := generateErrorHtml errors } } := by
  unfold submitForm
  simp only [h, (length_pos_iff_ne_nil _).2 hne, if_true]

/-- The run of the handler on a valid body below the minimum purchase. -/
theorem submitForm_of_below_minimum (store : Store) (body : FormData) (totalPurchase : JSNum)
    (h : validateInputs body.name body.address body.city body.province body.phoneNumber
      body.email body.apples body.bananas = some [])
    (ht : calculateTotalPurchase body.apples.toVal body.bananas.toVal = some totalPurchase)
    (hlt : totalPurchase.lt (.fin 10) = true) :
    submitForm store body =
      { storeCalls := [], errorLogged := false,
        response := some { status := 200, body := "Minimum purchase should be $10." } } := by
  unfold submitForm
  simp [h, ht, hlt]

/-- The run of the handler on a valid body that reaches the minimum purchase. -/
theorem submitForm_of_accepted (store : Store) (body : FormData) (totalPurchase : JSNum)
    (record : List (String × JSVal))
    (h : validateInputs body.name body.address body.city body.province body.phoneNumber
      body.email body.apples body.bananas = some [])
    (ht : calculateTotalPurchase body.apples.toVal body.bananas.toVal = some totalPurchase)
    (hlt : totalPurchase.lt (.fin 10) = false)
    (hr : saleData body totalPurchase = some record) :
    submitForm store body =
      if !store.connectOk then
        { storeCalls := [.connect], errorLogged := true, response := some internalServerError }
      else if !store.insertOk record then
        { storeCalls := [.connect, .insertOne record], errorLogged := true,
          response := some internalServerError }
      else if !store.closeOk then
        { storeCalls := [.connect, .insertOne record, .close], errorLogged := true,
          response := some internalServerError }
      else
        { storeCalls := [.connect, .insertOne record, .close], errorLogged := false,
          response := (generateReceipt body totalPurchase).map fun receiptHtml =>
            { status := 200, body := receiptHtml } } := by
  unfold submitForm
  simp [h, ht, hlt, hr]

/-- For a valid body that reaches the minimum purchase the record is built. -/
theorem saleData_of_valid (body : FormData) (totalPurchase : JSNum)
    (h : validateInputs body.name body.address body.city body.province body.phoneNumber
      body.email body.apples body.bananas = some []) :
    ∃ n m, parseInt body.apples = some n ∧ parseInt body.bananas = some m ∧
      saleData body totalPurchase =
        some [ ("name", body.name.toVal), ("address", body.address.toVal),
          ("city", body.city.toVal), ("province", body.province.toVal),
          ("phoneNumber", body.phoneNumber.toVal), ("email", body.email.toVal),
          ("apples", .num n), ("bananas", .num m), ("totalPurchase", .num totalPurchase) ] := by
  obtain ⟨_, n, m, hn, hm⟩ := subtotal_and_record_of_valid body h
  exact ⟨n, m, hn, hm, saleData_eq_some body totalPurchase n m hn hm⟩

theorem subtotal_of_333_0 :
    calculateTotalPurchase (.str "3.33") (.str "0") = some (.lit 9.99) := by
  decide!

theorem subtotal_of_2_2 : calculateTotalPurchase (.str "2") (.str "2") = some (.fin 10) := by
  decide!

theorem subtotal_of_2_3 : calculateTotalPurchase (.str "2") (.str "3") = some (.fin 12) := by
  decide!

/-- A sample order passes validation as soon as its province is not empty and its quantities
pass the quantity checks. -/
theorem sampleOrder_valid (province apples bananas : String) (a b : JSNum)
    (hp : province ≠ "")
    (ha : stringToNumber apples = a) (hb : stringToNumber bananas = b)
    (hq : ((notPositive a && notPositive b) ||
      notNumberOrNegative a || notNumberOrNegative b) = false) :
    validateInputs (sampleOrder province apples bananas).name
      (sampleOrder province apples bananas).address (sampleOrder province apples bananas).city
      (sampleOrder province apples bananas).province
      (sampleOrder province apples bananas).phoneNumber
      (sampleOrder province apples bananas).email (sampleOrder province apples bananas).apples
      (sampleOrder province apples bananas).bananas = some [] := by
  rw [validateInputs_eq_nil_iff]
  simp only [Bool.or_eq_false_iff, Bool.and_eq_false_iff] at hq
  refine ⟨rfl, rfl, rfl, by simpa [sampleOrder, Field.isMissing] using hp,
    ⟨"555-555-5555", rfl, by decide⟩, ⟨"a@b.c", rfl, by decide⟩, a, b, ?_, ?_, ?_, hq.1.2,
    hq.2⟩
  · simp [sampleOrder, Field.toVal, JSVal.toNumber?, ha]
  · simp [sampleOrder, Field.toVal, JSVal.toNumber?, hb]
  · rcases hq.1.1 with h | h
    · exact Or.inl h
    · exact Or.inr h


/-! ## Minimum purchase -/

/-- C11: for a body that passes validation, `calculateTotalPurchase(apples, bananas)` returns a
subtotal and the handler answers with the plain text `Minimum purchase should be $10.` exactly
when that subtotal is `< 10`; the subtotal `9.99` (apples `"3.33"`) is rejected, and the
subtotal `10` (apples `"2"`, bananas `"2"`) is not: the handler goes on to connect to the
store. -/
theorem submitForm_minimum_purchase (store : Store) (body : FormData)
    (h : validateInputs body.name body.address body.city body.province body.phoneNumber
      body.email body.apples body.bananas = some []) :
    (∃ totalPurchase,
      calculateTotalPurchase body.apples.toVal body.bananas.toVal = some totalPurchase ∧
      ((submitForm store body).response =
          some { status := 200, body := "Minimum purchase should be $10." } ↔
        totalPurchase.lt (.fin 10) = true)) ∧
    (calculateTotalPurchase (.str "3.33") (.str "0") = some (.lit 9.99) ∧
      (submitForm store (sampleOrder "Ontario" "3.33" "0")).response =
        some { status := 200, body := "Minimum purchase should be $10." }) ∧
    (calculateTotalPurchase (.str "2") (.str "2") = some (.fin 10) ∧
      (submitForm store (sampleOrder "Ontario" "2" "2")).storeCalls.head? =
        some .connect) := by
  refine ⟨?_, ⟨subtotal_of_333_0, ?_⟩, ⟨subtotal_of_2_2, ?_⟩⟩
  · obtain ⟨⟨a, b, _, _, ht⟩, _⟩ := subtotal_and_record_of_valid body h
    refine ⟨_, ht, ?_, ?_⟩
    · intro hr
      by_contra hlt
      have hlt2 : ((a.mul (.fin 3)).add (b.mul (.fin 2))).lt (.fin 10) = false := by
        simpa using hlt
      obtain ⟨n, m, _, _, hrec⟩ := saleData_of_valid body ((a.mul (.fin 3)).add (b.mul (.fin 2))) h
      rw [submitForm_of_accepted store body _ _ h ht hlt2 hrec] at hr
      split_ifs at hr
      · simp [internalServerError] at hr
      · simp [internalServerError] at hr
      · simp [internalServerError] at hr
      · simp only [Option.map_eq_some', Response.mk.injEq, true_and] at hr
        obtain ⟨html, hhtml, rfl⟩ := hr
        exact generateReceipt_ne_minimum _ _ hhtml
    · intro hlt
      rw [submitForm_of_below_minimum store body _ h ht hlt]
  · rw [submitForm_of_below_minimum store (sampleOrder "Ontario" "3.33" "0") (.lit 9.99)
      (sampleOrder_valid "Ontario" "3.33" "0" (.lit 3.33) (.fin 0) (by decide) (by decide!)
        (by decide!) (by decide!))
      subtotal_of_333_0 (by decide!)]
  · obtain ⟨n, m, _, _, hrec⟩ := saleData_of_valid (sampleOrder "Ontario" "2" "2") (.fin 10)
      (sampleOrder_valid "Ontario" "2" "2" (.fin 2) (.fin 2) (by decide) (by decide!)
        (by decide!) (by decide!))
    rw [submitForm_of_accepted store (sampleOrder "Ontario" "2" "2") (.fin 10) _
      (sampleOrder_valid "Ontario" "2" "2" (.fin 2) (.fin 2) (by decide) (by decide!)
        (by decide!) (by decide!))
      subtotal_of_2_2 (by decide!) hrec]
    split_ifs <;> rfl

/-- Witness of C11 at a complete order for two apples and two bananas. -/
theorem submitForm_minimum_purchase_witness :
    validateInputs (.str "Ann") (.str "1 Main St") (.str "Ottawa") (.str "Ontario")
        (.str "555-555-5555") (.str "a@b.c") (.str "2") (.str "2") = some [] ∧
    ∃ totalPurchase,
      calculateTotalPurchase (Field.str "2").toVal (Field.str "2").toVal = some totalPurchase ∧
      ((submitForm reliableStore (sampleOrder "Ontario" "2" "2")).response =
          some { status := 200, body := "Minimum purchase should be $10." } ↔
        totalPurchase.lt (.fin 10) = true) :=
  ⟨by decide!,
   (submitForm_minimum_purchase reliableStore (sampleOrder "Ontario" "2" "2")
      (by decide!)).1⟩

/-! ## Rejections and store failures -/

/-- Each item of a list is inside the concatenation of the list. -/
theorem infix_join_of_mem (item : String) (items : List String) (h : item ∈ items) :
    item.data <:+: (String.join items).data := by
  rw [String.data_join]
  exact List.infix_of_mem_flatten (List.mem_map_of_mem _ h)

/-- C15: for a body on which `validateInputs` returns a non-empty list, or the empty list with a
subtotal below `10`, the handler makes no call on the store.  In the first case the response is
the error page: `<ul>`, then one `<li>...</li>` per message of the list, in order, then `</ul>`
and the link back, so every message of the list is on the page inside a list item; in the second
case it is the plain-text minimum-purchase message. -/
theorem submitForm_rejected_no_store_call (store : Store) (body : FormData)
    (errors : List String)
    (hv : validateInputs body.name body.address body.city body.province body.phoneNumber
      body.email body.apples body.bananas = some errors)
    (h : errors ≠ [] ∨ ∃ totalPurchase,
      calculateTotalPurchase body.apples.toVal body.bananas.toVal = some totalPurchase ∧
      totalPurchase.lt (.fin 10) = true) :
    (submitForm store body).storeCalls = [] ∧
    (errors ≠ [] →
      ∃ page, (submitForm store body).response = some { status := 200, body := page } ∧
        page = "<ul>" ++ String.join (errors.map fun error => "<li>" ++ error ++ "</li>") ++
          "</ul><a href=\"/\">Go back</a>" ∧
        ∀ error ∈ errors, containsText page ("<li>" ++ error ++ "</li>")) ∧
    (errors = [] →
      (submitForm store body).response =
        some { status := 200, body := "Minimum purchase should be $10." }) := by
  by_cases he : errors = []
  · subst he
    obtain ⟨t, ht, hlt⟩ := h.resolve_left (fun hne => hne rfl)
    rw [submitForm_of_below_minimum store body t hv ht hlt]
    exact ⟨rfl, fun hne => absurd rfl hne, fun _ => rfl⟩
  · rw [submitForm_of_errors store body errors hv he]
    refine ⟨rfl, fun _ => ⟨_, rfl, rfl, ?_⟩, fun h0 => absurd h0 he⟩
    intro error hmem
    have h1 : ("<li>" ++ error ++ "</li>").data <:+:
        (String.join (errors.map fun error => "<li>" ++ error ++ "</li>")).data :=
      infix_join_of_mem _ _ (List.mem_map_of_mem _ hmem)
    obtain ⟨s, t, hst⟩ := h1
    refine ⟨"<ul>".data ++ s, t ++ "</ul><a href=\"/\">Go back</a>".data, ?_⟩
    simp only [generateErrorHtml, String.data_append, List.append_assoc] at hst ⊢
    rw [← hst]
    simp

/-- Witness of C15 at a body with every field absent: no store call, and the page lists the
seven messages. -/
theorem submitForm_rejected_no_store_call_witness :
    validateInputs .undefined .undefined .undefined .undefined .undefined .undefined
        .undefined .undefined =
      some [ "Name is required.", "Address is required.", "City is required.",
        "Province is required.", "Phone Number must be in the format 555-555-5555.",
        "Invalid Email Address format.",
        "At least one of Apples or Bananas quantity must be greater than 0." ] ∧
    (submitForm reliableStore ⟨.undefined, .undefined, .undefined, .undefined,
      .undefined, .undefined, .undefined, .undefined⟩).storeCalls = [] ∧
    ∃ page, (submitForm reliableStore ⟨.undefined, .undefined, .undefined, .undefined,
        .undefined, .undefined, .undefined, .undefined⟩).response =
          some { status := 200, body := page } ∧
      page = "<ul><li>Name is required.</li><li>Address is required.</li>" ++
        "<li>City is required.</li><li>Province is required.</li>" ++
        "<li>Phone Number must be in the format 555-555-5555.</li>" ++
        "<li>Invalid Email Address format.</li>" ++
        "<li>At least one of Apples or Bananas quantity must be greater than 0.</li>" ++
        "</ul><a href=\"/\">Go back</a>" := by
  have h := submitForm_rejected_no_store_call reliableStore ⟨.undefined, .undefined,
    .undefined, .undefined, .undefined, .undefined, .undefined, .undefined⟩
    [ "Name is required.", "Address is required.", "City is required.",
      "Province is required.", "Phone Number must be in the format 555-555-5555.",
      "Invalid Email Address format.",
      "At least one of Apples or Bananas quantity must be greater than 0." ]
    (by decide) (Or.inl (by decide))
  obtain ⟨page, h1, h2, _⟩ := h.2.1 (by decide)
  exact ⟨by decide, h.1, page, h1, h2.trans (by decide!)⟩

/-- C14: when connecting or inserting throws for a body that passed validation and the
minimum-purchase check, the response has status `500` and the body `Internal server error`,
which is not the receipt; two such runs, on any two bodies, send the same response. -/
theorem submitForm_store_failure (store store2 : Store) (body body2 : FormData)
    (totalPurchase totalPurchase2 : JSNum)
    (h : validateInputs body.name body.address body.city body.province body.phoneNumber
      body.email body.apples body.bananas = some [])
    (ht : calculateTotalPurchase body.apples.toVal body.bananas.toVal = some totalPurchase)
    (hmin : totalPurchase.lt (.fin 10) = false)
    (hfail : store.connectOk = false ∨
      ∃ record, saleData body totalPurchase = some record ∧ store.insertOk record = false)
    (h2 : validateInputs body2.name body2.address body2.city body2.province body2.phoneNumber
      body2.email body2.apples body2.bananas = some [])
    (ht2 : calculateTotalPurchase body2.apples.toVal body2.bananas.toVal = some totalPurchase2)
    (hmin2 : totalPurchase2.lt (.fin 10) = false)
    (hfail2 : store2.connectOk = false ∨
      ∃ record, saleData body2 totalPurchase2 = some record ∧
        store2.insertOk record = false) :
    (submitForm store body).response =
      some { status := 500, body := "Internal server error" } ∧
    generateReceipt body totalPurchase ≠
      (submitForm store body).response.map Response.body ∧
    (submitForm store body).response = (submitForm store2 body2).response := by
  have key : ∀ (st : Store) (b : FormData) (t : JSNum),
      validateInputs b.name b.address b.city b.province b.phoneNumber b.email b.apples
        b.bananas = some [] →
      calculateTotalPurchase b.apples.toVal b.bananas.toVal = some t →
      t.lt (.fin 10) = false →
      (st.connectOk = false ∨
        ∃ record, saleData b t = some record ∧ st.insertOk record = false) →
      (submitForm st b).response = some { status := 500, body := "Internal server error" } := by
    intro st b t hv hc hm hf
    obtain ⟨n, m, _, _, hrec⟩ := saleData_of_valid b t hv
    rw [submitForm_of_accepted st b t _ hv hc hm hrec]
    rcases hf with hf | ⟨record, hr, hf⟩
    · simp [hf, internalServerError]
    · rw [hrec] at hr
      rw [Option.some.inj hr]
      cases st.connectOk <;> simp [hf, internalServerError]
  refine ⟨key store body _ h ht hmin hfail, ?_, ?_⟩
  · rw [key store body _ h ht hmin hfail]
    exact generateReceipt_ne_internalServerError _ _
  · rw [key store body _ h ht hmin hfail, key store2 body2 _ h2 ht2 hmin2 hfail2]

/-- Witness of C14: two different orders, one against a store that does not connect, the other
against a store that connects and does not insert. -/
theorem submitForm_store_failure_witness :
    (submitForm unreachableStore (sampleOrder "Ontario" "2" "3")).response =
        some { status := 500, body := "Internal server error" } ∧
    (submitForm unreachableStore (sampleOrder "Ontario" "2" "3")).response =
      (submitForm rejectingStore ⟨.str "Bob", .str "2 High St", .str "Hull",
        .str "Quebec", .str "555-123-4567", .str "b@c.d", .str "4", .str "0"⟩).response :=
  ⟨(submitForm_store_failure unreachableStore rejectingStore
    (sampleOrder "Ontario" "2" "3")
    ⟨.str "Bob", .str "2 High St", .str "Hull", .str "Quebec", .str "555-123-4567",
      .str "b@c.d", .str "4", .str "0"⟩ (.fin 12) (.fin 12)
    (by decide!) (by decide!) (by decide!) (Or.inl rfl) (by decide!) (by decide!) (by decide!)
    (Or.inr ⟨[ ("name", .str "Bob"), ("address", .str "2 High St"), ("city", .str "Hull"),
        ("province", .str "Quebec"), ("phoneNumber", .str "555-123-4567"),
        ("email", .str "b@c.d"), ("apples", .num (.fin 4)), ("bananas", .num (.fin 0)),
        ("totalPurchase", .num (.fin 12)) ], by decide!, rfl⟩)).1,
   (submitForm_store_failure unreachableStore rejectingStore
    (sampleOrder "Ontario" "2" "3")
    ⟨.str "Bob", .str "2 High St", .str "Hull", .str "Quebec", .str "555-123-4567",
      .str "b@c.d", .str "4", .str "0"⟩ (.fin 12) (.fin 12)
    (by decide!) (by decide!) (by decide!) (Or.inl rfl) (by decide!) (by decide!) (by decide!)
    (Or.inr ⟨[ ("name", .str "Bob"), ("address", .str "2 High St"), ("city", .str "Hull"),
        ("province", .str "Quebec"), ("phoneNumber", .str "555-123-4567"),
        ("email", .str "b@c.d"), ("apples", .num (.fin 4)), ("bananas", .num (.fin 0)),
        ("totalPurchase", .num (.fin 12)) ], by decide!, rfl⟩)).2.2⟩

/-- C17 (failing input): on a valid order for two apples and three bananas, against a store that
connects and whose `insertOne` throws, the handler calls `connect` and `insertOne` and never
calls `close`, while against a store that answers every call it does call `close`. -/
theorem submitForm_insert_failure_no_close :
    (submitForm rejectingStore (sampleOrder "Ontario" "2" "3")).storeCalls =
      [.connect, .insertOne
        [ ("name", .str "Ann"), ("address", .str "1 Main St"), ("city", .str "Ottawa"),
          ("province", .str "Ontario"), ("phoneNumber", .str "555-555-5555"),
          ("email", .str "a@b.c"), ("apples", .num (.fin 2)), ("bananas", .num (.fin 3)),
          ("totalPurchase", .num (.fin 12)) ]] ∧
    saleData (sampleOrder "Ontario" "2" "3") (.fin 12) =
      some [ ("name", .str "Ann"), ("address", .str "1 Main St"), ("city", .str "Ottawa"),
        ("province", .str "Ontario"), ("phoneNumber", .str "555-555-5555"),
        ("email", .str "a@b.c"), ("apples", .num (.fin 2)), ("bananas", .num (.fin 3)),
        ("totalPurchase", .num (.fin 12)) ] ∧
    StoreCall.close ∉
      (submitForm rejectingStore (sampleOrder "Ontario" "2" "3")).storeCalls ∧
    StoreCall.close ∈
      (submitForm reliableStore (sampleOrder "Ontario" "2" "3")).storeCalls := by
  refine ⟨by decide!, by decide!, by decide!, by decide!⟩


/-! ## The saved record -/

/-- The run of the handler on a valid body that reaches the minimum purchase, against a store
that connects: the handler connects and hands the record `saleData` to `insertOne`. -/
theorem submitForm_storeCalls_of_connected (store : Store) (body : FormData)
    (totalPurchase : JSNum) (record : List (String × JSVal))
    (h : validateInputs body.name body.address body.city body.province body.phoneNumber
      body.email body.apples body.bananas = some [])
    (ht : calculateTotalPurchase body.apples.toVal body.bananas.toVal = some totalPurchase)
    (hmin : totalPurchase.lt (.fin 10) = false)
    (hr : saleData body totalPurchase = some record)
    (hc : store.connectOk = true) :
    (submitForm store body).storeCalls.take 2 = [.connect, .insertOne record] := by
  rw [submitForm_of_accepted store body totalPurchase record h ht hmin hr]
  simp only [hc, Bool.not_true, Bool.false_eq_true, if_false]
  split_ifs <;> rfl

theorem sampleOrder_2_3_valid :
    validateInputs (sampleOrder "Ontario" "2" "3").name (sampleOrder "Ontario" "2" "3").address
      (sampleOrder "Ontario" "2" "3").city (sampleOrder "Ontario" "2" "3").province
      (sampleOrder "Ontario" "2" "3").phoneNumber (sampleOrder "Ontario" "2" "3").email
      (sampleOrder "Ontario" "2" "3").apples (sampleOrder "Ontario" "2" "3").bananas =
        some [] :=
  sampleOrder_valid "Ontario" "2" "3" (.fin 2) (.fin 3) (by decide) (by decide!) (by decide!)
    (by decide!)

theorem pricing_of_ontario_12 :
    generateReceiptPricing (sampleOrder "Ontario" "2" "3").province (.fin 12) =
      some { taxRate := .num (.lit 0.13), tax := .lit 1.56, totalCost := .lit 13.56 } := by
  decide!

/-- C12 (counterexample): for the valid order of two apples and three bananas in Ontario
(subtotal `12`, tax `1.56`, total cost `13.56`) the record handed to the store has the nine
properties name, address, city, province, phoneNumber, email, apples, bananas and
totalPurchase, and none of its values is the tax or the total cost. -/
theorem saleData_without_tax_and_total :
    (submitForm reliableStore (sampleOrder "Ontario" "2" "3")).storeCalls =
      [.connect, .insertOne
        [ ("name", .str "Ann"), ("address", .str "1 Main St"), ("city", .str "Ottawa"),
          ("province", .str "Ontario"), ("phoneNumber", .str "555-555-5555"),
          ("email", .str "a@b.c"), ("apples", .num (.fin 2)), ("bananas", .num (.fin 3)),
          ("totalPurchase", .num (.fin 12)) ], .close] ∧
    calculateTotalPurchase (sampleOrder "Ontario" "2" "3").apples.toVal
      (sampleOrder "Ontario" "2" "3").bananas.toVal = some (.fin 12) ∧
    generateReceiptPricing (sampleOrder "Ontario" "2" "3").province (.fin 12) =
      some { taxRate := .num (.lit 0.13), tax := .lit 1.56, totalCost := .lit 13.56 } ∧
    (saleData (sampleOrder "Ontario" "2" "3") (.fin 12)).map
        (fun record => record.map Prod.fst) =
      some ["name", "address", "city", "province", "phoneNumber", "email", "apples", "bananas",
        "totalPurchase"] ∧
    (saleData (sampleOrder "Ontario" "2" "3") (.fin 12)).map
        (fun record => decide (JSVal.num (.lit 1.56) ∈ record.map Prod.snd)) = some false ∧
    (saleData (sampleOrder "Ontario" "2" "3") (.fin 12)).map
        (fun record => decide (JSVal.num (.lit 13.56) ∈ record.map Prod.snd)) = some false := by
  refine ⟨by decide!, subtotal_of_2_3, pricing_of_ontario_12, by decide!, by decide!,
    by decide!⟩

/-- C12 (amended): for a body that passes validation and the minimum-purchase check, against a
store that connects, the handler hands to `insertOne` a record with exactly the nine properties
name, address, city, province, phoneNumber, email, apples, bananas and totalPurchase; the first
six hold the submitted values and totalPurchase holds the subtotal; there is no property for the
tax and none for the total cost. -/
theorem saleData_contents (store : Store) (body : FormData) (totalPurchase : JSNum)
    (h : validateInputs body.name body.address body.city body.province body.phoneNumber
      body.email body.apples body.bananas = some [])
    (ht : calculateTotalPurchase body.apples.toVal body.bananas.toVal = some totalPurchase)
    (hmin : totalPurchase.lt (.fin 10) = false)
    (hc : store.connectOk = true) :
    ∃ record, (submitForm store body).storeCalls.take 2 = [.connect, .insertOne record] ∧
      record.map Prod.fst =
        ["name", "address", "city", "province", "phoneNumber", "email", "apples", "bananas",
          "totalPurchase"] ∧
      record.lookup "name" = some body.name.toVal ∧
      record.lookup "address" = some body.address.toVal ∧
      record.lookup "city" = some body.city.toVal ∧
      record.lookup "province" = some body.province.toVal ∧
      record.lookup "phoneNumber" = some body.phoneNumber.toVal ∧
      record.lookup "email" = some body.email.toVal ∧
      record.lookup "totalPurchase" = some (.num totalPurchase) ∧
      record.lookup "tax" = none ∧ record.lookup "totalCost" = none := by
  obtain ⟨n, m, _, _, hrec⟩ := saleData_of_valid body totalPurchase h
  exact ⟨_, submitForm_storeCalls_of_connected store body totalPurchase _ h ht hmin hrec hc,
    rfl, rfl, rfl, rfl, rfl, rfl, rfl, rfl, rfl, rfl⟩

/-- Witness of C12 (amended) at the valid order of two apples and three bananas. -/
theorem saleData_contents_witness :
    (validateInputs (sampleOrder "Ontario" "2" "3").name
        (sampleOrder "Ontario" "2" "3").address (sampleOrder "Ontario" "2" "3").city
        (sampleOrder "Ontario" "2" "3").province (sampleOrder "Ontario" "2" "3").phoneNumber
        (sampleOrder "Ontario" "2" "3").email (sampleOrder "Ontario" "2" "3").apples
        (sampleOrder "Ontario" "2" "3").bananas = some [] ∧
      calculateTotalPurchase (sampleOrder "Ontario" "2" "3").apples.toVal
        (sampleOrder "Ontario" "2" "3").bananas.toVal = some (.fin 12) ∧
      (JSNum.fin 12).lt (.fin 10) = false ∧ reliableStore.connectOk = true) ∧
    ∃ record, (submitForm reliableStore (sampleOrder "Ontario" "2" "3")).storeCalls.take 2 =
        [.connect, .insertOne record] ∧
      record.lookup "name" = some (.str "Ann") ∧
      record.lookup "totalPurchase" = some (.num (.fin 12)) ∧ record.lookup "tax" = none := by
  refine ⟨⟨sampleOrder_2_3_valid, subtotal_of_2_3, by decide, rfl⟩, ?_⟩
  obtain ⟨record, h1, _, h2, _, _, _, _, _, h3, h4, _⟩ := saleData_contents reliableStore
    (sampleOrder "Ontario" "2" "3") (.fin 12) sampleOrder_2_3_valid subtotal_of_2_3
    (by decide) rfl
  exact ⟨record, h1, h2, h3, h4⟩

/-- C19 (failing input): the valid order of apples `"1.5"` and bananas `"3"` is saved with
apples `1`, bananas `3` and totalPurchase `10.5`, while `3 * 1 + 2 * 3` is `9`. -/
theorem saleData_inconsistent_quantities :
    (submitForm reliableStore (sampleOrder "Ontario" "1.5" "3")).storeCalls =
      [.connect, .insertOne
        [ ("name", .str "Ann"), ("address", .str "1 Main St"), ("city", .str "Ottawa"),
          ("province", .str "Ontario"), ("phoneNumber", .str "555-555-5555"),
          ("email", .str "a@b.c"), ("apples", .num (.fin 1)), ("bananas", .num (.fin 3)),
          ("totalPurchase", .num (.fin (21 / 2))) ], .close] ∧
    calculateTotalPurchase (sampleOrder "Ontario" "1.5" "3").apples.toVal
      (sampleOrder "Ontario" "1.5" "3").bananas.toVal = some (.fin (21 / 2)) ∧
    (saleData (sampleOrder "Ontario" "1.5" "3") (.fin (21 / 2))).bind
      (fun record => record.lookup "apples") = some (.num (.fin 1)) ∧
    (saleData (sampleOrder "Ontario" "1.5" "3") (.fin (21 / 2))).bind
      (fun record => record.lookup "bananas") = some (.num (.fin 3)) ∧
    (saleData (sampleOrder "Ontario" "1.5" "3") (.fin (21 / 2))).bind
      (fun record => record.lookup "totalPurchase") = some (.num (.fin (21 / 2))) ∧
    calculateTotalPurchase (.num (.fin 1)) (.num (.fin 3)) = some (.fin 9) := by
  refine ⟨by decide!, by decide!, by decide!, by decide!, by decide!, by decide!⟩

/-- C13 (failing input): the order of two apples and three bananas with province `"valueOf"`
passes validation with subtotal `12`, which is `>= 0`, but the total cost `generateReceipt`
computes for it is `NaN`, which is not `>=` the subtotal. -/
theorem totalCost_not_ge_subtotal :
    validateInputs (sampleOrder "valueOf" "2" "3").name (sampleOrder "valueOf" "2" "3").address
      (sampleOrder "valueOf" "2" "3").city (sampleOrder "valueOf" "2" "3").province
      (sampleOrder "valueOf" "2" "3").phoneNumber (sampleOrder "valueOf" "2" "3").email
      (sampleOrder "valueOf" "2" "3").apples (sampleOrder "valueOf" "2" "3").bananas =
        some [] ∧
    calculateTotalPurchase (sampleOrder "valueOf" "2" "3").apples.toVal
      (sampleOrder "valueOf" "2" "3").bananas.toVal = some (.fin 12) ∧
    JSNum.ge (.fin 12) (.fin 0) = true ∧
    (generateReceiptPricing (sampleOrder "valueOf" "2" "3").province (.fin 12)).map
      Pricing.totalCost = some .nan ∧
    JSNum.ge .nan (.fin 12) = false := by
  refine ⟨sampleOrder_valid "valueOf" "2" "3" (.fin 2) (.fin 3) (by decide) (by decide!)
    (by decide!) (by decide!), subtotal_of_2_3, by decide!, by decide!, by decide!⟩


/-- Every rate of the tax table, and the default `0`, is a finite number that is not
negative. -/
theorem salesTaxRates_rate (key : String) :
    ∃ r : ℚ, 0 ≤ r ∧ (salesTaxRates.lookup key).getD (.fin 0) = .fin r := by
  have hall : ∀ p ∈ salesTaxRates, p.2.ge (.fin 0) = true ∧ p.2 ≠ .posInf := by decide!
  have hmem : ∀ (l : List (String × JSNum)) (rate : JSNum),
      l.lookup key = some rate → (key, rate) ∈ l := by
    intro l rate
    induction l with
    | nil => intro h; cases h
    | cons p l ih =>
      obtain ⟨k, v⟩ := p
      intro h
      rw [List.lookup_cons] at h
      by_cases hk : key == k
      · simp only [hk] at h
        have hk2 : key = k := by simpa using hk
        cases h
        simp [hk2]
      · simp only [hk] at h
        exact List.mem_cons_of_mem _ (ih h)
  cases hl : salesTaxRates.lookup key with
  | none => exact ⟨0, le_rfl, rfl⟩
  | some rate =>
    obtain ⟨h1, h2⟩ := hall _ (hmem _ _ hl)
    rcases JSNum.eq_fin_of_ge_zero rate h1 with h | ⟨r, hr, h⟩
    · exact absurd h h2
    · exact ⟨r, hr, by simp [h]⟩

/-- For a province that converts to a key which is not inherited from `Object.prototype` and a
finite subtotal that is not negative, the total cost `generateReceipt` computes is `>=` the
subtotal. -/
theorem totalCost_ge_subtotal_of_not_inherited (province : Field) (key : String) (s : ℚ)
    (hs : 0 ≤ s) (hrep : roundBinary64 s = .fin s) (hk : province.toStr? = some key)
    (h : key ∉ objectPrototypeKeys) :
    ∃ pricing, generateReceiptPricing province (.fin s) = some pricing ∧
      pricing.totalCost.ge (.fin s) = true := by
  refine ⟨_, generateReceiptPricing_of_not_inherited province key (.fin s) hk h, ?_⟩
  obtain ⟨r, hr, hrate⟩ := salesTaxRates_rate key
  simp only [hrate, JSNum.mul]
  rcases JSNum.eq_fin_of_ge_zero _ (roundBinary64_nonneg (s * r) (mul_nonneg hs hr)) with
    h1 | ⟨t, ht, h1⟩
  · rw [h1]; rfl
  · rw [h1]
    exact roundBinary64_add_ge s t hs hrep ht

/-- The subtotal of a body that passes validation is computed and is `>= 0`. -/
theorem subtotal_nonneg_of_valid
    (name address city province phoneNumber email apples bananas : Field)
    (h : validateInputs name address city province phoneNumber email apples bananas =
      some []) :
    ∃ totalPurchase, calculateTotalPurchase apples.toVal bananas.toVal = some totalPurchase ∧
      totalPurchase.ge (.fin 0) = true := by
  rw [validateInputs_eq_nil_iff] at h
  obtain ⟨_, _, _, _, _, _, a, b, hna, hnb, _, ha, hb⟩ := h
  rw [notNumberOrNegative_eq_false_iff] at ha hb
  refine ⟨_, calculateTotalPurchase_eq_some _ _ a b hna hnb, ?_⟩
  exact JSNum.add_ge_zero _ _ (JSNum.mul_fin_ge_zero _ 3 (by norm_num) ha)
    (JSNum.mul_fin_ge_zero _ 2 (by norm_num) hb)

/-- The subtotal of a body that passes validation is `+Infinity` or a binary64 value that is
not negative. -/
theorem subtotal_of_valid
    (name address city province phoneNumber email apples bananas : Field)
    (h : validateInputs name address city province phoneNumber email apples bananas =
      some []) :
    ∃ totalPurchase, calculateTotalPurchase apples.toVal bananas.toVal = some totalPurchase ∧
      (totalPurchase = .posInf ∨
        ∃ s : ℚ, 0 ≤ s ∧ roundBinary64 s = .fin s ∧ totalPurchase = .fin s) := by
  rw [validateInputs_eq_nil_iff] at h
  obtain ⟨_, _, _, _, _, _, a, b, hna, hnb, _, ha, hb⟩ := h
  rw [notNumberOrNegative_eq_false_iff] at ha hb
  have ha3 := JSNum.mul_fin_ge_zero _ 3 (by norm_num) ha
  have hb2 := JSNum.mul_fin_ge_zero _ 2 (by norm_num) hb
  refine ⟨_, calculateTotalPurchase_eq_some _ _ a b hna hnb, ?_⟩
  rcases JSNum.eq_fin_of_ge_zero _ ha3 with h1 | ⟨p, hp, h1⟩ <;>
    rcases JSNum.eq_fin_of_ge_zero _ hb2 with h2 | ⟨q, hq, h2⟩ <;> rw [h1, h2]
  · exact Or.inl rfl
  · exact Or.inl rfl
  · exact Or.inl rfl
  · simp only [JSNum.add]
    rcases (add_nonneg hp hq).eq_or_lt with h0 | hpos
    · right
      rw [← h0]
      exact ⟨0, le_rfl, by simp [roundBinary64], by simp [roundBinary64]⟩
    · rcases JSNum.eq_fin_of_ge_zero _ (roundBinary64_nonneg _ hpos.le) with h3 | ⟨r, hr, h3⟩
      · exact Or.inl h3
      · exact Or.inr ⟨r, hr, roundBinary64_idem _ _ hpos h3, h3⟩

/-- For a body that passes validation with a finite subtotal and a province that converts to a
key which is not inherited from `Object.prototype`, the total cost `generateReceipt` computes is
`>=` the subtotal. -/
theorem totalCost_ge_subtotal_of_valid
    (name address city province phoneNumber email apples bananas : Field) (key : String)
    (h : validateInputs name address city province phoneNumber email apples bananas = some [])
    (hfin : calculateTotalPurchase apples.toVal bananas.toVal ≠ some .posInf)
    (hk : province.toStr? = some key) (hp : key ∉ objectPrototypeKeys) :
    ∃ totalPurchase pricing,
      calculateTotalPurchase apples.toVal bananas.toVal = some totalPurchase ∧
      generateReceiptPricing province totalPurchase = some pricing ∧
      pricing.totalCost.ge totalPurchase = true := by
  obtain ⟨t, ht, h1 | ⟨s, hs, hrep, h1⟩⟩ :=
    subtotal_of_valid name address city province phoneNumber email apples bananas h
  · rw [ht, h1] at hfin
    exact absurd rfl hfin
  · subst h1
    obtain ⟨pricing, hpr, hge⟩ := totalCost_ge_subtotal_of_not_inherited province key s hs hrep
      hk hp
    exact ⟨_, pricing, ht, hpr, hge⟩


/-! ## Plain integers: `parseInt` and `ToNumber` agree -/

theorem not_whiteSpace_of_digit (c : Char) (h : isDecimalDigit c = true) :
    isJSWhiteSpace c = false := by
  simp only [isDecimalDigit, Bool.and_eq_true, decide_eq_true_eq] at h
  simp only [isJSWhiteSpace, Bool.or_eq_false_iff, Bool.and_eq_false_iff, decide_eq_false_iff_not]
  omega

theorem digitValue_of_digit (c : Char) (h : isDecimalDigit c = true) :
    digitValue 10 c = some (c.toNat - 48) := by
  simp only [isDecimalDigit, Bool.and_eq_true, decide_eq_true_eq] at h
  have h1 : c.toNat - 48 < 10 := by omega
  simp [digitValue, h.1, h.2, h1]

theorem foldl_digits_isSome (cs : List Char) (hd : ∀ c ∈ cs, isDecimalDigit c = true) :
    ∀ acc : ℕ, ∃ n : ℕ, cs.foldl (fun acc c =>
      match acc, digitValue 10 c with
      | some a, some d => some (10 * a + d)
      | _, _ => none) (some acc) = some n := by
  induction cs with
  | nil => intro acc; exact ⟨acc, rfl⟩
  | cons c cs ih =>
    intro acc
    rw [List.foldl_cons, digitValue_of_digit c (hd c (by simp))]
    exact ih (fun d hdm => hd d (List.mem_cons_of_mem _ hdm)) _

theorem digitsValue_of_digits (cs : List Char) (hne : cs ≠ [])
    (hd : ∀ c ∈ cs, isDecimalDigit c = true) : ∃ n : ℕ, digitsValue 10 cs = some n := by
  unfold digitsValue
  rw [if_neg hne]
  exact foldl_digits_isSome cs hd 0


theorem dropWhile_whiteSpace_of_digits (cs : List Char)
    (hd : ∀ c ∈ cs, isDecimalDigit c = true) : cs.dropWhile isJSWhiteSpace = cs := by
  cases cs with
  | nil => rfl
  | cons c cs =>
    rw [List.dropWhile_cons_of_neg]
    simp [not_whiteSpace_of_digit c (hd c (by simp))]

theorem trimJS_of_digits (cs : List Char) (hd : ∀ c ∈ cs, isDecimalDigit c = true) :
    trimJS cs = cs := by
  unfold trimJS
  rw [dropWhile_whiteSpace_of_digits cs hd,
    dropWhile_whiteSpace_of_digits cs.reverse (fun c hc => hd c (List.mem_reverse.1 hc)),
    List.reverse_reverse]

theorem parseNonDecimal_of_digits (cs : List Char) (hd : ∀ c ∈ cs, isDecimalDigit c = true) :
    parseNonDecimal cs = none := by
  unfold parseNonDecimal
  split
  all_goals first
    | rfl
    | (exfalso
       rename_i ds
       have h := hd _ (List.mem_cons_of_mem _ (List.mem_cons_self _ ds))
       revert h
       decide)

/-- On a non-empty string of decimal digits, `ToNumber` gives the value of the digits,
rounded. -/
theorem stringToNumber_of_digits (s : String) (hne : s.toList ≠ [])
    (hd : ∀ c ∈ s.toList, isDecimalDigit c = true) :
    ∃ n : ℕ, digitsValue 10 s.toList = some n ∧ stringToNumber s = roundBinary64 n := by
  obtain ⟨n, hn⟩ := digitsValue_of_digits s.toList hne hd
  refine ⟨n, hn, ?_⟩
  obtain ⟨c, cs, hcs⟩ := List.exists_cons_of_ne_nil hne
  have hc : isDecimalDigit c = true := hd c (by rw [hcs]; simp)
  have hminus : c ≠ '-' := by rintro rfl; revert hc; decide
  have hplus : c ≠ '+' := by rintro rfl; revert hc; decide
  have hI : c ≠ 'I' := by rintro rfl; revert hc; decide
  have htake : (c :: cs).takeWhile isDecimalDigit = c :: cs :=
    List.takeWhile_eq_self_iff.2 (by rw [← hcs]; exact hd)
  have hdrop : (c :: cs).dropWhile isDecimalDigit = [] :=
    List.dropWhile_eq_nil_iff.2 (by rw [← hcs]; exact hd)
  have hn2 : digitsValue 10 (c :: cs) = some n := by rw [← hcs]; exact hn
  have h0 : digitsValue 10 [] = none := rfl
  have hp0 : pow10 0 = 1 := by simp [pow10]
  have hpu : parseUnsignedDecimal (c :: cs) = some (n : ℚ) := by
    unfold parseUnsignedDecimal
    simp only [htake, hdrop, hn2, h0, parseExponent]
    simp [hp0]
  have hneg : (match c :: cs with
      | '-' :: _ => true
      | _ => false) = false := by
    split
    · rename_i heq
      exact absurd (List.cons.inj heq).1 hminus
    · rfl
  have hu : (match c :: cs with
      | '-' :: r => r
      | '+' :: r => r
      | _ => c :: cs) = c :: cs := by
    split
    · rename_i heq
      exact absurd (List.cons.inj heq).1 hminus
    · rename_i heq
      exact absurd (List.cons.inj heq).1 hplus
    · rfl
  have hinf : c :: cs ≠ "Infinity".toList := by
    intro heq
    exact hI (List.cons.inj heq).1
  have hd2 : ∀ x ∈ c :: cs, isDecimalDigit x = true := by rw [← hcs]; exact hd
  unfold stringToNumber
  simp only [hcs, trimJS_of_digits _ hd2, parseNonDecimal_of_digits _ hd2, hneg, hu, hpu,
    if_neg hinf, if_neg (List.cons_ne_nil c cs)]
  simp

/-- On a non-empty string of decimal digits, `parseInt` gives the value of the digits,
rounded. -/
theorem parseInt_of_digits (s : String) (hne : s.toList ≠ [])
    (hd : ∀ c ∈ s.toList, isDecimalDigit c = true) :
    ∃ n : ℕ, digitsValue 10 s.toList = some n ∧
      parseInt (.str s) = some (roundBinary64 n) := by
  obtain ⟨n, hn⟩ := digitsValue_of_digits s.toList hne hd
  refine ⟨n, hn, ?_⟩
  obtain ⟨c, cs, hcs⟩ := List.exists_cons_of_ne_nil hne
  have hd2 : ∀ x ∈ c :: cs, isDecimalDigit x = true := by rw [← hcs]; exact hd
  have hc : isDecimalDigit c = true := hd2 c (by simp)
  have hminus : c ≠ '-' := by rintro rfl; revert hc; decide
  have hplus : c ≠ '+' := by rintro rfl; revert hc; decide
  have hn2 : digitsValue 10 (c :: cs) = some n := by rw [← hcs]; exact hn
  have hneg : (match c :: cs with
      | '-' :: _ => true
      | _ => false) = false := by
    split
    · rename_i heq
      exact absurd (List.cons.inj heq).1 hminus
    · rfl
  have hu : (match c :: cs with
      | '-' :: r => r
      | '+' :: r => r
      | _ => c :: cs) = c :: cs := by
    split
    · rename_i heq
      exact absurd (List.cons.inj heq).1 hminus
    · rename_i heq
      exact absurd (List.cons.inj heq).1 hplus
    · rfl
  have hradix : (match c :: cs with
      | '0' :: 'x' :: _ => 16
      | '0' :: 'X' :: _ => 16
      | _ => 10) = 10 := by
    split
    · rename_i ds heq
      rw [heq] at hd2
      exact absurd (hd2 'x' (by simp)) (by decide)
    · rename_i ds heq
      rw [heq] at hd2
      exact absurd (hd2 'X' (by simp)) (by decide)
    · rfl
  have hrest : (match c :: cs with
      | '0' :: 'x' :: r => r
      | '0' :: 'X' :: r => r
      | _ => c :: cs) = c :: cs := by
    split
    · rename_i ds heq
      rw [heq] at hd2
      exact absurd (hd2 'x' (by simp)) (by decide)
    · rename_i ds heq
      rw [heq] at hd2
      exact absurd (hd2 'X' (by simp)) (by decide)
    · rfl
  have htake : (c :: cs).takeWhile (fun x => (digitValue 10 x).isSome) = c :: cs :=
    List.takeWhile_eq_self_iff.2 (fun x hx => by rw [digitValue_of_digit x (hd2 x hx)]; rfl)
  unfold parseInt
  simp only [Field.toStr?, Option.bind_eq_bind, Option.some_bind, Option.pure_def, hcs,
    dropWhile_whiteSpace_of_digits _ hd2, hneg, hu, hradix, hrest, htake, hn2]
  simp

/-- On non-empty strings of decimal digits the saved quantities are the priced ones: pricing
what `parseInt` reads gives the subtotal. -/
theorem calculateTotalPurchase_parseInt_of_digits (apples bananas : String)
    (ha : apples.toList ≠ []) (hb : bananas.toList ≠ [])
    (hda : ∀ c ∈ apples.toList, isDecimalDigit c = true)
    (hdb : ∀ c ∈ bananas.toList, isDecimalDigit c = true) :
    ∃ n m, parseInt (.str apples) = some n ∧ parseInt (.str bananas) = some m ∧
      calculateTotalPurchase (.num n) (.num m) =
        calculateTotalPurchase (Field.str apples).toVal (Field.str bananas).toVal := by
  obtain ⟨n, hn, h1⟩ := stringToNumber_of_digits apples ha hda
  obtain ⟨n2, hn2, h2⟩ := parseInt_of_digits apples ha hda
  obtain ⟨m, hm, h3⟩ := stringToNumber_of_digits bananas hb hdb
  obtain ⟨m2, hm2, h4⟩ := parseInt_of_digits bananas hb hdb
  have e1 : n = n2 := Option.some.inj (hn.symm.trans hn2)
  have e2 : m = m2 := Option.some.inj (hm.symm.trans hm2)
  refine ⟨_, _, h2, h4, ?_⟩
  simp [calculateTotalPurchase, JSVal.toNumber?, Field.toVal, h1, h3, e1, e2]

/-! ## Text inside the receipt -/

theorem infix_of_infix_append_cons {m l1 l2 : List Char} {b : Char} (hb : b ∉ m)
    (h : m <:+: l1 ++ b :: l2) : m <:+: l1 ∨ m <:+: l2 := by
  obtain ⟨s, t, hst⟩ := h
  rw [List.append_assoc, List.append_eq_append_iff] at hst
  rcases hst with ⟨a, h1, h2⟩ | ⟨c, h1, h2⟩
  · left
    rw [List.append_eq_append_iff] at h2
    rcases h2 with ⟨a2, h3, _⟩ | ⟨c2, h3, h4⟩
    · rw [h1, h3]
      exact ⟨s, a2, by simp⟩
    · cases c2 with
      | nil =>
        rw [h1, h3, List.append_nil]
        exact ⟨s, [], by simp⟩
      | cons x c2 =>
        simp only [List.cons_append, List.cons.injEq] at h4
        exact absurd (by rw [h3, h4.1]; simp) hb
  · cases c with
    | nil =>
      simp only [List.nil_append] at h2
      cases m with
      | nil => left; exact ⟨[], l1, by simp⟩
      | cons x m =>
        simp only [List.cons_append, List.cons.injEq] at h2
        exact absurd (by rw [h2.1]; simp) hb
    | cons x c =>
      simp only [List.cons_append, List.cons.injEq] at h2
      right
      rw [h2.2]
      exact ⟨c, t, by simp⟩

theorem headSafe_cons {m : List Char} {c : Char} {lit : List Char}
    (h : headSafe m (c :: lit) = true) :
    ¬ (c :: lit) <+: m ∧ ¬ m <+: (c :: lit) ∧ headSafe m lit = true := by
  simp only [headSafe, List.tails, List.all_cons, List.isEmpty_cons, Bool.false_or,
    Bool.and_eq_true, Bool.not_eq_true', List.isPrefixOf_iff_prefix,
    decide_eq_false_iff_not] at h
  refine ⟨?_, ?_, ?_⟩
  · intro hp
    have := h.1.1
    simp [List.isPrefixOf_iff_prefix.2 hp] at this
  · intro hp
    have := h.1.2
    simp [List.isPrefixOf_iff_prefix.2 hp] at this
  · simpa [headSafe] using h.2

theorem infix_of_infix_headSafe_append {m : List Char} (lit d : List Char)
    (hs : headSafe m lit = true) (h : m <:+: lit ++ d) : m <:+: d := by
  induction lit with
  | nil => simpa using h
  | cons c lit ih =>
    obtain ⟨h1, h2, h3⟩ := headSafe_cons hs
    rw [List.cons_append, List.infix_cons_iff] at h
    rcases h with h | h
    · exfalso
      have hp : (c :: lit) <+: c :: (lit ++ d) := ⟨d, rfl⟩
      rcases List.prefix_or_prefix_of_prefix h hp with h' | h'
      · exact h2 h'
      · exact h1 h'
    · exact ih h3 h

/-- One block of a page: a literal, a filled-in part, a character the text `m` does not have. -/
theorem not_infix_block {m : List Char} (lit d rest : List Char) (b : Char) (hb : b ∉ m)
    (hs : headSafe m lit = true) (hd : ¬ m <:+: d) (hrest : ¬ m <:+: rest) :
    ¬ m <:+: lit ++ (d ++ b :: rest) := by
  intro h
  rw [← List.append_assoc] at h
  rcases infix_of_infix_append_cons hb h with h | h
  · exact hd (infix_of_infix_headSafe_append lit d hs h)
  · exact hrest h

theorem not_infix_concat {m d : List Char} {c : Char} (hm : m.getLast? ≠ some c)
    (hd : ¬ m <:+: d) : ¬ m <:+: d ++ [c] := by
  intro h
  rw [List.infix_concat_iff] at h
  rcases h with h | h
  · obtain ⟨t, ht⟩ := h
    have h1 := congrArg List.getLast? ht
    cases m with
    | nil => exact hd ⟨[], d, by simp⟩
    | cons x m =>
      rw [List.getLast?_append_of_ne_nil _ (by simp), List.getLast?_concat] at h1
      exact hm h1
  · exact hd h

theorem digitChar_ne_at (d : ℕ) (hd : d < 10) : Nat.digitChar d ≠ '@' := by
  interval_cases d <;> decide

theorem toDigitsCore_ne_at (fuel : ℕ) : ∀ (n : ℕ) (ds : List Char),
    (∀ c ∈ ds, c ≠ '@') → ∀ c ∈ Nat.toDigitsCore 10 fuel n ds, c ≠ '@' := by
  induction fuel with
  | zero => intro n ds h; simpa [Nat.toDigitsCore] using h
  | succ fuel ih =>
    intro n ds h
    have hcons : ∀ c ∈ Nat.digitChar (n % 10) :: ds, c ≠ '@' := by
      intro c hc
      rcases List.mem_cons.1 hc with rfl | hc
      · exact digitChar_ne_at _ (Nat.mod_lt _ (by norm_num))
      · exact h c hc
    unfold Nat.toDigitsCore
    simp only
    split_ifs
    · exact hcons
    · exact ih _ _ hcons

theorem decimalDigits_ne_at (n : ℕ) : ∀ c ∈ decimalDigits n, c ≠ '@' :=
  toDigitsCore_ne_at _ _ _ (by simp)

theorem numberToStringLarge_ne_at (x : ℚ) : ∀ c ∈ numberToStringLarge x, c ≠ '@' := by
  have hexp : ∀ n : ℕ, ∀ c ∈ 'e' :: '+' :: decimalDigits n, c ≠ '@' := by
    intro n c hc
    simp only [List.mem_cons] at hc
    rcases hc with rfl | rfl | hc
    · decide
    · decide
    · exact decimalDigits_ne_at n c hc
  unfold numberToStringLarge
  simp only
  split_ifs
  · intro c hc
    rcases List.mem_cons.1 hc with rfl | hc
    · decide
    · exact hexp _ c hc
  · split
    · exact decimalDigits_ne_at _
    · rename_i s _
      have hs := decimalDigits_ne_at s
      split
      · exact hexp _
      · rename_i d hd
        rw [hd] at hs
        intro c hc
        rcases List.mem_cons.1 hc with rfl | hc
        · exact hs _ (by simp)
        · exact hexp _ c hc
      · rename_i d ds _ hd
        rw [hd] at hs
        intro c hc
        simp only [List.mem_cons, List.mem_append] at hc
        rcases hc with rfl | rfl | hc | hc
        · exact hs _ (by simp)
        · decide
        · exact hs _ (by simp [hc])
        · exact hexp _ c (by simpa using hc)

/-- The text `toFixed(2)` produces has no `@`. -/
theorem toFixed2_ne_at (n : JSNum) : ∀ c ∈ (toFixed2 n).data, c ≠ '@' := by
  cases n with
  | nan => decide
  | posInf => decide
  | negInf => decide
  | fin q =>
    have hsign : ∀ c ∈ (if q < 0 then "-" else "").data, c ≠ '@' := by
      split_ifs <;> decide
    unfold toFixed2
    simp only
    generalize (if q < 0 then "-" else "") = sign at hsign ⊢
    split_ifs with h1 h2
    · intro c hc
      simp only [String.data_append, List.mem_append] at hc
      rcases hc with hc | hc
      · exact hsign c hc
      · exact numberToStringLarge_ne_at _ c hc
    · intro c hc
      simp only [String.data_append, List.mem_append] at hc
      rcases hc with ((hc | hc) | hc) | hc
      · exact hsign c hc
      · have := List.mem_of_mem_take hc
        rcases List.mem_append.1 this with h | h
        · rw [(List.mem_replicate.1 h).2]; decide
        · exact decimalDigits_ne_at _ c h
      · revert c; decide
      · have := List.mem_of_mem_drop hc
        rcases List.mem_append.1 this with h | h
        · rw [(List.mem_replicate.1 h).2]; decide
        · exact decimalDigits_ne_at _ c h
    · intro c hc
      simp only [String.data_append, List.mem_append] at hc
      rcases hc with ((hc | hc) | hc) | hc
      · exact hsign c hc
      · exact decimalDigits_ne_at _ c (List.mem_of_mem_take hc)
      · revert c; decide
      · exact decimalDigits_ne_at _ c (List.mem_of_mem_drop hc)

theorem not_infix_toFixed2 {m : List Char} (hm : '@' ∈ m) (n : JSNum) :
    ¬ m <:+: (toFixed2 n).data :=
  fun h => toFixed2_ne_at n '@' (h.subset hm) rfl


/-! ## A string that denotes a number has no `@` -/

theorem mem_dropWhile_of_not (p : Char → Bool) (c : Char) (hc : p c = false) :
    ∀ l : List Char, c ∈ l → c ∈ l.dropWhile p := by
  intro l
  induction l with
  | nil => intro h; cases h
  | cons x xs ih =>
    intro h
    rw [List.dropWhile_cons]
    split_ifs with hx
    · rcases List.mem_cons.1 h with rfl | h
      · rw [hc] at hx; cases hx
      · exact ih h
    · exact h

theorem mem_trimJS_of_not_whiteSpace (c : Char) (hc : isJSWhiteSpace c = false)
    (cs : List Char) (h : c ∈ cs) : c ∈ trimJS cs := by
  unfold trimJS
  rw [List.mem_reverse]
  apply mem_dropWhile_of_not _ _ hc
  rw [List.mem_reverse]
  exact mem_dropWhile_of_not _ _ hc _ h

theorem digitValue_at (base : ℕ) : digitValue base '@' = none := by
  simp [digitValue]

theorem foldl_digits_none (base : ℕ) (cs : List Char) :
    cs.foldl (fun acc c =>
      match acc, digitValue base c with
      | some a, some d => some (base * a + d)
      | _, _ => none) none = none := by
  induction cs with
  | nil => rfl
  | cons c cs ih => rw [List.foldl_cons]; exact ih

theorem foldl_digits_some (base : ℕ) (cs : List Char) : ∀ (acc : Option ℕ) (n : ℕ),
    cs.foldl (fun acc c =>
      match acc, digitValue base c with
      | some a, some d => some (base * a + d)
      | _, _ => none) acc = some n → ∀ c ∈ cs, digitValue base c ≠ none := by
  induction cs with
  | nil => intro acc n _ c hc; cases hc
  | cons x xs ih =>
    intro acc n h c hc
    rw [List.foldl_cons] at h
    rcases List.mem_cons.1 hc with rfl | hc
    · intro hx
      rw [hx] at h
      have : (match acc, (none : Option ℕ) with
        | some a, some d => some (base * a + d)
        | _, _ => none) = none := by
        cases acc <;> rfl
      rw [this, foldl_digits_none] at h
      cases h
    · exact ih _ n h c hc

/-- A run of digits that has a value has no `@`. -/
theorem not_at_mem_of_digitsValue (base : ℕ) (cs : List Char) (n : ℕ)
    (h : digitsValue base cs = some n) : '@' ∉ cs := by
  intro hmem
  unfold digitsValue at h
  split_ifs at h
  exact foldl_digits_some base cs _ n h '@' hmem (digitValue_at base)

theorem not_at_mem_of_parseNonDecimal (t : List Char) (n : ℕ)
    (h : parseNonDecimal t = some n) : '@' ∉ t := by
  unfold parseNonDecimal at h
  split at h
  all_goals first
    | cases h
    | (intro hmem
       have h2 := not_at_mem_of_digitsValue _ _ _ h
       simp only [List.mem_cons] at hmem
       rcases hmem with hm | hm | hm
       · revert hm; decide
       · revert hm; decide
       · exact h2 hm)

theorem not_at_mem_of_parseExponent (r : List Char) (e : ℤ)
    (h : parseExponent r = some e) : '@' ∉ r := by
  unfold parseExponent at h
  split at h
  · simp
  · rename_i c rest
    split_ifs at h with hc
    intro hmem
    have hc2 : c ≠ '@' := by
      rcases hc with rfl | rfl <;> decide
    rcases List.mem_cons.1 hmem with hm | hm
    · exact hc2 hm.symm
    · split at h
      · rename_i ds
        rcases List.mem_cons.1 hm with hm | hm
        · revert hm; decide
        · cases hd : digitsValue 10 ds with
          | none => rw [hd] at h; cases h
          | some n => exact not_at_mem_of_digitsValue _ _ _ hd hm
      · rename_i ds
        rcases List.mem_cons.1 hm with hm | hm
        · revert hm; decide
        · cases hd : digitsValue 10 ds with
          | none => rw [hd] at h; cases h
          | some n => exact not_at_mem_of_digitsValue _ _ _ hd hm
      · cases hd : digitsValue 10 rest with
        | none => rw [hd] at h; cases h
        | some n => exact not_at_mem_of_digitsValue _ _ _ hd hm

theorem not_at_mem_takeWhile_digit (cs : List Char) : '@' ∉ cs.takeWhile isDecimalDigit := by
  intro h
  have := List.mem_takeWhile_imp h
  revert this
  decide

theorem not_at_mem_of_parseUnsignedDecimal (u : List Char) (q : ℚ)
    (h : parseUnsignedDecimal u = some q) : '@' ∉ u := by
  unfold parseUnsignedDecimal at h
  simp only at h
  split_ifs at h with hemp
  have hsplit : u = u.takeWhile isDecimalDigit ++ u.dropWhile isDecimalDigit :=
    (List.takeWhile_append_dropWhile _ _).symm
  intro hmem
  rw [hsplit, List.mem_append] at hmem
  rcases hmem with hm | hm
  · exact not_at_mem_takeWhile_digit _ hm
  · generalize u.dropWhile isDecimalDigit = r1 at h hm
    cases r1 with
    | nil => cases hm
    | cons c t =>
      by_cases hdot : c = '.'
      · subst hdot
        simp only at h
        cases he : parseExponent (t.dropWhile isDecimalDigit) with
        | none => rw [he] at h; cases h
        | some e =>
          have h3 := not_at_mem_of_parseExponent _ _ he
          rcases List.mem_cons.1 hm with hm | hm
          · revert hm; decide
          · rw [← List.takeWhile_append_dropWhile isDecimalDigit t, List.mem_append] at hm
            rcases hm with hm | hm
            · exact not_at_mem_takeWhile_digit _ hm
            · exact h3 hm
      · have e1 : (match c :: t with
            | '.' :: t => t.dropWhile isDecimalDigit
            | _ => c :: t) = c :: t := by
          split
          · rename_i heq
            exact absurd (List.cons.inj heq).1 hdot
          · rfl
        rw [e1] at h
        cases he : parseExponent (c :: t) with
        | none => rw [he] at h; cases h
        | some e => exact not_at_mem_of_parseExponent _ _ he hm

/-- A string with an `@` in it converts to `NaN`. -/
theorem stringToNumber_of_at_mem (s : String) (h : '@' ∈ s.toList) :
    stringToNumber s = .nan := by
  have ht : '@' ∈ trimJS s.toList := mem_trimJS_of_not_whiteSpace _ (by decide) _ h
  unfold stringToNumber
  simp only
  generalize trimJS s.toList = t at ht
  have hne : t ≠ [] := by
    rintro rfl
    cases ht
  rw [if_neg hne]
  cases hnd : parseNonDecimal t with
  | some n => exact absurd ht (not_at_mem_of_parseNonDecimal _ _ hnd)
  | none =>
    simp only
    have hu : '@' ∈ (match t with
        | '-' :: r => r
        | '+' :: r => r
        | _ => t) := by
      split
      · rcases List.mem_cons.1 ht with hm | hm
        · exact absurd hm (by decide)
        · exact hm
      · rcases List.mem_cons.1 ht with hm | hm
        · exact absurd hm (by decide)
        · exact hm
      · exact ht
    generalize (match t with
        | '-' :: r => r
        | '+' :: r => r
        | _ => t) = u at hu
    have hinf : u ≠ "Infinity".toList := by
      rintro rfl
      revert hu
      decide
    rw [if_neg hinf]
    cases hq : parseUnsignedDecimal u with
    | some q => exact absurd hu (not_at_mem_of_parseUnsignedDecimal _ _ hq)
    | none => rfl

/-- A field that converts to a number greater than zero converts to a string without `@`. -/
theorem not_at_mem_of_gt_zero (f : Field) (a : JSNum) (s : String)
    (ha : f.toVal.toNumber? = some a) (hs : f.toStr? = some s)
    (hgt : a.gt (.fin 0) = true) : '@' ∉ s.data := by
  intro hmem
  have hnan : stringToNumber s = .nan := stringToNumber_of_at_mem s hmem
  cases f with
  | undefined =>
    simp only [Field.toVal, JSVal.toNumber?, Option.some.injEq] at ha
    subst ha
    revert hgt
    decide
  | str t =>
    simp only [Field.toStr?, Option.some.injEq] at hs
    simp only [Field.toVal, JSVal.toNumber?, Option.some.injEq] at ha
    subst hs
    rw [hnan] at ha
    subst ha
    revert hgt
    decide
  | arr items =>
    simp only [Field.toVal, JSVal.toNumber?, hs, Option.map_some', Option.some.injEq] at ha
    rw [hnan] at ha
    subst ha
    revert hgt
    decide
  | obj entries =>
    simp only [Field.toVal, JSVal.toNumber?, hs, Option.map_some', Option.some.injEq] at ha
    rw [hnan] at ha
    subst ha
    revert hgt
    decide

/-! ## The quantity lines of the receipt -/

/-- The pricing part of the receipt returns for every province that converts to a string, and
its tax rate converts to a number. -/
theorem generateReceiptPricing_eq_some (province : Field) (key : String)
    (totalPurchase : JSNum) (hk : province.toStr? = some key) :
    ∃ pricing rate, generateReceiptPricing province totalPurchase = some pricing ∧
      pricing.taxRate.toNumber? = some rate := by
  unfold generateReceiptPricing salesTaxRatesGet
  simp only [hk, Option.bind_eq_bind, Option.some_bind, Option.pure_def]
  cases hl : salesTaxRates.lookup key with
  | none =>
    by_cases hin : key ∈ objectPrototypeKeys
    · simp [hin, JSVal.or, JSVal.truthy, JSVal.toNumber?]
    · simp [hin, JSVal.or, JSVal.truthy, JSVal.toNumber?]
  | some rate => simp [JSVal.or, salesTaxRates_truthy _ _ hl, JSVal.toNumber?]

/-- The apples line, on the number and the string the field converts to. -/
theorem applesLine_eq (formData : FormData) (a : JSNum) (s : String)
    (ha : formData.apples.toVal.toNumber? = some a) (hs : formData.apples.toStr? = some s) :
    applesLine formData = some (if a.gt (.fin 0) = true then
      "<p>Apples Purchased @ $3: " ++ s ++ " - $" ++ toFixed2 (a.mul (.fin 3)) ++ "</p>"
      else "") := by
  unfold applesLine
  simp only [ha, hs, Option.bind_eq_bind, Option.some_bind, Option.pure_def]
  split_ifs <;> rfl

/-- The bananas line, on the number and the string the field converts to. -/
theorem bananasLine_eq (formData : FormData) (b : JSNum) (s : String)
    (hb : formData.bananas.toVal.toNumber? = some b) (hs : formData.bananas.toStr? = some s) :
    bananasLine formData = some (if b.gt (.fin 0) = true then
      "<p>Bananas Purchased @ $2: " ++ s ++ " - $" ++ toFixed2 (b.mul (.fin 2)) ++ "</p>"
      else "") := by
  unfold bananasLine
  simp only [hb, hs, Option.bind_eq_bind, Option.some_bind, Option.pure_def]
  split_ifs <;> rfl

/-- The function `generateReceipt` returns when the six text fields convert to strings and the
two quantities convert to numbers. -/
theorem generateReceipt_eq_some (formData : FormData) (totalPurchase a b : JSNum)
    (ht : ∀ f ∈ formData.textFields, f.toStr? ≠ none)
    (ha : formData.apples.toVal.toNumber? = some a)
    (hb : formData.bananas.toVal.toNumber? = some b) :
    ∃ html, generateReceipt formData totalPurchase = some html := by
  simp only [FormData.textFields, List.mem_cons, List.mem_singleton, forall_eq_or_imp,
    forall_eq, List.not_mem_nil, false_implies, implies_true, and_true] at ht
  obtain ⟨t1, t2, t3, t4, t5, t6⟩ := ht
  obtain ⟨name, h1⟩ := Option.ne_none_iff_exists'.1 t1
  obtain ⟨email, h2⟩ := Option.ne_none_iff_exists'.1 t2
  obtain ⟨phoneNumber, h3⟩ := Option.ne_none_iff_exists'.1 t3
  obtain ⟨address, h4⟩ := Option.ne_none_iff_exists'.1 t4
  obtain ⟨city, h5⟩ := Option.ne_none_iff_exists'.1 t5
  obtain ⟨province, h6⟩ := Option.ne_none_iff_exists'.1 t6
  obtain ⟨sa, hsa⟩ := toStr?_of_toNumber? _ _ ha
  obtain ⟨sb, hsb⟩ := toStr?_of_toNumber? _ _ hb
  obtain ⟨pricing, rate, hpr, hrate⟩ :=
    generateReceiptPricing_eq_some formData.province province totalPurchase h6
  unfold generateReceipt
  simp only [hpr, hrate, h1, h2, h3, h4, h5, h6, applesLine_eq formData a sa ha hsa,
    bananasLine_eq formData b sb hb hsb, Option.bind_eq_bind, Option.some_bind,
    Option.pure_def]
  exact ⟨_, rfl⟩

/-- The characters of the receipt, cut after every filled-in part. -/
theorem generateReceipt_data (formData : FormData) (totalPurchase : JSNum) (html : String)
    (h : generateReceipt formData totalPurchase = some html) :
    ∃ (name email phoneNumber address city province apples bananas : String)
      (percent tax totalCost : JSNum),
      formData.name.toStr? = some name ∧ formData.email.toStr? = some email ∧
      formData.phoneNumber.toStr? = some phoneNumber ∧
      formData.address.toStr? = some address ∧ formData.city.toStr? = some city ∧
      formData.province.toStr? = some province ∧
      applesLine formData = some apples ∧ bananasLine formData = some bananas ∧
      html.data =
        "<h1>Receipt</h1>\n            <p>Name: ".data ++ (name.data ++ '<' ::
        ("/p>\n            <p>Email: ".data ++ (email.data ++ '<' ::
        ("/p>\n            <p>Phone Number: ".data ++ (phoneNumber.data ++ '<' ::
        ("/p>\n            <p>Address: ".data ++ (address.data ++ ',' ::
        (" ".data ++ (city.data ++ ',' ::
        (" ".data ++ (province.data ++ '<' ::
        ("/p>".data ++ ([] ++ '\n' ::
        ("            ".data ++ (apples.data ++ '\n' ::
        ("            ".data ++ (bananas.data ++ '\n' ::
        ("            <p>Total Purchase: $".data ++ ((toFixed2 totalPurchase).data ++ '<' ::
        ("/p>\n            <p>Sales Tax (".data ++ ((toFixed2 percent).data ++ '%' ::
        ("): $".data ++ ((toFixed2 tax).data ++ '<' ::
        ("/p>\n            <p>Total Cost: $".data ++ ((toFixed2 totalCost).data ++ '<' ::
        ("/p>".data ++ [])))))))))))))))))))))))))) := by
  obtain ⟨pricing, rate, name, email, phoneNumber, address, city, province, apples, bananas,
    _, _, h1, h2, h3, h4, h5, h6, h7, h8, rfl⟩ :=
    generateReceipt_some formData totalPurchase html h
  refine ⟨name, email, phoneNumber, address, city, province, apples, bananas,
    rate.mul (.fin 100), pricing.tax, pricing.totalCost, h1, h2, h3, h4, h5, h6, h7, h8, ?_⟩
  simp only [String.data_append, List.append_assoc]
  rfl

/-- A text fit for `markerOk` that is in none of the six text fields and in neither of the two
quantity lines is not in the receipt. -/
theorem not_infix_generateReceipt (m : List Char) (hm : markerOk m = true)
    (formData : FormData) (totalPurchase : JSNum) (html : String)
    (h : generateReceipt formData totalPurchase = some html)
    (hf : ∀ f ∈ formData.textFields, ∀ s, f.toStr? = some s → ¬ m <:+: s.data)
    (ha : ∀ line, applesLine formData = some line → ¬ m <:+: line.data)
    (hb : ∀ line, bananasLine formData = some line → ¬ m <:+: line.data) :
    ¬ m <:+: html.data := by
  simp only [markerOk, Bool.and_eq_true, decide_eq_true_eq] at hm
  obtain ⟨⟨⟨⟨⟨⟨⟨⟨⟨⟨⟨⟨⟨⟨⟨⟨⟨⟨hat, hlt⟩, hcomma⟩, hnl⟩, hpct⟩, _⟩, _⟩, s0⟩, s1⟩, s2⟩, s3⟩, s4⟩, s5⟩,
    s6⟩, s7⟩, s8⟩, s9⟩, s10⟩, _⟩ := hm
  have hnil : ¬ m <:+: [] := fun h => by
    rw [List.infix_nil] at h
    rw [h] at hat
    cases hat
  obtain ⟨name, email, phoneNumber, address, city, province, apples, bananas, percent, tax,
    totalCost, h1, h2, h3, h4, h5, h6, h7, h8, hdata⟩ :=
    generateReceipt_data formData totalPurchase html h
  simp only [FormData.textFields, List.mem_cons, List.mem_singleton, forall_eq_or_imp,
    forall_eq, List.not_mem_nil, false_implies, implies_true, and_true] at hf
  obtain ⟨f1, f2, f3, f4, f5, f6⟩ := hf
  rw [hdata]
  refine not_infix_block _ _ _ _ hlt s0 (f1 _ h1) ?_
  refine not_infix_block _ _ _ _ hlt s1 (f2 _ h2) ?_
  refine not_infix_block _ _ _ _ hlt s2 (f3 _ h3) ?_
  refine not_infix_block _ _ _ _ hcomma s3 (f4 _ h4) ?_
  refine not_infix_block _ _ _ _ hcomma s4 (f5 _ h5) ?_
  refine not_infix_block _ _ _ _ hlt s4 (f6 _ h6) ?_
  refine not_infix_block _ _ _ _ hnl s5 hnil ?_
  refine not_infix_block _ _ _ _ hnl s6 (ha _ h7) ?_
  refine not_infix_block _ _ _ _ hnl s6 (hb _ h8) ?_
  refine not_infix_block _ _ _ _ hlt s7 (not_infix_toFixed2 hat _) ?_
  refine not_infix_block _ _ _ _ hpct s8 (not_infix_toFixed2 hat _) ?_
  refine not_infix_block _ _ _ _ hlt s9 (not_infix_toFixed2 hat _) ?_
  refine not_infix_block _ _ _ _ hlt s10 (not_infix_toFixed2 hat _) ?_
  exact fun h => hnil (infix_of_infix_headSafe_append _ _ s5 h)

/-- A text fit for `markerOk` is not in a quantity line whose literal start cannot begin a match
of it, unless it is in the quantity as submitted. -/
theorem not_infix_quantity_line (m : List Char) (hm : markerOk m = true) (lit raw : String)
    (cost : JSNum) (hlit : headSafe m lit.data = true) (hraw : ¬ m <:+: raw.data) :
    ¬ m <:+: (lit ++ raw ++ " - $" ++ toFixed2 cost ++ "</p>").data := by
  simp only [markerOk, Bool.and_eq_true, decide_eq_true_eq] at hm
  obtain ⟨⟨⟨⟨⟨⟨⟨⟨⟨⟨⟨⟨⟨⟨⟨⟨⟨⟨hat, hlt⟩, _⟩, _⟩, _⟩, hminus⟩, hlast⟩, _⟩, _⟩, _⟩, _⟩, _⟩, s5⟩,
    _⟩, _⟩, _⟩, _⟩, _⟩, sd⟩ := hm
  have hnil : ¬ m <:+: [] := fun h => by
    rw [List.infix_nil] at h
    rw [h] at hat
    cases hat
  have hdata : (lit ++ raw ++ " - $" ++ toFixed2 cost ++ "</p>").data =
      lit.data ++ ((raw.data ++ [' ']) ++ '-' ::
        (" $".data ++ ((toFixed2 cost).data ++ '<' :: ("/p>".data ++ [])))) := by
    simp only [String.data_append, List.append_assoc]
    rfl
  rw [hdata]
  refine not_infix_block _ _ _ _ hminus hlit (not_infix_concat hlast hraw) ?_
  refine not_infix_block _ _ _ _ hlt sd (not_infix_toFixed2 hat _) ?_
  exact fun h => hnil (infix_of_infix_headSafe_append _ _ s5 h)

theorem markerOk_applesText : markerOk "Apples Purchased @ $3".data = true := by decide

theorem markerOk_bananasText : markerOk "Bananas Purchased @ $2".data = true := by decide

theorem infix_block_rest {m : List Char} (lit d rest : List Char) (b : Char)
    (h : m <:+: rest) : m <:+: lit ++ (d ++ b :: rest) := by
  obtain ⟨s, t, rfl⟩ := h
  exact ⟨lit ++ (d ++ b :: s), t, by simp⟩

theorem infix_block_part {m : List Char} (lit d rest : List Char) (b : Char)
    (h : m <:+: d) : m <:+: lit ++ (d ++ b :: rest) := by
  obtain ⟨s, t, rfl⟩ := h
  exact ⟨lit ++ s, t ++ b :: rest, by simp⟩

/-- What is in the apples line is in the receipt. -/
theorem infix_generateReceipt_of_applesLine (m : List Char) (formData : FormData)
    (totalPurchase : JSNum) (html line : String)
    (h : generateReceipt formData totalPurchase = some html)
    (hl : applesLine formData = some line) (hm : m <:+: line.data) : m <:+: html.data := by
  obtain ⟨_, _, _, _, _, _, apples, _, _, _, _, _, _, _, _, _, _, h7, _, hdata⟩ :=
    generateReceipt_data formData totalPurchase html h
  rw [hl] at h7
  cases h7
  rw [hdata]
  iterate 7 apply infix_block_rest
  exact infix_block_part _ _ _ _ hm

/-- What is in the bananas line is in the receipt. -/
theorem infix_generateReceipt_of_bananasLine (m : List Char) (formData : FormData)
    (totalPurchase : JSNum) (html line : String)
    (h : generateReceipt formData totalPurchase = some html)
    (hl : bananasLine formData = some line) (hm : m <:+: line.data) : m <:+: html.data := by
  obtain ⟨_, _, _, _, _, _, _, bananas, _, _, _, _, _, _, _, _, _, _, h8, hdata⟩ :=
    generateReceipt_data formData totalPurchase html h
  rw [hl] at h8
  cases h8
  rw [hdata]
  iterate 8 apply infix_block_rest
  exact infix_block_part _ _ _ _ hm

theorem not_infix_empty_string {m : List Char} (hm : markerOk m = true) : ¬ m <:+: "".data := by
  intro h
  have h0 : m = [] := List.infix_nil.1 h
  rw [h0] at hm
  revert hm
  decide

/-- A text with an `@` is not in a string without one. -/
theorem not_infix_of_not_at_mem {m : List Char} (hm : markerOk m = true) (s : String)
    (hs : '@' ∉ s.data) : ¬ m <:+: s.data := by
  simp only [markerOk, Bool.and_eq_true, decide_eq_true_eq] at hm
  intro h
  exact hs (h.subset hm.1.1.1.1.1.1.1.1.1.1.1.1.1.1.1.1.1.1)

/-- A text fit for `markerOk` that cannot begin in the literal start of the apples line is not
in the apples line: the line is empty, or shows a quantity that is a number greater than
zero, which has no `@`. -/
theorem not_infix_applesLine (m : List Char) (hm : markerOk m = true)
    (hs : headSafe m "<p>Apples Purchased @ $3: ".data = true) (formData : FormData)
    (a : JSNum) (ha : formData.apples.toVal.toNumber? = some a) :
    ∀ line, applesLine formData = some line → ¬ m <:+: line.data := by
  intro line hl
  obtain ⟨s, hstr⟩ := toStr?_of_toNumber? _ _ ha
  rw [applesLine_eq formData a s ha hstr] at hl
  by_cases hgt : a.gt (.fin 0) = true
  · rw [if_pos hgt] at hl
    cases hl
    exact not_infix_quantity_line m hm _ _ _ hs
      (not_infix_of_not_at_mem hm s (not_at_mem_of_gt_zero _ a s ha hstr hgt))
  · rw [if_neg hgt] at hl
    cases hl
    exact not_infix_empty_string hm

/-- The same for the bananas line. -/
theorem not_infix_bananasLine (m : List Char) (hm : markerOk m = true)
    (hs : headSafe m "<p>Bananas Purchased @ $2: ".data = true) (formData : FormData)
    (b : JSNum) (hb : formData.bananas.toVal.toNumber? = some b) :
    ∀ line, bananasLine formData = some line → ¬ m <:+: line.data := by
  intro line hl
  obtain ⟨s, hstr⟩ := toStr?_of_toNumber? _ _ hb
  rw [bananasLine_eq formData b s hb hstr] at hl
  by_cases hgt : b.gt (.fin 0) = true
  · rw [if_pos hgt] at hl
    cases hl
    exact not_infix_quantity_line m hm _ _ _ hs
      (not_infix_of_not_at_mem hm s (not_at_mem_of_gt_zero _ b s hb hstr hgt))
  · rw [if_neg hgt] at hl
    cases hl
    exact not_infix_empty_string hm

/-- C18 (counterexample): with apples `"0"` (not `> 0`) and a name that spells out a
receipt line, `generateReceipt` returns a receipt that contains the line
`<p>Apples Purchased @ $3: 1 - $3.00</p>`, hence the text `Apples Purchased @ $3`. -/
theorem receipt_apples_text_without_apples :
    (Field.str "0").toVal.toNumber? = some (.fin 0) ∧ JSNum.gt (.fin 0) (.fin 0) = false ∧
    ∃ html,
      generateReceipt
        { name := .str "Ann</p><p>Apples Purchased @ $3: 1 - $3.00</p><p>",
          address := .str "1 Main St", city := .str "Ottawa", province := .str "Ontario",
          phoneNumber := .str "555-555-5555", email := .str "a@b.c", apples := .str "0",
          bananas := .str "5" } (.fin 10) = some html ∧
      containsText html "<p>Apples Purchased @ $3: 1 - $3.00</p>" ∧
      containsText html "Apples Purchased @ $3" :=
  ⟨by decide!, by decide!,
   "<h1>Receipt</h1>\n            <p>Name: Ann</p><p>Apples Purchased @ $3: 1 - $3.00</p><p></p>\n            <p>Email: a@b.c</p>\n            <p>Phone Number: 555-555-5555</p>\n            <p>Address: 1 Main St, Ottawa, Ontario</p>\n            \n            <p>Bananas Purchased @ $2: 5 - $10.00</p>\n            <p>Total Purchase: $10.00</p>\n            <p>Sales Tax (13.00%): $1.30</p>\n            <p>Total Cost: $11.30</p>",
   by decide!, by decide!, by decide!⟩

/-- C18 (amended): for every form data whose six text fields convert to strings and whose
quantities convert to numbers, and every subtotal, `generateReceipt` returns a receipt; it
contains the text `Apples Purchased @ $3` whenever apples `> 0`, and, when none of the six
text fields (name, email, phone number, address, city, province) contains that text, exactly
when apples `> 0`; likewise for the text `Bananas Purchased @ $2` and bananas `> 0`. -/
theorem receipt_quantity_lines (formData : FormData) (totalPurchase a b : JSNum)
    (ht : ∀ f ∈ formData.textFields, f.toStr? ≠ none)
    (ha : formData.apples.toVal.toNumber? = some a)
    (hb : formData.bananas.toVal.toNumber? = some b) :
    ∃ html, generateReceipt formData totalPurchase = some html ∧
      (a.gt (.fin 0) = true → containsText html "Apples Purchased @ $3") ∧
      ((∀ f ∈ formData.textFields, ∀ s, f.toStr? = some s →
          ¬ containsText s "Apples Purchased @ $3") →
        (containsText html "Apples Purchased @ $3" ↔ a.gt (.fin 0) = true)) ∧
      (b.gt (.fin 0) = true → containsText html "Bananas Purchased @ $2") ∧
      ((∀ f ∈ formData.textFields, ∀ s, f.toStr? = some s →
          ¬ containsText s "Bananas Purchased @ $2") →
        (containsText html "Bananas Purchased @ $2" ↔ b.gt (.fin 0) = true)) := by
  obtain ⟨html, h⟩ := generateReceipt_eq_some formData totalPurchase a b ht ha hb
  obtain ⟨sa, hsa⟩ := toStr?_of_toNumber? _ _ ha
  obtain ⟨sb, hsb⟩ := toStr?_of_toNumber? _ _ hb
  have hla := applesLine_eq formData a sa ha hsa
  have hlb := bananasLine_eq formData b sb hb hsb
  have presentA : a.gt (.fin 0) = true → containsText html "Apples Purchased @ $3" := by
    intro hgt
    rw [if_pos hgt] at hla
    refine infix_generateReceipt_of_applesLine _ formData totalPurchase html _ h hla ?_
    simp only [String.data_append, List.append_assoc]
    exact ⟨"<p>".data, _, rfl⟩
  have presentB : b.gt (.fin 0) = true → containsText html "Bananas Purchased @ $2" := by
    intro hgt
    rw [if_pos hgt] at hlb
    refine infix_generateReceipt_of_bananasLine _ formData totalPurchase html _ h hlb ?_
    simp only [String.data_append, List.append_assoc]
    exact ⟨"<p>".data, _, rfl⟩
  refine ⟨html, h, presentA, fun hA => ⟨fun hin => ?_, presentA⟩, presentB,
    fun hB => ⟨fun hin => ?_, presentB⟩⟩
  · by_contra hgt
    refine not_infix_generateReceipt _ markerOk_applesText formData totalPurchase html h hA ?_
      (not_infix_bananasLine _ markerOk_applesText (by decide) formData b hb) hin
    intro line hl
    rw [hla, if_neg hgt] at hl
    cases hl
    exact not_infix_empty_string markerOk_applesText
  · by_contra hgt
    refine not_infix_generateReceipt _ markerOk_bananasText formData totalPurchase html h hB
      (not_infix_applesLine _ markerOk_bananasText (by decide) formData a ha) ?_ hin
    intro line hl
    rw [hlb, if_neg hgt] at hl
    cases hl
    exact not_infix_empty_string markerOk_bananasText

/-- Witness of C18 (amended) at an order of two apples and no bananas: the receipt has the
apples text and not the bananas text. -/
theorem receipt_quantity_lines_witness :
    (∀ f ∈ (sampleOrder "Ontario" "2" "0").textFields, f.toStr? ≠ none) ∧
    (sampleOrder "Ontario" "2" "0").apples.toVal.toNumber? = some (.fin 2) ∧
    (sampleOrder "Ontario" "2" "0").bananas.toVal.toNumber? = some (.fin 0) ∧
    ∃ html, generateReceipt (sampleOrder "Ontario" "2" "0") (.fin 6) = some html ∧
      (JSNum.gt (.fin 2) (.fin 0) = true → containsText html "Apples Purchased @ $3") ∧
      ((∀ f ∈ (sampleOrder "Ontario" "2" "0").textFields, ∀ s, f.toStr? = some s →
          ¬ containsText s "Apples Purchased @ $3") →
        (containsText html "Apples Purchased @ $3" ↔ JSNum.gt (.fin 2) (.fin 0) = true)) ∧
      (JSNum.gt (.fin 0) (.fin 0) = true → containsText html "Bananas Purchased @ $2") ∧
      ((∀ f ∈ (sampleOrder "Ontario" "2" "0").textFields, ∀ s, f.toStr? = some s →
          ¬ containsText s "Bananas Purchased @ $2") →
        (containsText html "Bananas Purchased @ $2" ↔ JSNum.gt (.fin 0) (.fin 0) = true)) :=
  ⟨by decide, by decide!, by decide!,
   receipt_quantity_lines (sampleOrder "Ontario" "2" "0") (.fin 6) (.fin 2) (.fin 0)
     (by decide) (by decide!) (by decide!)⟩

end FruitOrder
